import Mathlib

/-!
# PMO_EZ: sprint board reordering and server actions

A shallow embedding of
* `src/app/(main)/project/_components/sprint-board.jsx` (`reorder`, `onDragEnd`), and
* `src/actions/issues.js`, `src/actions/projects.js`, `src/actions/sprints.js`
  (the server actions over the Prisma store and the Clerk identity provider),
followed by the theorems that settle the claims made about them.

JavaScript objects are mutable and shared: `filter` returns a new array holding
the *same* card objects, so a write `card.order = i` through `sourceList` is seen
through `newOrderedData`.  The embedding keeps this: `newOrderedData` is the list
of objects, and a card reference is the position of its object in that list.
-/

namespace PMO

/-! ## Data model -/

/-- Modelled from the spec: the column table `@/data/status` and the Prisma schema are
not among the sources. Issue status (§3): the column keys of the board, which are the
droppable ids of a drag and the values of `issue.status`. -/
inductive IssueStatus where
  | TODO
  | IN_PROGRESS
  | IN_REVIEW
  | DONE
  deriving DecidableEq, Repr, Inhabited

/-- Modelled from the spec: the Prisma schema is not among the sources. Issue
priority (§3). -/
inductive IssuePriority where
  | LOW
  | MEDIUM
  | HIGH
  | URGENT
  deriving DecidableEq, Repr, Inhabited

/-- Sprint status: the values the source compares `sprint.status` and `newStatus`
with. -/
inductive SprintStatus where
  | PLANNED
  | ACTIVE
  | COMPLETED
  deriving DecidableEq, Repr

/-- Modelled from the spec: position of a status in the enumeration of §3, taken as
the left-to-right order of the columns and as the ascending order of
`orderBy: [{ status: "asc" }, ...]`. -/
def IssueStatus.rank : IssueStatus → Nat
  | .TODO => 0
  | .IN_PROGRESS => 1
  | .IN_REVIEW => 2
  | .DONE => 3

/-- An issue record, with the fields the actions read and write. -/
structure Issue where
  id : String
  title : String
  description : Option String
  status : IssueStatus
  order : Int
  priority : IssuePriority
  projectId : String
  sprintId : Option String
  reporterId : String
  assigneeId : Option String
  deriving DecidableEq, Repr, Inhabited

/-- A sprint record. Dates are instants (milliseconds since the epoch). -/
structure Sprint where
  id : String
  name : String
  startDate : Int
  endDate : Int
  status : SprintStatus
  projectId : String
  createdAt : Int
  deriving DecidableEq, Repr

/-! ## The board: `reorder` and `onDragEnd` (sprint-board.jsx) -/

/-- A value held in a card array: a reference to an object of `newOrderedData`
(its position there) or `undefined`. -/
abbrev Card := Option Nat

/-- JS `arr.splice(start, 1)` for `start ≥ 0`: the removed element (`undefined`
when `start` is past the end) and the array that remains. -/
def spliceRemove (arr : List Card) (start : Nat) : Card × List Card :=
  ((arr[start]?).join, arr.eraseIdx start)

/-- JS `arr.splice(start, 0, item)` for `start ≥ 0`: `start` is clamped to the length. -/
def spliceInsert (arr : List Card) (start : Nat) (item : Card) : List Card :=
  arr.take start ++ item :: arr.drop start

/-- The source's `reorder(list, startIndex, endIndex)`. -/
def reorder (list : List Card) (startIndex endIndex : Nat) : List Card :=
  let result := list
  let (removed, result) := spliceRemove result startIndex
  spliceInsert result endIndex removed

/-- The write `card.order = i` on the object at position `ref`. -/
def setOrder (objs : List Issue) (ref : Nat) (i : Int) : List Issue :=
  match objs[ref]? with
  | some c => objs.set ref { c with order := i }
  | none => objs

/-- The write `card.status = s` on the object at position `ref`. -/
def setStatus (objs : List Issue) (ref : Nat) (s : IssueStatus) : List Issue :=
  match objs[ref]? with
  | some c => objs.set ref { c with status := s }
  | none => objs

/-- Loop `cards.forEach((card, i) => { card.order = i; })`, started at index `i`.
Writing to `undefined` throws a TypeError: the result is then `Except.error` with
the objects as the writes made so far left them. -/
def assignOrders : List Card → Nat → List Issue → Except (List Issue) (List Issue)
  | [], _, objs => .ok objs
  | none :: _, _, objs => .error objs
  | some ref :: cards, i, objs => assignOrders cards (i + 1) (setOrder objs ref i)

/-- JS `newOrderedData.filter((list) => list.status === s)`: the references of the
objects whose status is `s`, in array order. -/
def filterStatus (objs : List Issue) (s : IssueStatus) : List Card :=
  ((List.range objs.length).filter
    (fun ref => (objs[ref]?).map Issue.status == some s)).map some

/-- JS `arr.sort((a, b) => a.order - b.order)`: the sort is stable (ECMAScript 2019),
so its result is the stable arrangement by ascending `order`, computed here by
insertion. -/
def sortByOrder (objs : List Issue) : List Issue :=
  objs.insertionSort (fun a b => a.order ≤ b.order)

/-- One end of a drag: the droppable (a column key) and the index in it. -/
structure DraggableLocation where
  droppableId : IssueStatus
  index : Nat
  deriving DecidableEq, Repr

/-- The drag-and-drop library's result handed to `onDragEnd`. -/
structure DropResult where
  source : DraggableLocation
  destination : Option DraggableLocation
  deriving DecidableEq, Repr

/-- Lines 126-167 of `onDragEnd`: from `const newOrderedData = [...issues]` to
`newOrderedData.sort(...)`. `Except.ok` carries `sortedIssues`; `Except.error` is a
TypeError and carries the objects as mutated up to the throw. -/
def reorderIssues (issues : List Issue) (source destination : DraggableLocation) :
    Except (List Issue) (List Issue) :=
  let newOrderedData := issues
  let sourceList := filterStatus newOrderedData source.droppableId
  let destinationList := filterStatus newOrderedData destination.droppableId
  if source.droppableId = destination.droppableId then
    let reorderedCards := reorder sourceList source.index destination.index
    match assignOrders reorderedCards 0 newOrderedData with
    | .error objs => .error objs
    | .ok objs => .ok (sortByOrder objs)
  else
    match spliceRemove sourceList source.index with
    | (none, _) => .error newOrderedData
    | (some movedCard, sourceList) =>
      let objs := setStatus newOrderedData movedCard destination.droppableId
      let destinationList := spliceInsert destinationList destination.index (some movedCard)
      match assignOrders sourceList 0 objs with
      | .error objs => .error objs
      | .ok objs =>
        match assignOrders destinationList 0 objs with
        | .error objs => .error objs
        | .ok objs => .ok (sortByOrder objs)

/-- A toast shown to the user. -/
inductive Toast where
  | error (msg : String)
  | warning (msg : String)
  deriving DecidableEq, Repr

/-- The component state `onDragEnd` reads: `currentSprint`, `issues` (absent until
fetched) and `filteredIssues`. -/
structure Board where
  currentSprint : Option Sprint
  issues : Option (List Issue)
  filteredIssues : List Issue
  deriving DecidableEq, Repr

/-- What a call of `onDragEnd` did. -/
inductive DragOutcome where
  -- an early `return`, after an optional toast: no state is written, nothing is persisted
  | returned (toast : Option Toast)
  -- a TypeError escaped; the issue objects are left as mutated so far
  | threw (objs : List Issue)
  -- `setIssues(sortedIssues)`, `setFilteredIssues(sortedIssues)` and
  -- `updateIssueOrderFn(sortedIssues)` were called
  | committed (sortedIssues : List Issue)
  deriving DecidableEq, Repr

/-- The source's `onDragEnd(result)`. -/
def onDragEnd (board : Board) (result : DropResult) : DragOutcome :=
  match board.currentSprint with
  | none => .returned (some (.error "No sprint selected"))
  | some currentSprint =>
    if currentSprint.status = .PLANNED then
      .returned (some (.warning "Start the sprint to update board"))
    else if currentSprint.status = .COMPLETED then
      .returned (some (.warning "Cannot update board after sprint end"))
    else
      let source := result.source
      match result.destination with
      | none => .returned none
      | some destination =>
        if destination.droppableId = source.droppableId ∧ destination.index = source.index then
          .returned none
        else
          match board.issues with
          | none => .returned (some (.error "No issues available to reorder"))
          | some issues =>
            if issues.length = 0 then
              .returned (some (.error "No issues available to reorder"))
            else
              match reorderIssues issues source destination with
              | .error objs => .threw objs
              | .ok sortedIssues => .committed sortedIssues

/-- The `issues` state after the call. -/
def DragOutcome.issuesAfter (board : Board) : DragOutcome → Option (List Issue)
  | .returned _ => board.issues
  | .threw objs => some objs
  | .committed sortedIssues => some sortedIssues

/-- The arguments of the calls of `updateIssueOrderFn` made by the call. -/
def DragOutcome.persisted : DragOutcome → List (List Issue)
  | .returned _ => []
  | .threw _ => []
  | .committed sortedIssues => [sortedIssues]

/-- The sub-sequence of a list shown in the column of status `s`:
`list.filter((issue) => issue.status === s)`. -/
def column (issues : List Issue) (s : IssueStatus) : List Issue :=
  issues.filter (fun c => c.status == s)


/-- The orders of a column, rewritten to the positions in it:
`order = i` for the card at index `i`. -/
def relabelFrom : Nat → List Issue → List Issue
  | _, [] => []
  | i, c :: cs => { c with order := (i : Int) } :: relabelFrom (i + 1) cs

/-- Relabelling from 0: `order` becomes the 0-based position. -/
def relabel (cs : List Issue) : List Issue := relabelFrom 0 cs

/-- Insertion of `a` before position `i` of `l` (at the end when `i` is the length). -/
def insertAt {α : Type} (l : List α) (i : Nat) (a : α) : List α :=
  l.take i ++ a :: l.drop i

/-- An issue with `status` and `order` blanked: all its other fields. -/
def Issue.frame (c : Issue) : Issue := { c with status := .TODO, order := 0 }

/-- The object a reference points to (a default issue for a dangling reference;
the references built by `filterStatus` never dangle). -/
def objAt (objs : List Issue) (ref : Nat) : Issue := (objs[ref]?).getD default

/-- The references of the objects of status `s`, in array order: the cards of
`filterStatus objs s`. -/
def refsOf (objs : List Issue) (s : IssueStatus) : List Nat :=
  (List.range objs.length).filter (fun ref => (objs[ref]?).map Issue.status == some s)

/-- Object list `objs'` is `objs` with the cards `rs` renumbered: the `k`-th card has
`order = k`, and nothing else differs. -/
structure Renumbered (objs : List Issue) (rs : List Nat) (objs' : List Issue) : Prop where
  length_eq : objs'.length = objs.length
  outside : ∀ r, r ∉ rs → objs'[r]? = objs[r]?
  inside : ∀ k (hk : k < rs.length),
    objs'[rs[k]]? = (objs[rs[k]]?).map (fun c => { c with order := (k : Int) })

/-- The cards moved within one column: the column's cards with the one at `si` taken
out and put back before position `di`. -/
def movedRefs (objs : List Issue) (s : IssueStatus) (si di : Nat) (moved : Nat) : List Nat :=
  insertAt ((refsOf objs s).eraseIdx si) di moved

/-- The facts about the cards of a cross-column move. -/
structure CrossRefs (issues : List Issue) (src dst : IssueStatus) (si di : Nat) : Prop where
  hsi : si < (refsOf issues src).length
  moved_lt : (refsOf issues src)[si] < issues.length
  moved_not_dst : (refsOf issues src)[si] ∉ refsOf issues dst
  moved_not_rest : (refsOf issues src)[si] ∉ (refsOf issues src).eraseIdx si
  nodup_rest : ((refsOf issues src).eraseIdx si).Nodup
  nodup_dest : (insertAt (refsOf issues dst) di (refsOf issues src)[si]).Nodup
  disjoint : ∀ r, r ∈ (refsOf issues src).eraseIdx si →
    r ∉ insertAt (refsOf issues dst) di (refsOf issues src)[si]

/-- The list is sorted by column first (board order of the statuses) and by `order`
within a column. -/
def SortedByStatusThenOrder (issues : List Issue) : Prop :=
  issues.Pairwise (fun a b =>
    a.status.rank < b.status.rank ∨ (a.status.rank = b.status.rank ∧ a.order ≤ b.order))

instance (issues : List Issue) : Decidable (SortedByStatusThenOrder issues) := by
  unfold SortedByStatusThenOrder; infer_instance

/-- The list is sorted by ascending `order` alone. -/
def SortedByOrder (issues : List Issue) : Prop :=
  issues.Pairwise (fun a b => a.order ≤ b.order)

/-! ### Example data -/

/-- Example issue with the given id, status and order. -/
def exIssue (id : String) (status : IssueStatus) (order : Int) : Issue :=
  { id := id, title := id, description := none, status := status, order := order,
    priority := .MEDIUM, projectId := "p1", sprintId := some "s1", reporterId := "u1",
    assigneeId := none }

/-- Example sprint, active. -/
def exSprint : Sprint :=
  { id := "s1", name := "Sprint 1", startDate := 0, endDate := 100, status := .ACTIVE,
    projectId := "p1", createdAt := 0 }

/-- Example board with an active sprint showing the given issues. -/
def exBoard (issues : List Issue) : Board :=
  { currentSprint := some exSprint, issues := some issues, filteredIssues := issues }

/-! ## The store (Prisma) and the identity provider (Clerk)

The server actions are embedded with explicit state: an action takes the environment
of the request and the world before the call, and returns what it returns or throws
together with the world after the call. The world holds the tables and a log of the
store operations performed, so that "before any store access" can be stated. The
store is sequential and reliable: an operation fails only for the reasons written
out below (a missing row, a dangling reference), never for loss of connection. -/

/-- A row of the user table. -/
structure User where
  id : String
  clerkUserId : String
  name : String
  email : String
  deriving DecidableEq, Repr

/-- A row of the project table. -/
structure Project where
  id : String
  name : String
  key : String
  description : Option String
  organizationId : String
  deriving DecidableEq, Repr

/-- The tables, and the counter from which the store draws the ids of new rows. -/
structure Db where
  users : List User
  projects : List Project
  sprints : List Sprint
  issues : List Issue
  idSeq : Nat
  deriving DecidableEq, Repr

/-- A store operation, as logged. -/
inductive DbOp where
  | userUpsert
  | issueFindMany
  | issueFindFirst
  | issueFindUnique
  | issueCreate
  | issueUpdate
  | issueDelete
  | projectFindFirst
  | projectFindUnique
  | projectCreate
  | projectDelete
  | sprintFindUnique
  | sprintCreate
  | sprintUpdate
  | queryRaw
  | transaction
  deriving DecidableEq, Repr

/-- The world a server action runs in: the tables and the log of store operations. -/
structure World where
  db : Db
  log : List DbOp
  deriving DecidableEq, Repr

/-- A thrown JS error: its message and, for the store's errors, code and
`meta.target`. -/
structure JsError where
  message : String
  code : Option String
  target : List String
  deriving DecidableEq, Repr

/-- The source's `new Error(message)`. -/
def mkError (message : String) : JsError := { message := message, code := none, target := [] }

/-- The store's error for an `update` or `delete` of a row that does not exist
(Prisma P2025); the message text is the library's. -/
def recordNotFound : JsError :=
  { message := "Record to update or delete not found.", code := some "P2025", target := [] }

/-- The store's error for a reference to a row that does not exist (Prisma P2003);
the message text is the library's. -/
def foreignKeyViolation : JsError :=
  { message := "Foreign key constraint failed.", code := some "P2003", target := [] }

/-- TypeError of reading a property of `null`; the message text is the engine's. -/
def nullPropertyError : JsError :=
  { message := "Cannot read properties of null", code := none, target := [] }

/-- The user Clerk reports for the request. `name` and `email` stand for the values of
the source's `user.fullName || ... || 'Unknown User'` and
`user.emailAddresses?.[0]?.emailAddress || ''`. -/
structure ClerkUser where
  id : String
  name : String
  email : String
  deriving DecidableEq, Repr

/-- An entry of Clerk's organization membership list (`publicUserData.userId`, `role`). -/
structure Membership where
  userId : String
  role : String
  deriving DecidableEq, Repr

/-- The environment of a request: `currentUser()`, the answer of
`getOrganizationMembershipList` per organization, and the clock (`new Date()`). -/
structure Env where
  currentUser : Option ClerkUser
  membershipList : String → List Membership
  now : Int

/-- What an action returns or throws, and the world after it. -/
abbrev Outcome (α : Type) := Except JsError α × World

/-- JS falsiness of an optional string argument (`!orgId`): absent or empty. -/
def falsy (s : Option String) : Bool :=
  match s with
  | none => true
  | some v => v == ""

/-- Appends an operation to the log. -/
def World.record (w : World) (op : DbOp) : World := { w with log := w.log ++ [op] }

/-- The id the store gives to the next new row. -/
def Db.newId (db : Db) : String := "id" ++ toString db.idSeq

/-- An issue with the `include: { assignee: true, reporter: true }` joins. -/
structure IssueWithUsers where
  issue : Issue
  assignee : Option User
  reporter : Option User
  deriving DecidableEq, Repr

/-- A project with its sprints (`include: { sprints: ... }`). -/
structure ProjectWithSprints where
  project : Project
  sprints : List Sprint
  deriving DecidableEq, Repr

/-- The joins of `include: { assignee: true, reporter: true }`. -/
def Db.withUsers (db : Db) (i : Issue) : IssueWithUsers :=
  { issue := i,
    assignee := i.assigneeId.bind (fun a => db.users.find? (fun u => u.id == a)),
    reporter := db.users.find? (fun u => u.id == i.reporterId) }

/-- `db.user.upsert({ where: { clerkUserId }, update: {}, create: {...} })`. -/
def userUpsert (user : ClerkUser) (w : World) : User × World :=
  let w := w.record .userUpsert
  match w.db.users.find? (fun u => u.clerkUserId == user.id) with
  | some u => (u, w)
  | none =>
    let u : User :=
      { id := w.db.newId, clerkUserId := user.id, name := user.name, email := user.email }
    (u, { w with db := { w.db with users := w.db.users ++ [u], idSeq := w.db.idSeq + 1 } })

/-- `db.issue.findMany({ where: { sprintId }, orderBy: [{ status: "asc" },
{ order: "asc" }], include })`. -/
def issueFindManyBySprint (sprintId : String) (w : World) : List IssueWithUsers × World :=
  let w := w.record .issueFindMany
  let rows := w.db.issues.filter (fun i => i.sprintId == some sprintId)
  let sorted := rows.insertionSort (fun a b =>
    a.status.rank < b.status.rank ∨ (a.status.rank = b.status.rank ∧ a.order ≤ b.order))
  (sorted.map w.db.withUsers, w)

/-- The row of greatest `order` of a list (the first such row), if any. -/
def maxByOrder : List Issue → Option Issue
  | [] => none
  | i :: rest =>
    match maxByOrder rest with
    | none => some i
    | some j => if j.order > i.order then some j else some i

/-- `db.issue.findFirst({ where: { projectId, status }, orderBy: { order: "desc" } })`. -/
def issueFindLast (projectId : String) (status : IssueStatus) (w : World) :
    Option Issue × World :=
  let w := w.record .issueFindFirst
  (maxByOrder (w.db.issues.filter (fun i => i.projectId == projectId && i.status == status)), w)

/-- `db.issue.findUnique({ where: { id }, include: { project: true } })`. -/
def issueFindUnique (id : String) (w : World) : Option (Issue × Option Project) × World :=
  let w := w.record .issueFindUnique
  ((w.db.issues.find? (fun i => i.id == id)).map
    (fun i => (i, w.db.projects.find? (fun p => p.id == i.projectId))), w)

/-- The fields `createIssue` passes to `db.issue.create`. -/
structure IssueData where
  title : String
  description : Option String
  status : IssueStatus
  priority : IssuePriority
  sprintId : Option String
  assigneeId : Option String
  deriving DecidableEq, Repr

/-- Modelled from the spec: the Prisma schema is not among the sources. The issue's
project, sprint, assignee and reporter are references (§3), enforced as foreign keys:
`db.issue.create` fails when one of them is set and names no row. -/
def issueCreate (i : Issue) (w : World) : Outcome IssueWithUsers :=
  let w := w.record .issueCreate
  let refOk :=
    w.db.projects.any (fun p => p.id == i.projectId) &&
    w.db.users.any (fun u => u.id == i.reporterId) &&
    (match i.sprintId with
      | none => true
      | some s => w.db.sprints.any (fun sp => sp.id == s)) &&
    (match i.assigneeId with
      | none => true
      | some a => w.db.users.any (fun u => u.id == a))
  if refOk then
    let row : Issue := { i with id := w.db.newId }
    let db : Db := { w.db with issues := w.db.issues ++ [row], idSeq := w.db.idSeq + 1 }
    (.ok (db.withUsers row), { w with db := db })
  else
    (.error foreignKeyViolation, w)

/-- `issue.update({ where: { id }, data })`, with `data` given as the change `f` of the
row: `id` is the primary key, so the row of that id is rewritten; with no such row the
store throws. -/
def issueUpdate (id : String) (f : Issue → Issue) (w : World) : Outcome Issue :=
  let w := w.record .issueUpdate
  match w.db.issues.find? (fun i => i.id == id) with
  | none => (.error recordNotFound, w)
  | some i =>
    (.ok (f i),
      { w with db := { w.db with
          issues := w.db.issues.map (fun j => if j.id == id then f j else j) } })

/-- `db.issue.delete({ where: { id } })`. -/
def issueDelete (id : String) (w : World) : Outcome Unit :=
  let w := w.record .issueDelete
  if w.db.issues.any (fun i => i.id == id) then
    (.ok (), { w with db := { w.db with issues := w.db.issues.filter (fun i => i.id != id) } })
  else
    (.error recordNotFound, w)

/-- `db.$transaction(body)`: the writes of `body` are kept when it returns and undone
when it throws; the operations it performed stay in the log. -/
def transaction {α : Type} (body : World → Outcome α) (w : World) : Outcome α :=
  match body (w.record .transaction) with
  | (.ok a, w') => (.ok a, w')
  | (.error e, w') => (.error e, { db := w.db, log := w'.log })

/-- Loop `for (const issue of updatedIssues) await prisma.issue.update({ where:
{ id: issue.id }, data: { status: issue.status, order: issue.order } })`; it stops at
the first update that throws. -/
def updateEach : List Issue → World → Outcome Unit
  | [], w => (.ok (), w)
  | issue :: rest, w =>
    match issueUpdate issue.id
        (fun row => { row with status := issue.status, order := issue.order }) w with
    | (.error e, w) => (.error e, w)
    | (.ok _, w) => updateEach rest w

/-- The admin test of the actions: the caller's entry in the membership list of the
organization, found by `membershipList.find(...)`, exists and has role `org:admin`
(`userMembership?.role === "org:admin"` in `deleteIssue`,
`!(!userMembership || userMembership.role !== "org:admin")` elsewhere). -/
def adminMember (env : Env) (user : ClerkUser) (orgId : String) : Bool :=
  match (env.membershipList orgId).find? (fun m => m.userId == user.id) with
  | some m => m.role == "org:admin"
  | none => false

/-! ## The issue actions (actions/issues.js) -/

/-- The source's `getIssuesForSprint(sprintId, orgId)`. No operation of its `try` block
throws in this model, so its `catch` is not reached. -/
def getIssuesForSprint (env : Env) (sprintId : String) (orgId : Option String) (w : World) :
    Outcome (List IssueWithUsers) :=
  match env.currentUser with
  | none => (.error (mkError "Unauthorized"), w)
  | some user =>
    if falsy orgId then (.error (mkError "No Organization Selected"), w)
    else
      let (_, w) := userUpsert user w
      let (issues, w) := issueFindManyBySprint sprintId w
      (.ok issues, w)

/-- The source's `createIssue(projectId, data, orgId)`. -/
def createIssue (env : Env) (projectId : String) (data : IssueData) (orgId : Option String)
    (w : World) : Outcome IssueWithUsers :=
  match env.currentUser with
  | none => (.error (mkError "Unauthorized"), w)
  | some user =>
    if falsy orgId then (.error (mkError "No Organization Selected"), w)
    else
      let (dbUser, w) := userUpsert user w
      let (lastIssue, w) := issueFindLast projectId data.status w
      let newOrder : Int :=
        match lastIssue with
        | some last => last.order + 1
        | none => 0
      match issueCreate
          { id := "", title := data.title, description := data.description,
            status := data.status, priority := data.priority, projectId := projectId,
            sprintId := data.sprintId, reporterId := dbUser.id,
            assigneeId := if falsy data.assigneeId then none else data.assigneeId,
            order := newOrder } w with
      | (.ok issue, w) => (.ok issue, w)
      | (.error e, w) => (.error (mkError ("Error creating issue: " ++ e.message)), w)

/-- The source's `updateIssueOrder(updatedIssues, orgId)`; `Except.ok ()` is the
returned `success: true`. -/
def updateIssueOrder (env : Env) (updatedIssues : List Issue) (orgId : Option String)
    (w : World) : Outcome Unit :=
  match env.currentUser with
  | none => (.error (mkError "Unauthorized"), w)
  | some user =>
    if falsy orgId then (.error (mkError "No Organization Selected"), w)
    else
      let (_, w) := userUpsert user w
      match transaction (updateEach updatedIssues) w with
      | (.ok _, w) => (.ok (), w)
      | (.error e, w) => (.error (mkError ("Error updating issue order: " ++ e.message)), w)

/-- The source's `deleteIssue(issueId, orgId)`. -/
def deleteIssue (env : Env) (issueId : String) (orgId : Option String) (w : World) :
    Outcome Unit :=
  match env.currentUser with
  | none => (.error (mkError "Unauthorized"), w)
  | some user =>
    match orgId with
    | none => (.error (mkError "No Organization Selected"), w)
    | some org =>
      if org == "" then (.error (mkError "No Organization Selected"), w)
      else
        let wrap (e : JsError) : JsError := mkError ("Error deleting issue: " ++ e.message)
        let (dbUser, w) := userUpsert user w
        match issueFindUnique issueId w with
        | (none, w) => (.error (wrap (mkError "Issue not found")), w)
        | (some (_, none), w) => (.error (wrap nullPropertyError), w)
        | (some (issue, some project), w) =>
          if project.organizationId != org then
            (.error (wrap (mkError "Issue does not belong to your organization")), w)
          else
            let isAdmin := adminMember env user org
            let isReporter := issue.reporterId == dbUser.id
            if !isReporter && !isAdmin then
              (.error (wrap (mkError "You don't have permission to delete this issue")), w)
            else
              match issueDelete issueId w with
              | (.ok _, w) => (.ok (), w)
              | (.error e, w) => (.error (wrap e), w)

/-- The `data` of `updateIssue`: a field left `undefined` is not written. -/
structure IssueChange where
  status : Option IssueStatus
  priority : Option IssuePriority
  deriving DecidableEq, Repr

/-- The source's `updateIssue(issueId, data, orgId)`. -/
def updateIssue (env : Env) (issueId : String) (data : IssueChange) (orgId : Option String)
    (w : World) : Outcome IssueWithUsers :=
  match env.currentUser with
  | none => (.error (mkError "Unauthorized"), w)
  | some user =>
    match orgId with
    | none => (.error (mkError "No Organization Selected"), w)
    | some org =>
      if org == "" then (.error (mkError "No Organization Selected"), w)
      else
        let wrap (e : JsError) : JsError := mkError ("Error updating issue: " ++ e.message)
        let (_, w) := userUpsert user w
        match issueFindUnique issueId w with
        | (none, w) => (.error (wrap (mkError "Issue not found")), w)
        | (some (_, none), w) => (.error (wrap nullPropertyError), w)
        | (some (_, some project), w) =>
          if project.organizationId != org then
            (.error (wrap (mkError "Issue does not belong to your organization")), w)
          else
            match issueUpdate issueId
                (fun row => { row with status := data.status.getD row.status,
                                       priority := data.priority.getD row.priority }) w with
            | (.ok updated, w) => (.ok (w.db.withUsers updated), w)
            | (.error e, w) => (.error (wrap e), w)

/-! ## The project actions (actions/projects.js) -/

/-- `db.project.findFirst({ where: { organizationId, key } })`. -/
def projectFindFirst (orgId key : String) (w : World) : Option Project × World :=
  let w := w.record .projectFindFirst
  (w.db.projects.find? (fun p => p.organizationId == orgId && p.key == key), w)

/-- `db.project.findUnique({ where: { id } })`. -/
def projectFindUnique (id : String) (w : World) : Option Project × World :=
  let w := w.record .projectFindUnique
  (w.db.projects.find? (fun p => p.id == id), w)

/-- The sprints of a project, `orderBy: { createdAt: "desc" }`. -/
def Db.sprintsOf (db : Db) (projectId : String) : List Sprint :=
  (db.sprints.filter (fun sp => sp.projectId == projectId)).insertionSort
    (fun a b => a.createdAt ≥ b.createdAt)

/-- The store's error for a violated unique constraint (Prisma P2002) on a project's
organization and key; the message text is the library's. -/
def uniqueKeyViolation : JsError :=
  { message := "Unique constraint failed.", code := some "P2002",
    target := ["organizationId_key"] }

/-- The fields `createProject` passes to `db.project.create`. -/
structure ProjectData where
  name : String
  key : String
  description : Option String
  deriving DecidableEq, Repr

/-- `db.project.create({ data })`. The key is unique per organization in the store
(the source's handler of P2002 on `organizationId_key`). -/
def projectCreate (data : ProjectData) (orgId : String) (w : World) : Outcome Project :=
  let w := w.record .projectCreate
  if w.db.projects.any (fun p => p.organizationId == orgId && p.key == data.key) then
    (.error uniqueKeyViolation, w)
  else
    let row : Project :=
      { id := w.db.newId, name := data.name, key := data.key,
        description := data.description, organizationId := orgId }
    (.ok row,
      { w with db := { w.db with projects := w.db.projects ++ [row], idSeq := w.db.idSeq + 1 } })

/-- Modelled from the spec: the Prisma schema is not among the sources. Deleting a
project deletes its sprints and issues with it (§3, cascade delete). With no such row
the store throws. -/
def projectDelete (id : String) (w : World) : Outcome Unit :=
  let w := w.record .projectDelete
  if w.db.projects.any (fun p => p.id == id) then
    (.ok (),
      { w with db := { w.db with
          projects := w.db.projects.filter (fun p => p.id != id),
          sprints := w.db.sprints.filter (fun sp => sp.projectId != id),
          issues := w.db.issues.filter (fun i => i.projectId != id) } })
  else
    (.error recordNotFound, w)

/-- The source's `createProject(data, orgId)`. -/
def createProject (env : Env) (data : ProjectData) (orgId : Option String) (w : World) :
    Outcome Project :=
  match env.currentUser with
  | none => (.error (mkError "Unauthorized"), w)
  | some user =>
    match orgId with
    | none => (.error (mkError "No Organization Selected"), w)
    | some org =>
      if org == "" then (.error (mkError "No Organization Selected"), w)
      else
        let handler (e : JsError) : JsError :=
          if e.code == some "P2002" && e.target.contains "organizationId_key" then
            mkError ("A project with key \"" ++ data.key ++
              "\" already exists for this organization")
          else mkError ("Error creating project: " ++ e.message)
        let (_, w) := userUpsert user w
        match projectFindFirst org data.key w with
        | (some _, w) =>
          (.error (handler (mkError ("Project with key \"" ++ data.key ++
            "\" already exists for this organization"))), w)
        | (none, w) =>
          if !adminMember env user org then
            (.error (handler (mkError "Only organization admins can create projects")), w)
          else
            match projectCreate data org w with
            | (.ok project, w) => (.ok project, w)
            | (.error e, w) => (.error (handler e), w)

/-- The source's `getProjectById(projectId, orgId)`; `none` is the returned `null`. -/
def getProjectById (env : Env) (projectId : String) (orgId : Option String) (w : World) :
    Outcome (Option ProjectWithSprints) :=
  match env.currentUser with
  | none => (.error (mkError "Unauthorized"), w)
  | some user =>
    match orgId with
    | none => (.error (mkError "No Organization Selected"), w)
    | some org =>
      if org == "" then (.error (mkError "No Organization Selected"), w)
      else
        let (_, w) := userUpsert user w
        match projectFindUnique projectId w with
        | (none, w) => (.error (mkError ("Error getting project: " ++ "Project not found")), w)
        | (some project, w) =>
          if project.organizationId != org then (.ok none, w)
          else (.ok (some { project := project, sprints := w.db.sprintsOf project.id }), w)

/-- The source's `deleteProject(projectId, orgId)`. -/
def deleteProject (env : Env) (projectId : String) (orgId : Option String) (w : World) :
    Outcome Unit :=
  match env.currentUser with
  | none => (.error (mkError "Unauthorized"), w)
  | some user =>
    match orgId with
    | none => (.error (mkError "No Organization Selected"), w)
    | some org =>
      if org == "" then (.error (mkError "No Organization Selected"), w)
      else
        let wrap (e : JsError) : JsError := mkError ("Error deleting project: " ++ e.message)
        let (_, w) := userUpsert user w
        if !adminMember env user org then
          (.error (wrap (mkError "Only organization admins can delete projects")), w)
        else
          let (project, w) := projectFindUnique projectId w
          let owned : Bool :=
            match project with
            | none => false
            | some p => p.organizationId == org
          if !owned then
            (.error (wrap (mkError
              "Project not found or you don't have permission to delete it")), w)
          else
            match projectDelete projectId w with
            | (.ok _, w) => (.ok (), w)
            | (.error e, w) => (.error (wrap e), w)

/-! ## The sprint actions (actions/sprints.js) -/

/-- The `data` of `createSprint`; the dates stand for the instants `new Date(...)`
makes of them, an absent field being `undefined`. -/
structure SprintData where
  name : Option String
  startDate : Option Int
  endDate : Option Int
  deriving DecidableEq, Repr

/-- `db.sprint.create({ data })`; the new row records the clock as `createdAt`. The
sprint's project is a reference: with no such project the store throws. -/
def sprintCreate (env : Env) (name : String) (startDate endDate : Int) (projectId : String)
    (w : World) : Outcome Sprint :=
  let w := w.record .sprintCreate
  if w.db.projects.any (fun p => p.id == projectId) then
    let row : Sprint :=
      { id := w.db.newId, name := name, startDate := startDate, endDate := endDate,
        status := .PLANNED, projectId := projectId, createdAt := env.now }
    (.ok row,
      { w with db := { w.db with sprints := w.db.sprints ++ [row], idSeq := w.db.idSeq + 1 } })
  else
    (.error foreignKeyViolation, w)

/-- `db.sprint.findUnique({ where: { id }, include: { project: true } })`. -/
def sprintFindUnique (id : String) (w : World) : Option (Sprint × Option Project) × World :=
  let w := w.record .sprintFindUnique
  ((w.db.sprints.find? (fun sp => sp.id == id)).map
    (fun sp => (sp, w.db.projects.find? (fun p => p.id == sp.projectId))), w)

/-- `db.sprint.update({ where: { id }, data: { status } })`. -/
def sprintUpdate (id : String) (status : SprintStatus) (w : World) : Outcome Sprint :=
  let w := w.record .sprintUpdate
  match w.db.sprints.find? (fun sp => sp.id == id) with
  | none => (.error recordNotFound, w)
  | some sp =>
    (.ok { sp with status := status },
      { w with db := { w.db with
          sprints := w.db.sprints.map
            (fun row => if row.id == id then { row with status := status } else row) } })

/-- The source's `createSprint(projectId, data)`; `Except.ok sprint` is the returned
`success: true` with the sprint. Every throw of the body is caught and rethrown with
the prefix `Sprint creation failed: `. -/
def createSprint (env : Env) (projectId : Option String) (data : Option SprintData)
    (w : World) : Outcome Sprint :=
  let wrap (e : JsError) : JsError := mkError ("Sprint creation failed: " ++ e.message)
  match env.currentUser with
  | none => (.error (wrap (mkError "Unauthorized - Please make sure you're logged in")), w)
  | some _ =>
    match projectId with
    | none => (.error (wrap (mkError "Project ID is required")), w)
    | some pid =>
      if pid == "" then (.error (wrap (mkError "Project ID is required")), w)
      else
        match data with
        | none => (.error (wrap (mkError "Sprint name is required")), w)
        | some d =>
          match d.name with
          | none => (.error (wrap (mkError "Sprint name is required")), w)
          | some name =>
            if name == "" then (.error (wrap (mkError "Sprint name is required")), w)
            else
              match d.startDate, d.endDate with
              | some startDate, some endDate =>
                let w := w.record .queryRaw
                match projectFindUnique pid w with
                | (none, w) =>
                  (.error (wrap (mkError ("Project not found with ID: " ++ pid))), w)
                | (some _, w) =>
                  match sprintCreate env name startDate endDate pid w with
                  | (.ok sprint, w) => (.ok sprint, w)
                  | (.error e, w) => (.error (wrap e), w)
              | _, _ => (.error (wrap (mkError "Start and end dates are required")), w)

/-- The source's `updateSprintStatus(sprintId, newStatus)`; `Except.ok sprint` is the
returned `success: true` with the updated sprint. The `catch` rethrows the message as
it is. -/
def updateSprintStatus (env : Env) (sprintId : String) (newStatus : SprintStatus)
    (w : World) : Outcome Sprint :=
  match env.currentUser with
  | none => (.error (mkError "Unauthorized"), w)
  | some user =>
    let wrap (e : JsError) : JsError := mkError e.message
    let (_, w) := userUpsert user w
    match sprintFindUnique sprintId w with
    | (none, w) => (.error (wrap (mkError "Sprint not found")), w)
    | (some (_, none), w) => (.error (wrap nullPropertyError), w)
    | (some (sprint, some project), w) =>
      if !adminMember env user project.organizationId then
        (.error (wrap (mkError "Only organization admins can update sprint status")), w)
      else
        let now := env.now
        let startDate := sprint.startDate
        let endDate := sprint.endDate
        if newStatus = .ACTIVE ∧ (now < startDate ∨ now > endDate) then
          (.error (wrap (mkError "Cannot start sprint outside of its date range")), w)
        else if newStatus = .COMPLETED ∧ sprint.status ≠ .ACTIVE then
          (.error (wrap (mkError "Can only complete an active sprint")), w)
        else
          match sprintUpdate sprintId newStatus w with
          | (.ok updatedSprint, w) => (.ok updatedSprint, w)
          | (.error e, w) => (.error (wrap e), w)

/-- A row after the updates of a batch, applied in the order of the batch: each tuple
rewrites `status` and `order` of the row of its id. -/
def applyUpdates (batch : List Issue) (row : Issue) : Issue :=
  batch.foldl (fun r u =>
    if r.id == u.id then { r with status := u.status, order := u.order } else r) row

/-- Example store: one user, one project with one sprint and three issues in it. -/
def exDb : Db :=
  { users := [{ id := "u1", clerkUserId := "clerk_1", name := "Ann", email := "ann@x.org" }],
    projects := [{ id := "p1", name := "P", key := "P", description := none,
                   organizationId := "org_1" }],
    sprints := [exSprint],
    issues := [exIssue "A" .TODO 0, exIssue "B" .TODO 1, exIssue "C" .IN_PROGRESS 0],
    idSeq := 7 }

/-- Example world: the example store, nothing logged yet. -/
def exWorld : World := { db := exDb, log := [] }

/-- Example request of the signed-in user `clerk_1`, an admin of `org_1`. -/
def exEnv : Env :=
  { currentUser := some { id := "clerk_1", name := "Ann", email := "ann@x.org" },
    membershipList := fun org =>
      if org == "org_1" then [{ userId := "clerk_1", role := "org:admin" }] else [],
    now := 50 }

/-- Example request without a signed-in user. -/
def exEnvAnonymous : Env := { exEnv with currentUser := none }

/-- Example request of the signed-in user `clerk_2`, a plain member (not an admin) of
`org_1` and not the reporter of any issue of the example store. -/
def exEnvMember : Env :=
  { currentUser := some { id := "clerk_2", name := "Bob", email := "bob@x.org" },
    membershipList := fun org =>
      if org == "org_1" then
        [{ userId := "clerk_1", role := "org:admin" }, { userId := "clerk_2", role := "org:member" }]
      else [],
    now := 50 }

/-- Example request of the signed-in user `clerk_9`, who is in no membership list. -/
def exEnvOutsider : Env :=
  { currentUser := some { id := "clerk_9", name := "Eve", email := "eve@y.org" },
    membershipList := exEnv.membershipList,
    now := 50 }

/-- Example request of the signed-in user `clerk_1`, reporter of the issues of the
example store, at a time when no organization lists that user as a member. -/
def exEnvFormer : Env :=
  { currentUser := some { id := "clerk_1", name := "Ann", email := "ann@x.org" },
    membershipList := fun _ => [],
    now := 50 }

/-- Example project of the example store. -/
def exProject : Project :=
  { id := "p1", name := "P", key := "P", description := none, organizationId := "org_1" }

/-- Example request of the admin `clerk_1` made at time `t`. -/
def exEnvAt (t : Int) : Env := { exEnv with now := t }

/-- Example world in which the sprint of the example store is still planned. -/
def exWorldPlanned : World :=
  { db := { exDb with sprints := [{ exSprint with status := .PLANNED }] }, log := [] }

/-- The `filteredIssues` state after the call: as it was after an early return, the
sorted list after `setFilteredIssues(sortedIssues)`. After a TypeError the array is
the same but its objects, shared with `issues`, carry the writes made so far; their
view through `filteredIssues` is not tracked (`none`). -/
def DragOutcome.filteredAfter (board : Board) : DragOutcome → Option (List Issue)
  | .returned _ => some board.filteredIssues
  | .threw _ => none
  | .committed sortedIssues => some sortedIssues

/-- An issue with `order` blanked. -/
def Issue.unordered (c : Issue) : Issue := { c with order := 0 }

/-- Each column of the list is in ascending order with `order` equal to the position in
the column. -/
def DenseColumns (issues : List Issue) : Prop :=
  ∀ s, column issues s = relabel (column issues s)

/-- No two issues of one (project, status) partition carry the same `order`. -/
def OrdersUnique (issues : List Issue) : Prop :=
  issues.Pairwise (fun a b =>
    ¬(a.projectId = b.projectId ∧ a.status = b.status ∧ a.order = b.order))

instance (issues : List Issue) : Decidable (OrdersUnique issues) := by
  unfold OrdersUnique; infer_instance

/-- No two projects of one organization carry the same `key`. -/
def KeysUnique (projects : List Project) : Prop :=
  projects.Pairwise (fun a b => ¬(a.organizationId = b.organizationId ∧ a.key = b.key))

instance (projects : List Project) : Decidable (KeysUnique projects) := by
  unfold KeysUnique; infer_instance

/-- An issue with `status`, `priority` and `order` blanked: the fields no update
action writes. -/
def Issue.fixed (c : Issue) : Issue := { c with status := .TODO, priority := .LOW, order := 0 }

/-- The issues of the (project, status) partition in which `createIssue` looks for the
last order. -/
def partition (issues : List Issue) (projectId : String) (status : IssueStatus) : List Issue :=
  issues.filter (fun i => i.projectId == projectId && i.status == status)

/-- Example world in which the sprint of the example store is completed. -/
def exWorldCompleted : World :=
  { db := { exDb with sprints := [{ exSprint with status := .COMPLETED }] }, log := [] }

/-- Example world with a second project `p2` of `org_1` and its sprint `s2`. -/
def exWorldTwoProjects : World :=
  { db := { exDb with
      projects := exDb.projects ++
        [{ id := "p2", name := "Q", key := "Q", description := none, organizationId := "org_1" }],
      sprints := exDb.sprints ++ [{ exSprint with id := "s2", projectId := "p2" }] },
    log := [] }

/-- Example `data` of `createIssue`: a TODO issue for sprint `s1`. -/
def exIssueData : IssueData :=
  { title := "N", description := none, status := .TODO, priority := .LOW,
    sprintId := some "s1", assigneeId := none }

/-- The issue `createIssue` returns for `exIssueData` in project `p1` of the example
store, called by `clerk_1`. -/
def exCreated : IssueWithUsers :=
  { issue :=
      { id := "id7", title := "N", description := none, status := .TODO, order := 2,
        priority := .LOW, projectId := "p1", sprintId := some "s1", reporterId := "u1",
        assigneeId := none },
    assignee := none,
    reporter := some { id := "u1", clerkUserId := "clerk_1", name := "Ann", email := "ann@x.org" } }

/-! ### The board component between events (sprint-board.jsx) -/

/-- The state of `SprintBoard` that `onDragEnd` and the effects read and write: the
board, the `orgId` prop, the `error` and `loading` of the hook around
`updateIssueOrder`, and the log of the calls of `fetchIssues` (each one a call of
`getIssuesForSprint`), by sprint id. -/
structure Component where
  board : Board
  orgId : Option String
  updateIssuesError : Option JsError
  updateIssuesLoading : Bool
  fetches : List String
  deriving DecidableEq, Repr

/-- The effects of the component after a render, given which dependencies changed.
The effect on `[issues]` (lines 56-60) copies `issues` to `filteredIssues`; the effect
on `[currentSprint?.id, orgId]` (lines 62-68) calls `fetchIssues(currentSprint.id)` when
both are present. The `error` and `loading` of the update hook are in no dependency
array. -/
def runEffects (issuesChanged sprintOrOrgChanged : Bool) (c : Component) : Component :=
  let c :=
    if issuesChanged then
      match c.board.issues with
      | some issues => { c with board := { c.board with filteredIssues := issues } }
      | none => c
    else c
  if sprintOrOrgChanged then
    match c.board.currentSprint with
    | some sprint =>
      if sprint.id == "" || falsy c.orgId then c
      else { c with fetches := c.fetches ++ [sprint.id] }
    | none => c
  else c

/-- Lines 168-173 of `onDragEnd` and the render that follows:
`setIssues(sortedIssues); setFilteredIssues(sortedIssues); updateIssueOrderFn(sortedIssues)`. -/
def afterCommit (c : Component) (sortedIssues : List Issue) : Component :=
  runEffects true false
    { c with
      board := { c.board with issues := some sortedIssues, filteredIssues := sortedIssues },
      updateIssuesLoading := true }

/-- The component once `updateIssueOrder` has rejected with `e`. The hook
`@/hooks/use-fetch` is not among the sources; it is given the action only, so it can
reach neither `issues` nor `fetchIssues`: what it stores as its `error` is the
parameter `hookError`, and nothing else of the component changes. -/
def afterReject (hookError : JsError → Option JsError) (c : Component) (e : JsError) :
    Component :=
  runEffects false false
    { c with updateIssuesError := hookError e, updateIssuesLoading := false }

/-- Example store in which issue B has been deleted by another client. -/
def exWorldWithoutB : World :=
  { db := { exDb with issues := [exIssue "A" .TODO 0, exIssue "C" .IN_PROGRESS 0] }, log := [] }

/-- Example component: the board of the example issues, as fetched once. -/
def exComponent : Component :=
  { board := exBoard [exIssue "A" .TODO 0, exIssue "B" .TODO 1, exIssue "C" .IN_PROGRESS 0],
    orgId := some "org_1", updateIssuesError := none, updateIssuesLoading := false,
    fetches := ["s1"] }

/-! ## Lemmas on the object writes -/

section heap

theorem length_setOrder (objs : List Issue) (r : Nat) (i : Int) :
    (setOrder objs r i).length = objs.length := by
  unfold setOrder; split <;> simp

theorem length_setStatus (objs : List Issue) (r : Nat) (s : IssueStatus) :
    (setStatus objs r s).length = objs.length := by
  unfold setStatus; split <;> simp

theorem getElem?_setOrder_self (objs : List Issue) (r : Nat) (i : Int) :
    (setOrder objs r i)[r]? = (objs[r]?).map (fun c => { c with order := i }) := by
  unfold setOrder
  cases h : objs[r]? with
  | none => simp [h]
  | some c =>
    have hr : r < objs.length := by
      by_contra hn
      rw [List.getElem?_eq_none (by omega)] at h
      cases h
    simp [List.getElem?_set, hr]

theorem getElem?_setOrder_ne (objs : List Issue) {r q : Nat} (i : Int) (h : r ≠ q) :
    (setOrder objs r i)[q]? = objs[q]? := by
  unfold setOrder; split <;> simp [List.getElem?_set_ne h]

theorem getElem?_setStatus_self (objs : List Issue) (r : Nat) (s : IssueStatus) :
    (setStatus objs r s)[r]? = (objs[r]?).map (fun c => { c with status := s }) := by
  unfold setStatus
  cases h : objs[r]? with
  | none => simp [h]
  | some c =>
    have hr : r < objs.length := by
      by_contra hn
      rw [List.getElem?_eq_none (by omega)] at h
      cases h
    simp [List.getElem?_set, hr]

theorem getElem?_setStatus_ne (objs : List Issue) {r q : Nat} (s : IssueStatus) (h : r ≠ q) :
    (setStatus objs r s)[q]? = objs[q]? := by
  unfold setStatus; split <;> simp [List.getElem?_set_ne h]

/-- What `forEach((card, i) => card.order = i)` does over distinct, defined cards: it
succeeds, writes `order = start + k` into the `k`-th card and touches nothing else. -/
theorem assignOrders_spec (rs : List Nat) (hnd : rs.Nodup) (start : Nat) (objs : List Issue) :
    ∃ objs', assignOrders (rs.map some) start objs = .ok objs' ∧
      objs'.length = objs.length ∧
      (∀ r, r ∉ rs → objs'[r]? = objs[r]?) ∧
      (∀ k (hk : k < rs.length),
        objs'[rs[k]]? = (objs[rs[k]]?).map (fun c => { c with order := ((start + k : Nat) : Int) })) := by
  induction rs generalizing start objs with
  | nil => exact ⟨objs, rfl, rfl, fun _ _ => rfl, fun k hk => absurd hk (by simp)⟩
  | cons r rs ih =>
    rw [List.nodup_cons] at hnd
    obtain ⟨objs', hrun, hlen, hout, hin⟩ := ih hnd.2 (start + 1) (setOrder objs r start)
    refine ⟨objs', by simpa [assignOrders] using hrun, by rw [hlen, length_setOrder], ?_, ?_⟩
    · intro q hq
      rw [List.mem_cons, not_or] at hq
      rw [hout q hq.2, getElem?_setOrder_ne _ _ (Ne.symm hq.1)]
    · intro k hk
      cases k with
      | zero =>
        simp only [List.getElem_cons_zero, Nat.add_zero]
        rw [hout r hnd.1, getElem?_setOrder_self]
      | succ k =>
        simp only [List.getElem_cons_succ]
        have hk' : k < rs.length := by simpa using hk
        have hne : r ≠ rs[k] := fun h => hnd.1 (h ▸ List.getElem_mem hk')
        rw [hin k hk', getElem?_setOrder_ne _ _ hne]
        congr 2
        funext c
        congr 1
        omega

theorem filterStatus_eq (objs : List Issue) (s : IssueStatus) :
    filterStatus objs s = (refsOf objs s).map some := rfl

theorem nodup_refsOf (objs : List Issue) (s : IssueStatus) : (refsOf objs s).Nodup :=
  (List.nodup_range _).filter _

theorem mem_refsOf {objs : List Issue} {s : IssueStatus} {r : Nat} :
    r ∈ refsOf objs s ↔ (objs[r]?).map Issue.status = some s := by
  unfold refsOf
  rw [List.mem_filter, List.mem_range]
  constructor
  · intro h; simpa using h.2
  · intro h
    refine ⟨?_, by simpa using h⟩
    by_contra hn
    rw [List.getElem?_eq_none (by omega)] at h
    cases h

theorem lt_of_mem_refsOf {objs : List Issue} {s : IssueStatus} {r : Nat}
    (h : r ∈ refsOf objs s) : r < objs.length := by
  unfold refsOf at h
  rw [List.mem_filter, List.mem_range] at h
  exact h.1

/-- The objects behind `filterStatus` are the column, in order. -/
theorem map_objAt_refsOf (objs : List Issue) (s : IssueStatus) :
    (refsOf objs s).map (objAt objs) = column objs s := by
  induction objs using List.reverseRecOn with
  | nil => rfl
  | append_singleton l a ih =>
    have hcongr : ∀ r ∈ List.range l.length, (l ++ [a])[r]? = l[r]? := by
      intro r hr
      rw [List.mem_range] at hr
      exact List.getElem?_append_left hr
    have hfil : (List.range l.length).filter
          (fun ref => ((l ++ [a])[ref]?).map Issue.status == some s) = refsOf l s := by
      unfold refsOf
      apply List.filter_congr
      intro r hr
      rw [hcongr r hr]
    have hmap : (refsOf l s).map (objAt (l ++ [a])) = (refsOf l s).map (objAt l) := by
      apply List.map_congr_left
      intro r hr
      unfold objAt
      rw [hcongr r (List.mem_range.mpr (lt_of_mem_refsOf hr))]
    unfold refsOf column at *
    rw [List.length_append, List.length_singleton, List.range_succ, List.filter_append,
      List.map_append, hfil, hmap, ih, List.filter_append]
    congr 1
    cases hs : (a.status == s) <;> simp [hs, objAt, List.filter]

/-- A list sorted by `order` is determined by its elements once their orders are
pairwise distinct. -/
theorem eq_of_perm_of_sorted_order {l₁ l₂ : List Issue} (hp : l₁.Perm l₂)
    (h₁ : l₁.Pairwise (fun a b => a.order ≤ b.order))
    (h₂ : l₂.Pairwise (fun a b => a.order < b.order)) : l₁ = l₂ := by
  have hne₂ : l₂.Pairwise (fun a b => a.order ≠ b.order) := h₂.imp (fun h => ne_of_lt h)
  have hne₁ : l₁.Pairwise (fun a b => a.order ≠ b.order) :=
    (hp.pairwise_iff (fun {a b} (h : a.order ≠ b.order) => h.symm)).mpr hne₂
  have hlt₁ : l₁.Pairwise (fun a b => a.order < b.order) :=
    (h₁.and hne₁).imp (fun h => lt_of_le_of_ne h.1 h.2)
  haveI : IsAntisymm Issue (fun a b => a.order < b.order) :=
    ⟨fun a b hab hba => absurd hab (not_lt.mpr hba.le)⟩
  exact List.eq_of_perm_of_sorted hp hlt₁ h₂

theorem perm_sortByOrder (objs : List Issue) : (sortByOrder objs).Perm objs :=
  List.perm_insertionSort _ _

theorem sorted_sortByOrder (objs : List Issue) :
    (sortByOrder objs).Pairwise (fun a b => a.order ≤ b.order) := by
  haveI : IsTotal Issue (fun a b => a.order ≤ b.order) := ⟨fun a b => le_total a.order b.order⟩
  haveI : IsTrans Issue (fun a b => a.order ≤ b.order) := ⟨fun a b c h₁ h₂ => le_trans h₁ h₂⟩
  exact List.sorted_insertionSort _ objs

/-- After the sort, the column of status `s` is the list of cards `rs`, provided `rs`
holds exactly the objects of status `s` and the `k`-th of them has `order = k`. -/
theorem column_sortByOrder_eq (objs : List Issue) (rs : List Nat) (s : IssueStatus)
    (hnd : rs.Nodup) (hmem : ∀ r, r ∈ rs ↔ (objs[r]?).map Issue.status = some s)
    (hord : ∀ k (hk : k < rs.length), (objAt objs rs[k]).order = (k : Int)) :
    column (sortByOrder objs) s = rs.map (objAt objs) := by
  have hperm : (refsOf objs s).Perm rs :=
    (List.perm_ext_iff_of_nodup (nodup_refsOf objs s) hnd).mpr
      (fun r => by rw [mem_refsOf, hmem])
  have h₁ : (column (sortByOrder objs) s).Perm (rs.map (objAt objs)) := by
    refine ((perm_sortByOrder objs).filter _).trans ?_
    show (column objs s).Perm _
    rw [← map_objAt_refsOf]
    exact hperm.map _
  refine eq_of_perm_of_sorted_order h₁ ((sorted_sortByOrder objs).filter _) ?_
  rw [List.pairwise_iff_getElem]
  intro i j hi hj hij
  simp only [List.length_map] at hi hj
  simp only [List.getElem_map, hord i hi, hord j hj]
  exact_mod_cast hij

theorem length_relabelFrom (i : Nat) (cs : List Issue) :
    (relabelFrom i cs).length = cs.length := by
  induction cs generalizing i with
  | nil => rfl
  | cons c cs ih => simp [relabelFrom, ih]

theorem getElem?_relabelFrom (i : Nat) (cs : List Issue) (k : Nat) :
    (relabelFrom i cs)[k]? = (cs[k]?).map (fun c => { c with order := ((i + k : Nat) : Int) }) := by
  induction cs generalizing i k with
  | nil => simp [relabelFrom]
  | cons c cs ih =>
    cases k with
    | zero => simp [relabelFrom]
    | succ k =>
      simp only [relabelFrom, List.getElem?_cons_succ, ih]
      congr 2
      funext c
      congr 1
      omega

theorem map_order_relabelFrom (i : Nat) (cs : List Issue) :
    (relabelFrom i cs).map Issue.order = (List.range' i cs.length).map Int.ofNat := by
  induction cs generalizing i with
  | nil => rfl
  | cons c cs ih => simp [relabelFrom, ih, List.range'_succ]

theorem map_order_relabel (cs : List Issue) :
    (relabel cs).map Issue.order = (List.range cs.length).map Int.ofNat := by
  rw [relabel, map_order_relabelFrom, List.range_eq_range']

theorem map_eraseIdx_eq {α β : Type} (f : α → β) (l : List α) (i : Nat) :
    (l.eraseIdx i).map f = (l.map f).eraseIdx i := by
  simp [List.eraseIdx_eq_take_drop_succ, List.map_take, List.map_drop]

theorem map_insertAt {α β : Type} (f : α → β) (l : List α) (i : Nat) (a : α) :
    (insertAt l i a).map f = insertAt (l.map f) i (f a) := by
  simp [insertAt, List.map_take, List.map_drop]

theorem mem_insertAt {α : Type} {l : List α} {i : Nat} {a b : α} :
    b ∈ insertAt l i a ↔ b = a ∨ b ∈ l := by
  unfold insertAt
  rw [List.mem_append, List.mem_cons]
  constructor
  · rintro (h | h | h)
    · exact Or.inr (List.mem_of_mem_take h)
    · exact Or.inl h
    · exact Or.inr (List.mem_of_mem_drop h)
  · rintro (h | h)
    · exact Or.inr (Or.inl h)
    · rw [← List.take_append_drop i l, List.mem_append] at h
      rcases h with h | h
      · exact Or.inl h
      · exact Or.inr (Or.inr h)

theorem perm_insertAt {α : Type} (l : List α) (i : Nat) (a : α) :
    (insertAt l i a).Perm (a :: l) := by
  unfold insertAt
  refine List.perm_middle.trans ?_
  rw [List.take_append_drop]

theorem nodup_insertAt {α : Type} {l : List α} {i : Nat} {a : α} (h : l.Nodup) (ha : a ∉ l) :
    (insertAt l i a).Nodup :=
  (perm_insertAt l i a).nodup_iff.mpr (List.nodup_cons.mpr ⟨ha, h⟩)

theorem mem_eraseIdx_of_nodup {l : List Nat} (h : l.Nodup) {i : Nat} (hi : i < l.length)
    {r : Nat} : r ∈ l.eraseIdx i ↔ r ∈ l ∧ r ≠ l[i] := by
  rw [← List.Nodup.erase_getElem h i hi, List.Nodup.mem_erase_iff h]
  exact And.comm

theorem assignOrders_renumbered (rs : List Nat) (hnd : rs.Nodup) (objs : List Issue) :
    ∃ objs', assignOrders (rs.map some) 0 objs = .ok objs' ∧ Renumbered objs rs objs' := by
  obtain ⟨objs', h, hlen, hout, hin⟩ := assignOrders_spec rs hnd 0 objs
  exact ⟨objs', h, hlen, hout, fun k hk => by simpa using hin k hk⟩

theorem Renumbered.status_eq {objs objs' : List Issue} {rs : List Nat}
    (h : Renumbered objs rs objs') (r : Nat) :
    (objs'[r]?).map Issue.status = (objs[r]?).map Issue.status := by
  by_cases hr : r ∈ rs
  · obtain ⟨k, hk, rfl⟩ := List.getElem_of_mem hr
    rw [h.inside k hk]
    cases objs[rs[k]]? <;> rfl
  · rw [h.outside r hr]

theorem Renumbered.objAt_outside {objs objs' : List Issue} {rs : List Nat}
    (h : Renumbered objs rs objs') {r : Nat} (hr : r ∉ rs) : objAt objs' r = objAt objs r := by
  unfold objAt; rw [h.outside r hr]

theorem Renumbered.order_inside {objs objs' : List Issue} {rs : List Nat}
    (h : Renumbered objs rs objs') (hlt : ∀ r ∈ rs, r < objs.length)
    (k : Nat) (hk : k < rs.length) : (objAt objs' rs[k]).order = (k : Int) := by
  have hv : rs[k] < objs.length := hlt _ (List.getElem_mem hk)
  unfold objAt
  rw [h.inside k hk, List.getElem?_eq_getElem hv]
  rfl

/-- The cards of a renumbered list, read after the writes, are the cards read before
the writes with `order` set to the position. -/
theorem Renumbered.map_objAt {objs objs' : List Issue} {rs : List Nat}
    (h : Renumbered objs rs objs') (hlt : ∀ r ∈ rs, r < objs.length) :
    rs.map (objAt objs') = relabel (rs.map (objAt objs)) := by
  apply List.ext_getElem?
  intro k
  rw [relabel, getElem?_relabelFrom, List.getElem?_map, List.getElem?_map]
  by_cases hk : k < rs.length
  · have hv : rs[k] < objs.length := hlt _ (List.getElem_mem hk)
    rw [List.getElem?_eq_getElem hk]
    simp only [Option.map_some', objAt, h.inside k hk, List.getElem?_eq_getElem hv,
      Option.getD_some, Nat.zero_add]
  · rw [List.getElem?_eq_none (by omega)]
    rfl

theorem spliceRemove_map_some (rs : List Nat) {i : Nat} (hi : i < rs.length) :
    spliceRemove (rs.map some) i = (some rs[i], (rs.eraseIdx i).map some) := by
  unfold spliceRemove
  rw [map_eraseIdx_eq, List.getElem?_map, List.getElem?_eq_getElem hi]
  rfl

theorem spliceRemove_map_some_of_le (rs : List Nat) {i : Nat} (hi : rs.length ≤ i) :
    spliceRemove (rs.map some) i = (none, rs.map some) := by
  unfold spliceRemove
  rw [List.getElem?_eq_none (by simpa using hi), List.eraseIdx_of_length_le (by simpa using hi)]
  rfl

theorem spliceInsert_map_some (rs : List Nat) (i a : Nat) :
    spliceInsert (rs.map some) i (some a) = (insertAt rs i a).map some := by
  simp [spliceInsert, insertAt, List.map_take, List.map_drop]

theorem column_length (objs : List Issue) (s : IssueStatus) :
    (column objs s).length = (refsOf objs s).length := by
  rw [← map_objAt_refsOf, List.length_map]

theorem column_getElem? (objs : List Issue) (s : IssueStatus) (i : Nat) :
    (column objs s)[i]? = ((refsOf objs s)[i]?).map (objAt objs) := by
  rw [← map_objAt_refsOf, List.getElem?_map]

theorem mem_movedRefs {objs : List Issue} {s : IssueStatus} {si di : Nat}
    (hsi : si < (refsOf objs s).length) {r : Nat} :
    r ∈ movedRefs objs s si di (refsOf objs s)[si] ↔ r ∈ refsOf objs s := by
  unfold movedRefs
  rw [mem_insertAt, mem_eraseIdx_of_nodup (nodup_refsOf objs s) hsi]
  constructor
  · rintro (h | h)
    · exact h ▸ List.getElem_mem hsi
    · exact h.1
  · intro h
    by_cases hr : r = (refsOf objs s)[si]
    · exact Or.inl hr
    · exact Or.inr ⟨h, hr⟩

theorem nodup_movedRefs {objs : List Issue} {s : IssueStatus} {si di : Nat}
    (hsi : si < (refsOf objs s).length) :
    (movedRefs objs s si di (refsOf objs s)[si]).Nodup := by
  apply nodup_insertAt ((nodup_refsOf objs s).eraseIdx si)
  rw [mem_eraseIdx_of_nodup (nodup_refsOf objs s) hsi]
  exact fun h => h.2 rfl

/-- Same-column branch of `reorderIssues`: with a valid source index it does not
throw, and the objects it sorts are the input with the moved column renumbered. -/
theorem reorderIssues_same (issues : List Issue) (s : IssueStatus) (si di : Nat)
    (hsi : si < (refsOf issues s).length) :
    ∃ objs', reorderIssues issues ⟨s, si⟩ ⟨s, di⟩ = .ok (sortByOrder objs') ∧
      Renumbered issues (movedRefs issues s si di (refsOf issues s)[si]) objs' := by
  obtain ⟨objs', hrun, hren⟩ :=
    assignOrders_renumbered (movedRefs issues s si di (refsOf issues s)[si])
      (nodup_movedRefs hsi) issues
  refine ⟨objs', ?_, hren⟩
  simp only [reorderIssues, reorder, filterStatus_eq, if_true, spliceRemove_map_some _ hsi,
    spliceInsert_map_some]
  unfold movedRefs at hrun
  rw [hrun]

/-- The column moved within, after the sort, in terms of the input column. -/
theorem column_reorderIssues_same (issues : List Issue) (s : IssueStatus) (si di : Nat)
    (x : Issue) (hx : (column issues s)[si]? = some x) :
    ∃ sorted, reorderIssues issues ⟨s, si⟩ ⟨s, di⟩ = .ok sorted ∧
      column sorted s = relabel (insertAt ((column issues s).eraseIdx si) di x) := by
  have hsi : si < (refsOf issues s).length := by
    rw [← column_length]
    by_contra hn
    rw [List.getElem?_eq_none (by omega)] at hx
    cases hx
  have hxeq : x = objAt issues (refsOf issues s)[si] := by
    rw [column_getElem?, List.getElem?_eq_getElem hsi] at hx
    exact (Option.some.inj hx).symm
  obtain ⟨objs', hrun, hren⟩ := reorderIssues_same issues s si di hsi
  have hlt : ∀ r ∈ movedRefs issues s si di (refsOf issues s)[si], r < issues.length :=
    fun r hr => lt_of_mem_refsOf ((mem_movedRefs hsi).mp hr)
  refine ⟨_, hrun, ?_⟩
  rw [column_sortByOrder_eq objs' _ s (nodup_movedRefs hsi)
      (fun r => by rw [mem_movedRefs hsi, mem_refsOf, hren.status_eq])
      (hren.order_inside hlt),
    hren.map_objAt hlt, movedRefs, map_insertAt, map_eraseIdx_eq, map_objAt_refsOf, hxeq]

theorem objAt_setStatus_ne (objs : List Issue) {r q : Nat} (s : IssueStatus) (h : r ≠ q) :
    objAt (setStatus objs r s) q = objAt objs q := by
  unfold objAt; rw [getElem?_setStatus_ne _ _ h]

theorem objAt_setStatus_self (objs : List Issue) {r : Nat} (s : IssueStatus)
    (h : r < objs.length) :
    objAt (setStatus objs r s) r = { objAt objs r with status := s } := by
  unfold objAt; rw [getElem?_setStatus_self, List.getElem?_eq_getElem h]; rfl

theorem status_setStatus (objs : List Issue) {r : Nat} (s : IssueStatus) (h : r < objs.length)
    (q : Nat) : ((setStatus objs r s)[q]?).map Issue.status =
      if q = r then some s else (objs[q]?).map Issue.status := by
  by_cases hq : q = r
  · subst hq
    rw [getElem?_setStatus_self, List.getElem?_eq_getElem h, if_pos rfl]; rfl
  · rw [getElem?_setStatus_ne _ _ (Ne.symm hq), if_neg hq]

theorem crossRefs (issues : List Issue) {src dst : IssueStatus} (hne : src ≠ dst) {si : Nat}
    (di : Nat) (hsi : si < (refsOf issues src).length) : CrossRefs issues src dst si di := by
  have hmem : (refsOf issues src)[si] ∈ refsOf issues src := List.getElem_mem hsi
  have hnd : (refsOf issues src)[si] ∉ refsOf issues dst := by
    intro h
    rw [mem_refsOf] at h hmem
    rw [hmem] at h
    exact hne (Option.some.inj h)
  have hnr : (refsOf issues src)[si] ∉ (refsOf issues src).eraseIdx si := by
    rw [mem_eraseIdx_of_nodup (nodup_refsOf issues src) hsi]
    exact fun h => h.2 rfl
  refine ⟨hsi, lt_of_mem_refsOf hmem, hnd, hnr, (nodup_refsOf issues src).eraseIdx si,
    nodup_insertAt (nodup_refsOf issues dst) hnd, ?_⟩
  intro r hr hr'
  rw [mem_eraseIdx_of_nodup (nodup_refsOf issues src) hsi] at hr
  rw [mem_insertAt] at hr'
  rcases hr' with h | h
  · exact hr.2 h
  · have h1 := hr.1
    rw [mem_refsOf] at h h1
    rw [h1] at h
    exact hne (Option.some.inj h)

/-- Cross-column branch of `reorderIssues`: with a valid source index it does not
throw; the moved object gets the destination status, then the rest of the source
column and the destination column with the moved card are renumbered. -/
theorem reorderIssues_cross (issues : List Issue) (src dst : IssueStatus) (hne : src ≠ dst)
    (si di : Nat) (hsi : si < (refsOf issues src).length) :
    ∃ objs₂ objs₃, reorderIssues issues ⟨src, si⟩ ⟨dst, di⟩ = .ok (sortByOrder objs₃) ∧
      Renumbered (setStatus issues (refsOf issues src)[si] dst)
        ((refsOf issues src).eraseIdx si) objs₂ ∧
      Renumbered objs₂ (insertAt (refsOf issues dst) di (refsOf issues src)[si]) objs₃ := by
  have hc := crossRefs issues hne di hsi
  obtain ⟨objs₂, hrun₂, hren₂⟩ := assignOrders_renumbered _ hc.nodup_rest
    (setStatus issues (refsOf issues src)[si] dst)
  obtain ⟨objs₃, hrun₃, hren₃⟩ := assignOrders_renumbered _ hc.nodup_dest objs₂
  refine ⟨objs₂, objs₃, ?_, hren₂, hren₃⟩
  simp only [reorderIssues, filterStatus_eq, if_neg hne, spliceRemove_map_some _ hsi,
    spliceInsert_map_some, hrun₂, hrun₃]

/-- Both touched columns after a cross-column move, in terms of the input columns. -/
theorem column_reorderIssues_cross (issues : List Issue) (src dst : IssueStatus)
    (hne : src ≠ dst) (si di : Nat) (x : Issue) (hx : (column issues src)[si]? = some x) :
    ∃ sorted, reorderIssues issues ⟨src, si⟩ ⟨dst, di⟩ = .ok sorted ∧
      column sorted src = relabel ((column issues src).eraseIdx si) ∧
      column sorted dst = relabel (insertAt (column issues dst) di { x with status := dst }) := by
  have hsi : si < (refsOf issues src).length := by
    rw [← column_length]
    by_contra hn
    rw [List.getElem?_eq_none (by omega)] at hx
    cases hx
  have hxeq : x = objAt issues (refsOf issues src)[si] := by
    rw [column_getElem?, List.getElem?_eq_getElem hsi] at hx
    exact (Option.some.inj hx).symm
  have hc := crossRefs issues hne di hsi
  obtain ⟨objs₂, objs₃, hrun, hren₂, hren₃⟩ := reorderIssues_cross issues src dst hne si di hsi
  have hlen₁ : (setStatus issues (refsOf issues src)[si] dst).length = issues.length :=
    length_setStatus _ _ _
  have hstatus : ∀ r, (objs₃[r]?).map Issue.status =
      if r = (refsOf issues src)[si] then some dst else (issues[r]?).map Issue.status :=
    fun r => by rw [hren₃.status_eq, hren₂.status_eq, status_setStatus _ _ hc.moved_lt]
  have hlt_rest : ∀ r ∈ (refsOf issues src).eraseIdx si,
      r < (setStatus issues (refsOf issues src)[si] dst).length := by
    intro r hr
    rw [hlen₁]
    exact lt_of_mem_refsOf (List.mem_of_mem_eraseIdx hr)
  have hlt_dest : ∀ r ∈ insertAt (refsOf issues dst) di (refsOf issues src)[si],
      r < objs₂.length := by
    intro r hr
    rw [hren₂.length_eq, hlen₁]
    rcases mem_insertAt.mp hr with h | h
    · exact h ▸ hc.moved_lt
    · exact lt_of_mem_refsOf h
  refine ⟨_, hrun, ?_, ?_⟩
  · rw [column_sortByOrder_eq objs₃ ((refsOf issues src).eraseIdx si) src hc.nodup_rest]
    · have h₁ : ((refsOf issues src).eraseIdx si).map (objAt objs₃) =
          ((refsOf issues src).eraseIdx si).map (objAt objs₂) :=
        List.map_congr_left (fun r hr => hren₃.objAt_outside (hc.disjoint r hr))
      have h₂ : ((refsOf issues src).eraseIdx si).map
            (objAt (setStatus issues (refsOf issues src)[si] dst)) =
          ((refsOf issues src).eraseIdx si).map (objAt issues) :=
        List.map_congr_left (fun r hr =>
          objAt_setStatus_ne _ _ (fun h => hc.moved_not_rest (h ▸ hr)))
      rw [h₁, hren₂.map_objAt hlt_rest, h₂, map_eraseIdx_eq, map_objAt_refsOf]
    · intro r
      rw [hstatus, mem_eraseIdx_of_nodup (nodup_refsOf issues src) hsi, mem_refsOf]
      by_cases hr : r = (refsOf issues src)[si]
      · simp only [hr, if_true, ne_eq, not_true_eq_false, and_false, false_iff]
        exact fun h => hne (Option.some.inj h).symm
      · simp [hr]
    · intro k hk
      rw [hren₃.objAt_outside (hc.disjoint _ (List.getElem_mem hk))]
      exact hren₂.order_inside hlt_rest k hk
  · rw [column_sortByOrder_eq objs₃ _ dst hc.nodup_dest]
    · have h₁ : (insertAt (refsOf issues dst) di (refsOf issues src)[si]).map (objAt objs₂) =
          (insertAt (refsOf issues dst) di (refsOf issues src)[si]).map
            (objAt (setStatus issues (refsOf issues src)[si] dst)) :=
        List.map_congr_left (fun r hr =>
          hren₂.objAt_outside (fun h => hc.disjoint r h hr))
      have h₂ : (refsOf issues dst).map (objAt (setStatus issues (refsOf issues src)[si] dst)) =
          (refsOf issues dst).map (objAt issues) :=
        List.map_congr_left (fun r hr =>
          objAt_setStatus_ne _ _ (fun h => hc.moved_not_dst (h ▸ hr)))
      rw [hren₃.map_objAt hlt_dest, h₁, map_insertAt, h₂, map_objAt_refsOf,
        objAt_setStatus_self _ _ hc.moved_lt, hxeq]
    · intro r
      rw [hstatus, mem_insertAt, mem_refsOf]
      by_cases hr : r = (refsOf issues src)[si]
      · simp [hr]
      · simp [hr]
    · exact hren₃.order_inside hlt_dest

theorem Renumbered.map_frame {objs objs' : List Issue} {rs : List Nat}
    (h : Renumbered objs rs objs') : objs'.map Issue.frame = objs.map Issue.frame := by
  apply List.ext_getElem?
  intro r
  rw [List.getElem?_map, List.getElem?_map]
  by_cases hr : r ∈ rs
  · obtain ⟨k, hk, rfl⟩ := List.getElem_of_mem hr
    rw [h.inside k hk]
    cases objs[rs[k]]? <;> rfl
  · rw [h.outside r hr]

theorem map_frame_setStatus (objs : List Issue) (r : Nat) (s : IssueStatus) :
    (setStatus objs r s).map Issue.frame = objs.map Issue.frame := by
  apply List.ext_getElem?
  intro q
  rw [List.getElem?_map, List.getElem?_map]
  by_cases hq : r = q
  · subst hq
    rw [getElem?_setStatus_self]
    cases objs[r]? <;> rfl
  · rw [getElem?_setStatus_ne _ _ hq]

/-- With a valid source index `reorderIssues` does not throw, and the objects it
sorts differ from the input in `status` and `order` only. -/
theorem reorderIssues_frame (issues : List Issue) (src dst : IssueStatus) (si di : Nat)
    (hsi : si < (column issues src).length) :
    ∃ objs', reorderIssues issues ⟨src, si⟩ ⟨dst, di⟩ = .ok (sortByOrder objs') ∧
      objs'.map Issue.frame = issues.map Issue.frame := by
  rw [column_length] at hsi
  by_cases hne : src = dst
  · subst hne
    obtain ⟨objs', hrun, hren⟩ := reorderIssues_same issues src si di hsi
    exact ⟨objs', hrun, hren.map_frame⟩
  · obtain ⟨objs₂, objs₃, hrun, hren₂, hren₃⟩ := reorderIssues_cross issues src dst hne si di hsi
    exact ⟨objs₃, hrun, by rw [hren₃.map_frame, hren₂.map_frame, map_frame_setStatus]⟩

/-- On a board whose sprint is active and whose issues are loaded, a drop that is not
a no-op runs the reorder computation: its result is committed, its TypeError escapes. -/
theorem onDragEnd_active (board : Board) (sp : Sprint) (issues : List Issue)
    (source destination : DraggableLocation)
    (hsprint : board.currentSprint = some sp) (hactive : sp.status = .ACTIVE)
    (hissues : board.issues = some issues) (hne : issues ≠ [])
    (hmove : ¬(destination.droppableId = source.droppableId ∧
      destination.index = source.index)) :
    onDragEnd board ⟨source, some destination⟩ =
      match reorderIssues issues source destination with
      | .error objs => .threw objs
      | .ok sortedIssues => .committed sortedIssues := by
  have hlen : ¬ issues.length = 0 := fun h => hne (List.length_eq_zero.mp h)
  simp only [onDragEnd, hsprint, hactive, hissues, if_neg hmove, if_neg hlen]
  simp

theorem ne_nil_of_lt_column_length {issues : List Issue} {s : IssueStatus} {i : Nat}
    (h : i < (column issues s).length) : issues ≠ [] := by
  rintro rfl
  simp [column] at h

theorem getElem?_insertAt_self {α : Type} (l : List α) (i : Nat) (a : α) (h : i ≤ l.length) :
    (insertAt l i a)[i]? = some a := by
  unfold insertAt
  rw [List.getElem?_append_right (by simp [h])]
  simp [Nat.min_eq_left h]

end heap

/-! ## Lemmas on the store -/

theorem userUpsert_issues (user : ClerkUser) (w : World) :
    (userUpsert user w).2.db.issues = w.db.issues := by
  unfold userUpsert
  simp only [World.record]
  split <;> rfl

theorem issueUpdate_error_of_missing (id : String) (f : Issue → Issue) (w : World)
    (h : ∀ i ∈ w.db.issues, i.id ≠ id) :
    issueUpdate id f w = (.error recordNotFound, w.record .issueUpdate) := by
  have hfind : (w.record .issueUpdate).db.issues.find? (fun i => i.id == id) = none := by
    rw [List.find?_eq_none]
    intro i hi
    simpa using h i hi
  simp only [issueUpdate, hfind]

theorem issueUpdate_cases (id : String) (f : Issue → Issue) (w : World) :
    issueUpdate id f w = (.error recordNotFound, w.record .issueUpdate) ∨
    ∃ row, issueUpdate id f w = (.ok row,
      { db := { w.db with issues := w.db.issues.map (fun j => if j.id == id then f j else j) },
        log := w.log ++ [.issueUpdate] }) ∧
        ∃ i ∈ w.db.issues, i.id = id := by
  unfold issueUpdate
  simp only [World.record]
  cases hfind : w.db.issues.find? (fun i => i.id == id) with
  | none => exact Or.inl rfl
  | some i =>
    have hi := List.find?_some hfind
    have hmem := List.mem_of_find?_eq_some hfind
    exact Or.inr ⟨f i, rfl, i, hmem, by simpa using hi⟩

/-- A batch that names an id absent from the issue table makes the loop throw. -/
theorem updateEach_error_of_missing (batch : List Issue) (w : World)
    (h : ∃ u ∈ batch, ∀ i ∈ w.db.issues, i.id ≠ u.id) :
    ∃ e w', updateEach batch w = (.error e, w') := by
  induction batch generalizing w with
  | nil => obtain ⟨u, hu, -⟩ := h; cases hu
  | cons u rest ih =>
    unfold updateEach
    rcases issueUpdate_cases u.id
        (fun row => { row with status := u.status, order := u.order }) w with hc | ⟨row, hc, i, hi, hid⟩
    · rw [hc]; exact ⟨_, _, rfl⟩
    · rw [hc]
      apply ih
      obtain ⟨v, hv, hmiss⟩ := h
      rcases List.mem_cons.mp hv with rfl | hv
      · exact absurd hid (hmiss i hi)
      · refine ⟨v, hv, ?_⟩
        intro j hj
        simp only [List.mem_map] at hj
        obtain ⟨k, hk, rfl⟩ := hj
        have := hmiss k hk
        split <;> simpa using this

/-- A batch that goes through leaves each row as `applyUpdates` makes it. -/
theorem updateEach_ok_issues (batch : List Issue) (w w' : World)
    (h : updateEach batch w = (.ok (), w')) :
    w'.db.issues = w.db.issues.map (applyUpdates batch) := by
  induction batch generalizing w with
  | nil =>
    have hw : w = w' := by simpa [updateEach] using h
    subst hw
    have hid : applyUpdates [] = id := rfl
    rw [hid, List.map_id]
  | cons u rest ih =>
    unfold updateEach at h
    rcases issueUpdate_cases u.id
        (fun row => { row with status := u.status, order := u.order }) w with hc | ⟨row, hc, -⟩
    · rw [hc] at h
      simp at h
    · rw [hc] at h
      rw [ih _ h]
      simp only [List.map_map]
      apply List.map_congr_left
      intro j _
      simp [applyUpdates]

theorem applyUpdates_id (batch : List Issue) (row : Issue) :
    (applyUpdates batch row).id = row.id := by
  induction batch generalizing row with
  | nil => rfl
  | cons u rest ih =>
    simp only [applyUpdates, List.foldl_cons] at ih ⊢
    rw [ih]
    split <;> rfl

theorem applyUpdates_sprintId (batch : List Issue) (row : Issue) :
    (applyUpdates batch row).sprintId = row.sprintId := by
  induction batch generalizing row with
  | nil => rfl
  | cons u rest ih =>
    simp only [applyUpdates, List.foldl_cons] at ih ⊢
    rw [ih]
    split <;> rfl

theorem applyUpdates_of_not_mem (batch : List Issue) (row : Issue)
    (h : ∀ u ∈ batch, u.id ≠ row.id) : applyUpdates batch row = row := by
  induction batch generalizing row with
  | nil => rfl
  | cons u rest ih =>
    have hu : ¬ row.id = u.id := fun e => h u (List.mem_cons_self _ _) e.symm
    simp only [applyUpdates, List.foldl_cons, beq_iff_eq, hu, if_false] at ih ⊢
    exact ih row (fun v hv => h v (List.mem_cons_of_mem _ hv))

/-- With distinct ids in the batch, the row of a tuple's id ends with the tuple's
`status` and `order`. -/
theorem applyUpdates_of_mem (batch : List Issue) (hnd : (batch.map Issue.id).Nodup)
    (row u : Issue) (hu : u ∈ batch) (hid : row.id = u.id) :
    (applyUpdates batch row).status = u.status ∧ (applyUpdates batch row).order = u.order := by
  induction batch generalizing row with
  | nil => cases hu
  | cons v rest ih =>
    rw [List.map_cons, List.nodup_cons] at hnd
    rcases List.mem_cons.mp hu with rfl | hu'
    · have hrest : ∀ x ∈ rest, x.id ≠ u.id := by
        intro x hx e
        exact hnd.1 (e ▸ List.mem_map_of_mem Issue.id hx)
      have hstep : applyUpdates (u :: rest) row =
          applyUpdates rest { row with status := u.status, order := u.order } := by
        simp [applyUpdates, hid]
      rw [hstep, applyUpdates_of_not_mem rest _ (fun x hx => by simpa [hid] using hrest x hx)]
      exact ⟨rfl, rfl⟩
    · have hne : ¬ row.id = v.id := by
        intro e
        exact hnd.1 (by rw [← e, hid]; exact List.mem_map_of_mem Issue.id hu')
      have hstep : applyUpdates (v :: rest) row = applyUpdates rest row := by
        simp [applyUpdates, hne]
      rw [hstep]
      exact ih hnd.2 row hu' hid

/-- The rows `findMany` returns for a sprint are the issues of that sprint, joined. -/
theorem mem_issueFindManyBySprint (sprintId : String) (w : World) (r : IssueWithUsers) :
    r ∈ (issueFindManyBySprint sprintId w).1 ↔
      ∃ i ∈ w.db.issues, i.sprintId = some sprintId ∧
        r = (w.record .issueFindMany).db.withUsers i := by
  unfold issueFindManyBySprint
  simp only [List.mem_map]
  constructor
  · rintro ⟨a, ha, rfl⟩
    have ha' := (List.perm_insertionSort _ _).mem_iff.mp ha
    rw [List.mem_filter] at ha'
    exact ⟨a, ha'.1, by simpa using ha'.2, rfl⟩
  · rintro ⟨i, hi, hs, rfl⟩
    refine ⟨i, (List.perm_insertionSort _ _).mem_iff.mpr ?_, rfl⟩
    rw [List.mem_filter]
    exact ⟨hi, by simpa using hs⟩

/-! ## The board: claims -/

/-- C1. After a move that is not a no-op and whose source index is valid in the source
column, `onDragEnd` commits a list in which each touched column (the source column and
the destination column) carries the orders `0, 1, ..., N-1`, `N` being the column's new
length: read in list order, the orders of the column are exactly `0..N-1`. -/
theorem onDragEnd_touched_columns_dense (board : Board) (sp : Sprint) (issues : List Issue)
    (src dst : IssueStatus) (si di : Nat)
    (hsprint : board.currentSprint = some sp) (hactive : sp.status = .ACTIVE)
    (hissues : board.issues = some issues) (hsi : si < (column issues src).length)
    (hmove : ¬(dst = src ∧ di = si)) :
    ∃ sorted, onDragEnd board ⟨⟨src, si⟩, some ⟨dst, di⟩⟩ = .committed sorted ∧
      (column sorted src).map Issue.order =
        (List.range (column sorted src).length).map Int.ofNat ∧
      (column sorted dst).map Issue.order =
        (List.range (column sorted dst).length).map Int.ofNat := by
  have hx : (column issues src)[si]? = some (column issues src)[si] :=
    List.getElem?_eq_getElem hsi
  rw [onDragEnd_active board sp issues ⟨src, si⟩ ⟨dst, di⟩ hsprint hactive hissues
    (ne_nil_of_lt_column_length hsi) hmove]
  by_cases hne : src = dst
  · subst hne
    obtain ⟨sorted, hrun, hcol⟩ := column_reorderIssues_same issues src si di _ hx
    refine ⟨sorted, by rw [hrun], ?_, ?_⟩ <;>
      rw [hcol, map_order_relabel, relabel, length_relabelFrom]
  · obtain ⟨sorted, hrun, hsrc, hdst⟩ := column_reorderIssues_cross issues src dst hne si di _ hx
    refine ⟨sorted, by rw [hrun], ?_, ?_⟩
    · rw [hsrc, map_order_relabel, relabel, length_relabelFrom]
    · rw [hdst, map_order_relabel, relabel, length_relabelFrom]

/-- Witness of C1: TODO=[A(0),B(1)], IN_PROGRESS=[C(0)], A dropped on IN_PROGRESS at 0. -/
theorem onDragEnd_touched_columns_dense_witness :
    ∃ sorted, onDragEnd (exBoard [exIssue "A" .TODO 0, exIssue "B" .TODO 1,
        exIssue "C" .IN_PROGRESS 0]) ⟨⟨.TODO, 0⟩, some ⟨.IN_PROGRESS, 0⟩⟩ = .committed sorted ∧
      (column sorted .TODO).map Issue.order =
        (List.range (column sorted .TODO).length).map Int.ofNat ∧
      (column sorted .IN_PROGRESS).map Issue.order =
        (List.range (column sorted .IN_PROGRESS).length).map Int.ofNat :=
  onDragEnd_touched_columns_dense _ exSprint
    [exIssue "A" .TODO 0, exIssue "B" .TODO 1, exIssue "C" .IN_PROGRESS 0]
    .TODO .IN_PROGRESS 0 0 rfl rfl rfl (by decide) (by decide)

/-- C2. For a same-column move with valid source and destination indices (and not a
no-op), the column of that status in the list `onDragEnd` commits is the input column
with the issue at `si` removed and reinserted at `di`, each issue carrying `order`
equal to its 0-based position. -/
theorem onDragEnd_same_column (board : Board) (sp : Sprint) (issues : List Issue)
    (s : IssueStatus) (si di : Nat) (x : Issue)
    (hsprint : board.currentSprint = some sp) (hactive : sp.status = .ACTIVE)
    (hissues : board.issues = some issues)
    (hx : (column issues s)[si]? = some x) (hdi : di < (column issues s).length)
    (hmove : di ≠ si) :
    ∃ sorted, onDragEnd board ⟨⟨s, si⟩, some ⟨s, di⟩⟩ = .committed sorted ∧
      column sorted s = relabel (insertAt ((column issues s).eraseIdx si) di x) := by
  rw [onDragEnd_active board sp issues ⟨s, si⟩ ⟨s, di⟩ hsprint hactive hissues
    (ne_nil_of_lt_column_length hdi) (fun h => hmove h.2)]
  obtain ⟨sorted, hrun, hcol⟩ := column_reorderIssues_same issues s si di x hx
  exact ⟨sorted, by rw [hrun], hcol⟩

/-- Witness of C2, the scenario of the specification: TODO=[A(0),B(1),C(2)], B moved to
index 0; the right-hand side evaluates to [B(0),A(1),C(2)]. -/
theorem onDragEnd_same_column_witness :
    (∃ sorted, onDragEnd (exBoard [exIssue "A" .TODO 0, exIssue "B" .TODO 1,
        exIssue "C" .TODO 2]) ⟨⟨.TODO, 1⟩, some ⟨.TODO, 0⟩⟩ = .committed sorted ∧
      column sorted .TODO = relabel (insertAt ((column [exIssue "A" .TODO 0,
        exIssue "B" .TODO 1, exIssue "C" .TODO 2] .TODO).eraseIdx 1) 0 (exIssue "B" .TODO 1))) ∧
    relabel (insertAt ((column [exIssue "A" .TODO 0, exIssue "B" .TODO 1,
        exIssue "C" .TODO 2] .TODO).eraseIdx 1) 0 (exIssue "B" .TODO 1)) =
      [exIssue "B" .TODO 0, exIssue "A" .TODO 1, exIssue "C" .TODO 2] :=
  ⟨onDragEnd_same_column _ exSprint
    [exIssue "A" .TODO 0, exIssue "B" .TODO 1, exIssue "C" .TODO 2]
    .TODO 1 0 (exIssue "B" .TODO 1) rfl rfl rfl (by decide) (by decide) (by decide),
   by decide⟩

/-- C3. For a cross-column move with valid source index and destination index at most
the destination column's length, in the list `onDragEnd` commits: the destination
column is the input destination column with the moved issue, now of status `dst`,
inserted at position `di` (so the others keep their relative order and the moved issue
sits at `di`), and the source column is the input source column without the moved
issue, in the original relative order; both carry `order` equal to the position. -/
theorem onDragEnd_cross_column (board : Board) (sp : Sprint) (issues : List Issue)
    (src dst : IssueStatus) (si di : Nat) (x : Issue)
    (hsprint : board.currentSprint = some sp) (hactive : sp.status = .ACTIVE)
    (hissues : board.issues = some issues) (hcross : src ≠ dst)
    (hx : (column issues src)[si]? = some x) (hdi : di ≤ (column issues dst).length) :
    ∃ sorted, onDragEnd board ⟨⟨src, si⟩, some ⟨dst, di⟩⟩ = .committed sorted ∧
      column sorted dst = relabel (insertAt (column issues dst) di { x with status := dst }) ∧
      (column sorted dst)[di]? = some { x with status := dst, order := (di : Int) } ∧
      column sorted src = relabel ((column issues src).eraseIdx si) := by
  have hsi : si < (column issues src).length := by
    by_contra hn
    rw [List.getElem?_eq_none (by omega)] at hx
    cases hx
  rw [onDragEnd_active board sp issues ⟨src, si⟩ ⟨dst, di⟩ hsprint hactive hissues
    (ne_nil_of_lt_column_length hsi) (fun h => hcross h.1.symm)]
  obtain ⟨sorted, hrun, hsrc, hdst⟩ := column_reorderIssues_cross issues src dst hcross si di x hx
  refine ⟨sorted, by rw [hrun], hdst, ?_, hsrc⟩
  rw [hdst, relabel, getElem?_relabelFrom, getElem?_insertAt_self _ _ _ hdi]
  simp

/-- Witness of C3, the scenario of the specification: TODO=[A(0),B(1)],
IN_PROGRESS=[C(0)], A moved to IN_PROGRESS at index 0; the right-hand sides evaluate to
IN_PROGRESS=[A(0),C(1)] and TODO=[B(0)]. -/
theorem onDragEnd_cross_column_witness :
    (∃ sorted, onDragEnd (exBoard [exIssue "A" .TODO 0, exIssue "B" .TODO 1,
        exIssue "C" .IN_PROGRESS 0]) ⟨⟨.TODO, 0⟩, some ⟨.IN_PROGRESS, 0⟩⟩ = .committed sorted ∧
      column sorted .IN_PROGRESS = relabel (insertAt (column [exIssue "A" .TODO 0,
        exIssue "B" .TODO 1, exIssue "C" .IN_PROGRESS 0] .IN_PROGRESS) 0
        { exIssue "A" .TODO 0 with status := .IN_PROGRESS }) ∧
      (column sorted .IN_PROGRESS)[0]? =
        some { exIssue "A" .TODO 0 with status := .IN_PROGRESS, order := ((0 : Nat) : Int) } ∧
      column sorted .TODO = relabel ((column [exIssue "A" .TODO 0,
        exIssue "B" .TODO 1, exIssue "C" .IN_PROGRESS 0] .TODO).eraseIdx 0)) ∧
    relabel (insertAt (column [exIssue "A" .TODO 0, exIssue "B" .TODO 1,
        exIssue "C" .IN_PROGRESS 0] .IN_PROGRESS) 0
        { exIssue "A" .TODO 0 with status := .IN_PROGRESS }) =
      [exIssue "A" .IN_PROGRESS 0, exIssue "C" .IN_PROGRESS 1] ∧
    relabel ((column [exIssue "A" .TODO 0, exIssue "B" .TODO 1,
        exIssue "C" .IN_PROGRESS 0] .TODO).eraseIdx 0) = [exIssue "B" .TODO 0] :=
  ⟨onDragEnd_cross_column _ exSprint
    [exIssue "A" .TODO 0, exIssue "B" .TODO 1, exIssue "C" .IN_PROGRESS 0]
    .TODO .IN_PROGRESS 0 0 (exIssue "A" .TODO 0) rfl rfl rfl (by decide) (by decide)
    (by decide), by decide, by decide⟩

/-- C4. When the destination equals the source (same column, same index), `onDragEnd`
returns early, on every board and issue list: no state is written, so the issue list
stays as it is, and `updateIssueOrderFn` is not called. -/
theorem onDragEnd_noop (board : Board) (s : IssueStatus) (i : Nat) :
    (∃ toast, onDragEnd board ⟨⟨s, i⟩, some ⟨s, i⟩⟩ = .returned toast) ∧
    (onDragEnd board ⟨⟨s, i⟩, some ⟨s, i⟩⟩).issuesAfter board = board.issues ∧
    (onDragEnd board ⟨⟨s, i⟩, some ⟨s, i⟩⟩).persisted = [] := by
  have h : ∃ toast, onDragEnd board ⟨⟨s, i⟩, some ⟨s, i⟩⟩ = .returned toast := by
    unfold onDragEnd
    cases board.currentSprint with
    | none => exact ⟨_, rfl⟩
    | some sp =>
      by_cases h₁ : sp.status = .PLANNED
      · exact ⟨some (.warning "Start the sprint to update board"), by simp [h₁]⟩
      · by_cases h₂ : sp.status = .COMPLETED
        · exact ⟨some (.warning "Cannot update board after sprint end"), by simp [h₂]⟩
        · exact ⟨none, by simp [h₁, h₂]⟩
  obtain ⟨toast, ht⟩ := h
  exact ⟨⟨toast, ht⟩, by rw [ht]; rfl, by rw [ht]; rfl⟩

/-- C5, as stated, fails: from TODO=[A(0),B(1)], IN_PROGRESS=[C(0)] (a list sorted by
status then order), moving A to index 1 of TODO commits [B(0), C(0), A(1)], where the
IN_PROGRESS issue C stands between the TODO issues B and A: sorted by status under no
order of the columns. -/
theorem onDragEnd_not_sorted_by_status :
    SortedByStatusThenOrder
      [exIssue "A" .TODO 0, exIssue "B" .TODO 1, exIssue "C" .IN_PROGRESS 0] ∧
    onDragEnd (exBoard [exIssue "A" .TODO 0, exIssue "B" .TODO 1, exIssue "C" .IN_PROGRESS 0])
        ⟨⟨.TODO, 0⟩, some ⟨.TODO, 1⟩⟩ =
      .committed [exIssue "B" .TODO 0, exIssue "C" .IN_PROGRESS 0, exIssue "A" .TODO 1] ∧
    ¬ SortedByStatusThenOrder
      [exIssue "B" .TODO 0, exIssue "C" .IN_PROGRESS 0, exIssue "A" .TODO 1] := by
  refine ⟨by decide, by decide, by decide⟩

/-- C5, amended. For every valid move the list `onDragEnd` commits is sorted by
ascending `order` alone, across all columns; so the sub-sequence of every column is in
ascending `order` too. -/
theorem onDragEnd_sorted_by_order (board : Board) (sp : Sprint) (issues : List Issue)
    (src dst : IssueStatus) (si di : Nat)
    (hsprint : board.currentSprint = some sp) (hactive : sp.status = .ACTIVE)
    (hissues : board.issues = some issues) (hsi : si < (column issues src).length)
    (hmove : ¬(dst = src ∧ di = si)) :
    ∃ sorted, onDragEnd board ⟨⟨src, si⟩, some ⟨dst, di⟩⟩ = .committed sorted ∧
      SortedByOrder sorted ∧ ∀ s, SortedByOrder (column sorted s) := by
  rw [onDragEnd_active board sp issues ⟨src, si⟩ ⟨dst, di⟩ hsprint hactive hissues
    (ne_nil_of_lt_column_length hsi) hmove]
  obtain ⟨objs', hrun, -⟩ := reorderIssues_frame issues src dst si di hsi
  exact ⟨_, by rw [hrun], sorted_sortByOrder objs',
    fun s => (sorted_sortByOrder objs').filter _⟩

/-- Witness of amended C5: TODO=[A(0),B(1)], IN_PROGRESS=[C(0)], A moved to index 1. -/
theorem onDragEnd_sorted_by_order_witness :
    ∃ sorted, onDragEnd (exBoard [exIssue "A" .TODO 0, exIssue "B" .TODO 1,
        exIssue "C" .IN_PROGRESS 0]) ⟨⟨.TODO, 0⟩, some ⟨.TODO, 1⟩⟩ = .committed sorted ∧
      SortedByOrder sorted ∧ ∀ s, SortedByOrder (column sorted s) :=
  onDragEnd_sorted_by_order _ exSprint
    [exIssue "A" .TODO 0, exIssue "B" .TODO 1, exIssue "C" .IN_PROGRESS 0]
    .TODO .TODO 0 1 rfl rfl rfl (by decide) (by decide)

/-- C6. For every valid move the list `onDragEnd` commits is the full issue list: it
has the length of the input, holds the same issue ids (a permutation), and, up to that
permutation, every issue has all fields other than `status` and `order` unchanged. -/
theorem onDragEnd_full_list (board : Board) (sp : Sprint) (issues : List Issue)
    (src dst : IssueStatus) (si di : Nat)
    (hsprint : board.currentSprint = some sp) (hactive : sp.status = .ACTIVE)
    (hissues : board.issues = some issues) (hsi : si < (column issues src).length)
    (hmove : ¬(dst = src ∧ di = si)) :
    ∃ sorted, onDragEnd board ⟨⟨src, si⟩, some ⟨dst, di⟩⟩ = .committed sorted ∧
      sorted.length = issues.length ∧
      (sorted.map Issue.id).Perm (issues.map Issue.id) ∧
      (sorted.map Issue.frame).Perm (issues.map Issue.frame) := by
  rw [onDragEnd_active board sp issues ⟨src, si⟩ ⟨dst, di⟩ hsprint hactive hissues
    (ne_nil_of_lt_column_length hsi) hmove]
  obtain ⟨objs', hrun, hframe⟩ := reorderIssues_frame issues src dst si di hsi
  have hperm : ((sortByOrder objs').map Issue.frame).Perm (issues.map Issue.frame) :=
    hframe ▸ (perm_sortByOrder objs').map Issue.frame
  have hid : ∀ l : List Issue, l.map Issue.id = (l.map Issue.frame).map Issue.id := by
    intro l; rw [List.map_map]; rfl
  refine ⟨_, by rw [hrun], ?_, ?_, hperm⟩
  · simpa using hperm.length_eq
  · rw [hid, hid issues]
    exact hperm.map _

/-- Witness of C6: TODO=[A(0),B(1)], IN_PROGRESS=[C(0)], B moved to IN_PROGRESS at 1. -/
theorem onDragEnd_full_list_witness :
    ∃ sorted, onDragEnd (exBoard [exIssue "A" .TODO 0, exIssue "B" .TODO 1,
        exIssue "C" .IN_PROGRESS 0]) ⟨⟨.TODO, 1⟩, some ⟨.IN_PROGRESS, 1⟩⟩ = .committed sorted ∧
      sorted.length = [exIssue "A" .TODO 0, exIssue "B" .TODO 1,
        exIssue "C" .IN_PROGRESS 0].length ∧
      (sorted.map Issue.id).Perm ([exIssue "A" .TODO 0, exIssue "B" .TODO 1,
        exIssue "C" .IN_PROGRESS 0].map Issue.id) ∧
      (sorted.map Issue.frame).Perm ([exIssue "A" .TODO 0, exIssue "B" .TODO 1,
        exIssue "C" .IN_PROGRESS 0].map Issue.frame) :=
  onDragEnd_full_list _ exSprint
    [exIssue "A" .TODO 0, exIssue "B" .TODO 1, exIssue "C" .IN_PROGRESS 0]
    .TODO .IN_PROGRESS 1 1 rfl rfl rfl (by decide) (by decide)

/-- C7. For a move whose source index is valid in the source column, the reorder
computation of `onDragEnd` does not throw: the card removed at the source index is
defined, a reference to an object of the list, and the computation returns the sorted
list. A valid source index makes the list non-empty, and the destination index may be
any (an index past the end is clamped by `splice`), so the claim's two further
conditions are not needed. -/
theorem reorderIssues_succeeds (issues : List Issue) (src dst : IssueStatus) (si di : Nat)
    (hsi : si < (column issues src).length) :
    (∃ ref, (spliceRemove (filterStatus issues src) si).1 = some ref ∧ ref < issues.length) ∧
    ∃ sorted, reorderIssues issues ⟨src, si⟩ ⟨dst, di⟩ = .ok sorted := by
  obtain ⟨objs', hrun, -⟩ := reorderIssues_frame issues src dst si di hsi
  rw [column_length] at hsi
  refine ⟨⟨(refsOf issues src)[si], ?_, lt_of_mem_refsOf (List.getElem_mem hsi)⟩, _, hrun⟩
  rw [filterStatus_eq, spliceRemove_map_some _ hsi]

/-- Witness of C7: TODO=[A(0),B(1)], IN_PROGRESS=[C(0)], B moved to index 0 of TODO. -/
theorem reorderIssues_succeeds_witness :
    (∃ ref, (spliceRemove (filterStatus [exIssue "A" .TODO 0, exIssue "B" .TODO 1,
        exIssue "C" .IN_PROGRESS 0] .TODO) 1).1 = some ref ∧
      ref < [exIssue "A" .TODO 0, exIssue "B" .TODO 1, exIssue "C" .IN_PROGRESS 0].length) ∧
    ∃ sorted, reorderIssues [exIssue "A" .TODO 0, exIssue "B" .TODO 1,
        exIssue "C" .IN_PROGRESS 0] ⟨.TODO, 1⟩ ⟨.TODO, 0⟩ = .ok sorted :=
  reorderIssues_succeeds
    [exIssue "A" .TODO 0, exIssue "B" .TODO 1, exIssue "C" .IN_PROGRESS 0]
    .TODO .TODO 1 0 (by decide)

/-! ## The server actions: claims -/

/-- C8. If a tuple of the batch names an issue id that is not in the store,
`updateIssueOrder` fails with one error and the issue table after the call is the
issue table before it: none of the updates of the batch is visible. -/
theorem updateIssueOrder_atomic (env : Env) (batch : List Issue) (orgId : Option String)
    (w : World) (h : ∃ u ∈ batch, ∀ i ∈ w.db.issues, i.id ≠ u.id) :
    (∃ e, (updateIssueOrder env batch orgId w).1 = .error e) ∧
    (updateIssueOrder env batch orgId w).2.db.issues = w.db.issues := by
  unfold updateIssueOrder
  cases env.currentUser with
  | none => exact ⟨⟨_, rfl⟩, rfl⟩
  | some user =>
    cases horg : falsy orgId with
    | true => exact ⟨⟨mkError "No Organization Selected", rfl⟩, rfl⟩
    | false =>
      have hmiss : ∃ u ∈ batch,
          ∀ i ∈ ((userUpsert user w).2.record .transaction).db.issues, i.id ≠ u.id := by
        obtain ⟨u, hu, hm⟩ := h
        exact ⟨u, hu, by simpa [World.record, userUpsert_issues] using hm⟩
      obtain ⟨e, w', he⟩ := updateEach_error_of_missing batch _ hmiss
      simp only [transaction, he, Bool.false_eq_true, if_false]
      exact ⟨⟨_, rfl⟩, userUpsert_issues user w⟩

/-- Witness of C8: the batch first moves the existing issue A to DONE, then names the
unknown id Z; the call fails and the issue table is as before. -/
theorem updateIssueOrder_atomic_witness :
    (∃ u ∈ [exIssue "A" .DONE 5, exIssue "Z" .TODO 0],
      ∀ i ∈ exWorld.db.issues, i.id ≠ u.id) ∧
    (∃ e, (updateIssueOrder exEnv [exIssue "A" .DONE 5, exIssue "Z" .TODO 0]
      (some "org_1") exWorld).1 = .error e) ∧
    (updateIssueOrder exEnv [exIssue "A" .DONE 5, exIssue "Z" .TODO 0]
      (some "org_1") exWorld).2.db.issues = exWorld.db.issues :=
  ⟨⟨exIssue "Z" .TODO 0, by decide, by decide⟩,
   updateIssueOrder_atomic exEnv [exIssue "A" .DONE 5, exIssue "Z" .TODO 0] (some "org_1")
     exWorld ⟨exIssue "Z" .TODO 0, by decide, by decide⟩⟩

/-- C9. After `updateIssueOrder` has succeeded on a batch of distinct ids, each naming
an issue of the sprint, `getIssuesForSprint` for that sprint succeeds and returns, for
every tuple of the batch, the issue of that id, and every returned issue of that id
has exactly the tuple's `status` and `order`. -/
theorem getIssuesForSprint_after_updateIssueOrder (env : Env) (batch : List Issue)
    (orgId : Option String) (sprintId : String) (w w' : World)
    (hnd : (batch.map Issue.id).Nodup)
    (hsprint : ∀ u ∈ batch, ∃ i ∈ w.db.issues, i.id = u.id ∧ i.sprintId = some sprintId)
    (hok : updateIssueOrder env batch orgId w = (.ok (), w')) :
    ∃ rows w'', getIssuesForSprint env sprintId orgId w' = (.ok rows, w'') ∧
      ∀ u ∈ batch, (∃ r ∈ rows, r.issue.id = u.id) ∧
        ∀ r ∈ rows, r.issue.id = u.id → r.issue.status = u.status ∧ r.issue.order = u.order := by
  unfold updateIssueOrder at hok
  cases huser : env.currentUser with
  | none => rw [huser] at hok; simp at hok
  | some user =>
    rw [huser] at hok
    cases horg : falsy orgId with
    | true => rw [horg] at hok; simp at hok
    | false =>
      rw [horg] at hok
      simp only [Bool.false_eq_true, if_false] at hok
      have hbody : updateEach batch ((userUpsert user w).2.record .transaction) = (.ok (), w') := by
        rcases hres : updateEach batch ((userUpsert user w).2.record .transaction) with ⟨res, w₂⟩
        cases res with
        | error e => simp [transaction, hres] at hok
        | ok a =>
          simp only [transaction, hres, Prod.mk.injEq, true_and] at hok
          rw [hok]
      have hrows : w'.db.issues = w.db.issues.map (applyUpdates batch) := by
        rw [updateEach_ok_issues batch _ w' hbody]
        simp [World.record, userUpsert_issues]
      refine ⟨(issueFindManyBySprint sprintId (userUpsert user w').2).1,
        (issueFindManyBySprint sprintId (userUpsert user w').2).2,
        by simp only [getIssuesForSprint, huser, horg, Bool.false_eq_true, if_false], ?_⟩
      have hmem : ∀ r, r ∈ (issueFindManyBySprint sprintId (userUpsert user w').2).1 ↔
          ∃ i ∈ w.db.issues, (applyUpdates batch i).sprintId = some sprintId ∧
            r = ((userUpsert user w').2.record .issueFindMany).db.withUsers
              (applyUpdates batch i) := by
        intro r
        rw [mem_issueFindManyBySprint, userUpsert_issues, hrows]
        constructor
        · rintro ⟨a, ha, hs, rfl⟩
          obtain ⟨i, hi, rfl⟩ := List.mem_map.mp ha
          exact ⟨i, hi, hs, rfl⟩
        · rintro ⟨i, hi, hs, rfl⟩
          exact ⟨_, List.mem_map_of_mem _ hi, hs, rfl⟩
      intro u hu
      constructor
      · obtain ⟨i, hi, hid, hs⟩ := hsprint u hu
        refine ⟨_, (hmem _).mpr ⟨i, hi, by rw [applyUpdates_sprintId, hs], rfl⟩, ?_⟩
        show (applyUpdates batch i).id = u.id
        rw [applyUpdates_id, hid]
      · intro r hr hrid
        obtain ⟨i, -, -, rfl⟩ := (hmem r).mp hr
        have hid : i.id = u.id := by
          have : (applyUpdates batch i).id = u.id := hrid
          rwa [applyUpdates_id] at this
        exact applyUpdates_of_mem batch hnd i u hu hid

/-- Witness of C9: columns TODO=[A,B] reordered to [B(0),A(1)] in the example store. -/
theorem getIssuesForSprint_after_updateIssueOrder_witness :
    ∃ rows w'', getIssuesForSprint exEnv "s1" (some "org_1")
        (updateIssueOrder exEnv [exIssue "B" .TODO 0, exIssue "A" .TODO 1]
          (some "org_1") exWorld).2 = (.ok rows, w'') ∧
      ∀ u ∈ [exIssue "B" .TODO 0, exIssue "A" .TODO 1], (∃ r ∈ rows, r.issue.id = u.id) ∧
        ∀ r ∈ rows, r.issue.id = u.id → r.issue.status = u.status ∧ r.issue.order = u.order :=
  getIssuesForSprint_after_updateIssueOrder exEnv [exIssue "B" .TODO 0, exIssue "A" .TODO 1]
    (some "org_1") "s1" exWorld _ (by decide) (by decide) (by rfl)

/-- C10. With no current user, each of the nine server actions on issues, projects and
sprints throws its Unauthorized error and returns the world as it received it: the
tables are unchanged and no store operation has been logged, so the action has neither
read nor written the store. The message is `Unauthorized`; `createSprint` throws inside
its `try`, so its message is `Sprint creation failed: Unauthorized - Please make sure
you're logged in`. -/
theorem actions_unauthorized (env : Env) (w : World) (h : env.currentUser = none) :
    (∀ sprintId orgId,
      getIssuesForSprint env sprintId orgId w = (.error (mkError "Unauthorized"), w)) ∧
    (∀ projectId data orgId,
      createIssue env projectId data orgId w = (.error (mkError "Unauthorized"), w)) ∧
    (∀ batch orgId,
      updateIssueOrder env batch orgId w = (.error (mkError "Unauthorized"), w)) ∧
    (∀ issueId orgId,
      deleteIssue env issueId orgId w = (.error (mkError "Unauthorized"), w)) ∧
    (∀ issueId data orgId,
      updateIssue env issueId data orgId w = (.error (mkError "Unauthorized"), w)) ∧
    (∀ data orgId,
      createProject env data orgId w = (.error (mkError "Unauthorized"), w)) ∧
    (∀ projectId orgId,
      deleteProject env projectId orgId w = (.error (mkError "Unauthorized"), w)) ∧
    (∀ projectId data,
      createSprint env projectId data w = (.error (mkError
        "Sprint creation failed: Unauthorized - Please make sure you're logged in"), w)) ∧
    (∀ sprintId newStatus,
      updateSprintStatus env sprintId newStatus w = (.error (mkError "Unauthorized"), w)) := by
  refine ⟨?_, ?_, ?_, ?_, ?_, ?_, ?_, ?_, ?_⟩
  · intro sprintId orgId; simp only [getIssuesForSprint, h]
  · intro projectId data orgId; simp only [createIssue, h]
  · intro batch orgId; simp only [updateIssueOrder, h]
  · intro issueId orgId; simp only [deleteIssue, h]
  · intro issueId data orgId; simp only [updateIssue, h]
  · intro data orgId; simp only [createProject, h]
  · intro projectId orgId; simp only [deleteProject, h]
  · intro projectId data; simp only [createSprint, h]; rfl
  · intro sprintId newStatus; simp only [updateSprintStatus, h]

/-- Witness of C10: the example request without a signed-in user, on the example
world. -/
theorem actions_unauthorized_witness :
    exEnvAnonymous.currentUser = none ∧
    ((∀ sprintId orgId,
      getIssuesForSprint exEnvAnonymous sprintId orgId exWorld = (.error (mkError "Unauthorized"), exWorld)) ∧
    (∀ projectId data orgId,
      createIssue exEnvAnonymous projectId data orgId exWorld = (.error (mkError "Unauthorized"), exWorld)) ∧
    (∀ batch orgId,
      updateIssueOrder exEnvAnonymous batch orgId exWorld = (.error (mkError "Unauthorized"), exWorld)) ∧
    (∀ issueId orgId,
      deleteIssue exEnvAnonymous issueId orgId exWorld = (.error (mkError "Unauthorized"), exWorld)) ∧
    (∀ issueId data orgId,
      updateIssue exEnvAnonymous issueId data orgId exWorld = (.error (mkError "Unauthorized"), exWorld)) ∧
    (∀ data orgId,
      createProject exEnvAnonymous data orgId exWorld = (.error (mkError "Unauthorized"), exWorld)) ∧
    (∀ projectId orgId,
      deleteProject exEnvAnonymous projectId orgId exWorld = (.error (mkError "Unauthorized"), exWorld)) ∧
    (∀ projectId data,
      createSprint exEnvAnonymous projectId data exWorld = (.error (mkError
        "Sprint creation failed: Unauthorized - Please make sure you're logged in"), exWorld)) ∧
    (∀ sprintId newStatus,
      updateSprintStatus exEnvAnonymous sprintId newStatus exWorld = (.error (mkError "Unauthorized"), exWorld))) :=
  ⟨rfl, actions_unauthorized exEnvAnonymous exWorld rfl⟩

theorem userUpsert_projects (user : ClerkUser) (w : World) :
    (userUpsert user w).2.db.projects = w.db.projects := by
  unfold userUpsert
  simp only [World.record]
  split <;> rfl

theorem userUpsert_sprints (user : ClerkUser) (w : World) :
    (userUpsert user w).2.db.sprints = w.db.sprints := by
  unfold userUpsert
  simp only [World.record]
  split <;> rfl

theorem falsy_some {org : String} (h : falsy (some org) = true) : (org == "") = true := h

/-- C11. When the caller is signed in and `orgId` is absent (`undefined`, `null` or the
empty string, all of which `!orgId` accepts), each of the eight issue and project
actions that take an `orgId` throws `No Organization Selected` and returns the world
as it received it: no store operation has been made. -/
theorem actions_no_organization (env : Env) (w : World) (user : ClerkUser)
    (orgId : Option String) (sprintId projectId issueId : String) (issueData : IssueData)
    (batch : List Issue) (change : IssueChange) (projectData : ProjectData)
    (huser : env.currentUser = some user) (horg : falsy orgId = true) :
    getIssuesForSprint env sprintId orgId w =
      (.error (mkError "No Organization Selected"), w) ∧
    createIssue env projectId issueData orgId w =
      (.error (mkError "No Organization Selected"), w) ∧
    updateIssueOrder env batch orgId w =
      (.error (mkError "No Organization Selected"), w) ∧
    deleteIssue env issueId orgId w =
      (.error (mkError "No Organization Selected"), w) ∧
    updateIssue env issueId change orgId w =
      (.error (mkError "No Organization Selected"), w) ∧
    createProject env projectData orgId w =
      (.error (mkError "No Organization Selected"), w) ∧
    getProjectById env projectId orgId w =
      (.error (mkError "No Organization Selected"), w) ∧
    deleteProject env projectId orgId w =
      (.error (mkError "No Organization Selected"), w) := by
  refine ⟨?_, ?_, ?_, ?_, ?_, ?_, ?_, ?_⟩
  · simp only [getIssuesForSprint, huser, horg, if_true]
  · simp only [createIssue, huser, horg, if_true]
  · simp only [updateIssueOrder, huser, horg, if_true]
  · cases orgId with
    | none => simp only [deleteIssue, huser]
    | some org => simp only [deleteIssue, huser, falsy_some horg, if_true]
  · cases orgId with
    | none => simp only [updateIssue, huser]
    | some org => simp only [updateIssue, huser, falsy_some horg, if_true]
  · cases orgId with
    | none => simp only [createProject, huser]
    | some org => simp only [createProject, huser, falsy_some horg, if_true]
  · cases orgId with
    | none => simp only [getProjectById, huser]
    | some org => simp only [getProjectById, huser, falsy_some horg, if_true]
  · cases orgId with
    | none => simp only [deleteProject, huser]
    | some org => simp only [deleteProject, huser, falsy_some horg, if_true]

/-- Witness of C11: the signed-in example user calling with an empty `orgId`. -/
theorem actions_no_organization_witness :
    exEnv.currentUser = some { id := "clerk_1", name := "Ann", email := "ann@x.org" } ∧
    falsy (some "") = true ∧
    ∀ (sprintId projectId issueId : String) (issueData : IssueData) (batch : List Issue)
      (change : IssueChange) (projectData : ProjectData),
    (getIssuesForSprint exEnv sprintId (some "") exWorld =
      (.error (mkError "No Organization Selected"), exWorld) ∧
    createIssue exEnv projectId issueData (some "") exWorld =
      (.error (mkError "No Organization Selected"), exWorld) ∧
    updateIssueOrder exEnv batch (some "") exWorld =
      (.error (mkError "No Organization Selected"), exWorld) ∧
    deleteIssue exEnv issueId (some "") exWorld =
      (.error (mkError "No Organization Selected"), exWorld) ∧
    updateIssue exEnv issueId change (some "") exWorld =
      (.error (mkError "No Organization Selected"), exWorld) ∧
    createProject exEnv projectData (some "") exWorld =
      (.error (mkError "No Organization Selected"), exWorld) ∧
    getProjectById exEnv projectId (some "") exWorld =
      (.error (mkError "No Organization Selected"), exWorld) ∧
    deleteProject exEnv projectId (some "") exWorld =
      (.error (mkError "No Organization Selected"), exWorld)) :=
  ⟨rfl, rfl, fun sprintId projectId issueId issueData batch change projectData =>
    actions_no_organization exEnv exWorld _ (some "") sprintId projectId issueId issueData
      batch change projectData rfl rfl⟩

theorem issueFindUnique_upsert (user : ClerkUser) (issueId : String) (w : World) :
    issueFindUnique issueId (userUpsert user w).2 =
      ((w.db.issues.find? (fun i => i.id == issueId)).map
        (fun i => (i, w.db.projects.find? (fun p => p.id == i.projectId))),
       (userUpsert user w).2.record .issueFindUnique) := by
  simp only [issueFindUnique, World.record, userUpsert_issues, userUpsert_projects]

theorem deleteIssue_missing (env : Env) (user : ClerkUser) (issueId org : String) (w : World)
    (hu : env.currentUser = some user) (hne : (org == "") = false)
    (hissue : w.db.issues.find? (fun i => i.id == issueId) = none) :
    deleteIssue env issueId (some org) w =
      (.error (mkError "Error deleting issue: Issue not found"),
        (userUpsert user w).2.record .issueFindUnique) := by
  simp only [deleteIssue, hu, hne, Bool.false_eq_true, if_false, issueFindUnique_upsert,
    hissue, Option.map_none']
  rfl

theorem deleteIssue_found (env : Env) (user : ClerkUser) (issueId org : String) (w : World)
    (issue : Issue) (project : Project)
    (hu : env.currentUser = some user) (hne : (org == "") = false)
    (hissue : w.db.issues.find? (fun i => i.id == issueId) = some issue)
    (hproject : w.db.projects.find? (fun p => p.id == issue.projectId) = some project) :
    deleteIssue env issueId (some org) w =
      if project.organizationId != org then
        (.error (mkError "Error deleting issue: Issue does not belong to your organization"),
          (userUpsert user w).2.record .issueFindUnique)
      else if (!(issue.reporterId == (userUpsert user w).1.id) && !adminMember env user org) then
        (.error (mkError "Error deleting issue: You don't have permission to delete this issue"),
          (userUpsert user w).2.record .issueFindUnique)
      else
        (.ok (),
          { db := { (userUpsert user w).2.db with
              issues := w.db.issues.filter (fun i => i.id != issueId) },
            log := (userUpsert user w).2.log ++ [.issueFindUnique, .issueDelete] }) := by
  have hany : w.db.issues.any (fun i => i.id == issueId) = true := by
    have hid := List.find?_some hissue
    rw [List.any_eq_true]
    exact ⟨issue, List.mem_of_find?_eq_some hissue, hid⟩
  simp only [deleteIssue, hu, hne, Bool.false_eq_true, if_false, issueFindUnique_upsert,
    hissue, hproject, Option.map_some']
  split
  · rfl
  · split
    · rfl
    · simp [issueDelete, World.record, userUpsert_issues, hany]

theorem updateIssue_missing (env : Env) (user : ClerkUser) (issueId org : String)
    (data : IssueChange) (w : World)
    (hu : env.currentUser = some user) (hne : (org == "") = false)
    (hissue : w.db.issues.find? (fun i => i.id == issueId) = none) :
    updateIssue env issueId data (some org) w =
      (.error (mkError "Error updating issue: Issue not found"),
        (userUpsert user w).2.record .issueFindUnique) := by
  simp only [updateIssue, hu, hne, Bool.false_eq_true, if_false, issueFindUnique_upsert,
    hissue, Option.map_none']
  rfl

theorem updateIssue_found (env : Env) (user : ClerkUser) (issueId org : String)
    (data : IssueChange) (w : World) (issue : Issue) (project : Project)
    (hu : env.currentUser = some user) (hne : (org == "") = false)
    (hissue : w.db.issues.find? (fun i => i.id == issueId) = some issue)
    (hproject : w.db.projects.find? (fun p => p.id == issue.projectId) = some project) :
    updateIssue env issueId data (some org) w =
      if project.organizationId != org then
        (.error (mkError "Error updating issue: Issue does not belong to your organization"),
          (userUpsert user w).2.record .issueFindUnique)
      else
        (.ok ((userUpsert user w).2.db.withUsers
            { issue with status := data.status.getD issue.status,
                         priority := data.priority.getD issue.priority }),
          { db := { (userUpsert user w).2.db with
              issues := w.db.issues.map (fun j =>
                if j.id == issueId then
                  { j with status := data.status.getD j.status,
                           priority := data.priority.getD j.priority }
                else j) },
            log := (userUpsert user w).2.log ++ [.issueFindUnique, .issueUpdate] }) := by
  simp only [updateIssue, hu, hne, Bool.false_eq_true, if_false, issueFindUnique_upsert,
    hissue, hproject, Option.map_some']
  split
  · rfl
  · simp [issueUpdate, World.record, userUpsert_issues, hissue, Db.withUsers]

theorem beq_empty_false_of_not {org : String} (h : ¬ (org == "") = true) :
    (org == "") = false := by
  cases hb : (org == "") <;> simp_all

theorem deleteIssue_unauthorized (env : Env) (issueId : String) (orgId : Option String)
    (w : World) (hu : env.currentUser = none) :
    deleteIssue env issueId orgId w = (.error (mkError "Unauthorized"), w) := by
  simp only [deleteIssue, hu]

theorem deleteIssue_no_organization (env : Env) (user : ClerkUser) (issueId : String)
    (orgId : Option String) (w : World) (hu : env.currentUser = some user)
    (horg : falsy orgId = true) :
    deleteIssue env issueId orgId w = (.error (mkError "No Organization Selected"), w) := by
  cases orgId with
  | none => simp only [deleteIssue, hu]
  | some org => simp only [deleteIssue, hu, falsy_some horg, if_true]

theorem updateIssue_unauthorized (env : Env) (issueId : String) (data : IssueChange)
    (orgId : Option String) (w : World) (hu : env.currentUser = none) :
    updateIssue env issueId data orgId w = (.error (mkError "Unauthorized"), w) := by
  simp only [updateIssue, hu]

theorem updateIssue_no_organization (env : Env) (user : ClerkUser) (issueId : String)
    (data : IssueChange) (orgId : Option String) (w : World)
    (hu : env.currentUser = some user) (horg : falsy orgId = true) :
    updateIssue env issueId data orgId w = (.error (mkError "No Organization Selected"), w) := by
  cases orgId with
  | none => simp only [updateIssue, hu]
  | some org => simp only [updateIssue, hu, falsy_some horg, if_true]

/-- With a signed-in caller and an organization given, `deleteIssue` on an issue that
exists with its project either throws, leaving the issue table as it was, or deletes
the rows of that id. -/
theorem deleteIssue_issues_of_error (env : Env) (issueId : String) (orgId : Option String)
    (w : World) (issue : Issue) (project : Project)
    (hissue : w.db.issues.find? (fun i => i.id == issueId) = some issue)
    (hproject : w.db.projects.find? (fun p => p.id == issue.projectId) = some project)
    (hblock : ∀ user org, env.currentUser = some user → orgId = some org →
      (project.organizationId != org) = true ∨
      (!(issue.reporterId == (userUpsert user w).1.id) && !adminMember env user org) = true) :
    (∃ e, (deleteIssue env issueId orgId w).1 = .error e) ∧
    (deleteIssue env issueId orgId w).2.db.issues = w.db.issues := by
  cases hu : env.currentUser with
  | none => rw [deleteIssue_unauthorized env issueId orgId w hu]; exact ⟨⟨_, rfl⟩, rfl⟩
  | some user =>
    by_cases hf : falsy orgId = true
    · rw [deleteIssue_no_organization env user issueId orgId w hu hf]; exact ⟨⟨_, rfl⟩, rfl⟩
    · cases orgId with
      | none => exact absurd rfl hf
      | some org =>
        rw [deleteIssue_found env user issueId org w issue project hu
          (beq_empty_false_of_not hf) hissue hproject]
        by_cases h₁ : (project.organizationId != org) = true
        · rw [if_pos h₁]
          exact ⟨⟨_, rfl⟩, userUpsert_issues user w⟩
        · rw [if_neg h₁, if_pos ((hblock user org hu rfl).resolve_left h₁)]
          exact ⟨⟨_, rfl⟩, userUpsert_issues user w⟩

/-- C13. For an issue that exists and whose project belongs to an organization other
than the `orgId` the caller asserts, `deleteIssue` and `updateIssue` both throw and the
issue table after the call is the issue table before it. -/
theorem cross_organization_rejected (env : Env) (issueId : String) (orgId : Option String)
    (data : IssueChange) (w : World) (issue : Issue) (project : Project)
    (hissue : w.db.issues.find? (fun i => i.id == issueId) = some issue)
    (hproject : w.db.projects.find? (fun p => p.id == issue.projectId) = some project)
    (horg : orgId ≠ some project.organizationId) :
    ((∃ e, (deleteIssue env issueId orgId w).1 = .error e) ∧
      (deleteIssue env issueId orgId w).2.db.issues = w.db.issues) ∧
    ((∃ e, (updateIssue env issueId data orgId w).1 = .error e) ∧
      (updateIssue env issueId data orgId w).2.db.issues = w.db.issues) := by
  have hdiff : ∀ org, orgId = some org → (project.organizationId != org) = true := by
    intro org ho
    rw [bne_iff_ne]
    intro h
    exact horg (by rw [ho, h])
  refine ⟨deleteIssue_issues_of_error env issueId orgId w issue project hissue hproject
    (fun user org _ ho => Or.inl (hdiff org ho)), ?_⟩
  cases hu : env.currentUser with
  | none => rw [updateIssue_unauthorized env issueId data orgId w hu]; exact ⟨⟨_, rfl⟩, rfl⟩
  | some user =>
    by_cases hf : falsy orgId = true
    · rw [updateIssue_no_organization env user issueId data orgId w hu hf]
      exact ⟨⟨_, rfl⟩, rfl⟩
    · cases orgId with
      | none => exact absurd rfl hf
      | some org =>
        rw [updateIssue_found env user issueId org data w issue project hu
          (beq_empty_false_of_not hf) hissue hproject, if_pos (hdiff org rfl)]
        exact ⟨⟨_, rfl⟩, userUpsert_issues user w⟩

/-- Witness of C13: issue A of the example store, whose project belongs to `org_1`,
addressed by a caller asserting `org_2`. -/
theorem cross_organization_rejected_witness :
    ((∃ e, (deleteIssue exEnv "A" (some "org_2") exWorld).1 = .error e) ∧
      (deleteIssue exEnv "A" (some "org_2") exWorld).2.db.issues = exWorld.db.issues) ∧
    ((∃ e, (updateIssue exEnv "A" { status := some .DONE, priority := none } (some "org_2")
        exWorld).1 = .error e) ∧
      (updateIssue exEnv "A" { status := some .DONE, priority := none } (some "org_2")
        exWorld).2.db.issues = exWorld.db.issues) :=
  cross_organization_rejected exEnv "A" (some "org_2") { status := some .DONE, priority := none }
    exWorld (exIssue "A" .TODO 0)
    { id := "p1", name := "P", key := "P", description := none, organizationId := "org_1" }
    (by decide) (by decide) (by decide)

theorem adminMember_false_of_no_admin_entry (env : Env) (user : ClerkUser) (org : String)
    (h : ∀ m ∈ env.membershipList org, m.userId = user.id → m.role ≠ "org:admin") :
    adminMember env user org = false := by
  unfold adminMember
  cases hfind : (env.membershipList org).find? (fun m => m.userId == user.id) with
  | none => rfl
  | some m =>
    have hid := List.find?_some hfind
    have hrole := h m (List.mem_of_find?_eq_some hfind) (by simpa using hid)
    simpa using hrole

theorem adminMember_false_of_not_member (env : Env) (user : ClerkUser) (org : String)
    (h : ∀ m ∈ env.membershipList org, m.userId ≠ user.id) :
    adminMember env user org = false :=
  adminMember_false_of_no_admin_entry env user org (fun m hm hid => absurd hid (h m hm))

/-- C15, as stated, fails: for the same caller asserting `org_2`, `deleteIssue` and
`updateIssue` answer differently on issue A, which exists in a project of `org_1`, and
on the id Z, which names no issue. -/
theorem issue_existence_leaked :
    exWorld.db.issues.find? (fun i => i.id == "Z") = none ∧
    (deleteIssue exEnv "A" (some "org_2") exWorld).1 =
      .error (mkError "Error deleting issue: Issue does not belong to your organization") ∧
    (deleteIssue exEnv "Z" (some "org_2") exWorld).1 =
      .error (mkError "Error deleting issue: Issue not found") ∧
    (deleteIssue exEnv "A" (some "org_2") exWorld).1 ≠
      (deleteIssue exEnv "Z" (some "org_2") exWorld).1 ∧
    (updateIssue exEnv "A" { status := some .DONE, priority := none } (some "org_2")
        exWorld).1 ≠
      (updateIssue exEnv "Z" { status := some .DONE, priority := none } (some "org_2")
        exWorld).1 := by
  refine ⟨by decide, rfl, rfl, ?_, ?_⟩
  · intro h
    have h₁ : (deleteIssue exEnv "A" (some "org_2") exWorld).1 =
      .error (mkError "Error deleting issue: Issue does not belong to your organization") := rfl
    have h₂ : (deleteIssue exEnv "Z" (some "org_2") exWorld).1 =
      .error (mkError "Error deleting issue: Issue not found") := rfl
    rw [h₁, h₂] at h
    exact absurd (Except.error.inj h) (by decide)
  · intro h
    have h₁ : (updateIssue exEnv "A" { status := some .DONE, priority := none } (some "org_2")
        exWorld).1 =
      .error (mkError "Error updating issue: Issue does not belong to your organization") := rfl
    have h₂ : (updateIssue exEnv "Z" { status := some .DONE, priority := none } (some "org_2")
        exWorld).1 = .error (mkError "Error updating issue: Issue not found") := rfl
    rw [h₁, h₂] at h
    exact absurd (Except.error.inj h) (by decide)

/-- C15, amended. For a signed-in caller asserting a non-empty `orgId`, `deleteIssue`
and `updateIssue` on an issue that exists in a project of another organization throw
`Issue does not belong to your organization`, and on an id that names no issue they
throw `Issue not found` (after the prefix of the action): the two outcomes differ. In
all four calls the issue table stays as it was. -/
theorem issue_errors_by_case (env : Env) (user : ClerkUser) (org issueId otherId : String)
    (data : IssueChange) (w : World) (issue : Issue) (project : Project)
    (hu : env.currentUser = some user) (hne : (org == "") = false)
    (hissue : w.db.issues.find? (fun i => i.id == issueId) = some issue)
    (hproject : w.db.projects.find? (fun p => p.id == issue.projectId) = some project)
    (hcross : project.organizationId ≠ org)
    (hmissing : w.db.issues.find? (fun i => i.id == otherId) = none) :
    ((deleteIssue env issueId (some org) w).1 =
        .error (mkError "Error deleting issue: Issue does not belong to your organization") ∧
      (deleteIssue env issueId (some org) w).2.db.issues = w.db.issues) ∧
    ((deleteIssue env otherId (some org) w).1 =
        .error (mkError "Error deleting issue: Issue not found") ∧
      (deleteIssue env otherId (some org) w).2.db.issues = w.db.issues) ∧
    ((updateIssue env issueId data (some org) w).1 =
        .error (mkError "Error updating issue: Issue does not belong to your organization") ∧
      (updateIssue env issueId data (some org) w).2.db.issues = w.db.issues) ∧
    ((updateIssue env otherId data (some org) w).1 =
        .error (mkError "Error updating issue: Issue not found") ∧
      (updateIssue env otherId data (some org) w).2.db.issues = w.db.issues) := by
  have hdiff : (project.organizationId != org) = true := by rw [bne_iff_ne]; exact hcross
  rw [deleteIssue_found env user issueId org w issue project hu hne hissue hproject,
    deleteIssue_missing env user otherId org w hu hne hmissing,
    updateIssue_found env user issueId org data w issue project hu hne hissue hproject,
    updateIssue_missing env user otherId org data w hu hne hmissing, if_pos hdiff, if_pos hdiff]
  exact ⟨⟨rfl, userUpsert_issues user w⟩, ⟨rfl, userUpsert_issues user w⟩,
    ⟨rfl, userUpsert_issues user w⟩, ⟨rfl, userUpsert_issues user w⟩⟩

/-- Witness of amended C15: issue A (project of `org_1`) and the unknown id Z, asked
for by a caller asserting `org_2`. -/
theorem issue_errors_by_case_witness :
    ((deleteIssue exEnv "A" (some "org_2") exWorld).1 =
        .error (mkError "Error deleting issue: Issue does not belong to your organization") ∧
      (deleteIssue exEnv "A" (some "org_2") exWorld).2.db.issues = exWorld.db.issues) ∧
    ((deleteIssue exEnv "Z" (some "org_2") exWorld).1 =
        .error (mkError "Error deleting issue: Issue not found") ∧
      (deleteIssue exEnv "Z" (some "org_2") exWorld).2.db.issues = exWorld.db.issues) ∧
    ((updateIssue exEnv "A" { status := none, priority := some .HIGH } (some "org_2")
          exWorld).1 =
        .error (mkError "Error updating issue: Issue does not belong to your organization") ∧
      (updateIssue exEnv "A" { status := none, priority := some .HIGH } (some "org_2")
        exWorld).2.db.issues = exWorld.db.issues) ∧
    ((updateIssue exEnv "Z" { status := none, priority := some .HIGH } (some "org_2")
          exWorld).1 = .error (mkError "Error updating issue: Issue not found") ∧
      (updateIssue exEnv "Z" { status := none, priority := some .HIGH } (some "org_2")
        exWorld).2.db.issues = exWorld.db.issues) :=
  issue_errors_by_case exEnv { id := "clerk_1", name := "Ann", email := "ann@x.org" }
    "org_2" "A" "Z" { status := none, priority := some .HIGH } exWorld (exIssue "A" .TODO 0)
    exProject rfl (by decide) (by decide) (by decide) (by decide) (by decide)

/-- C16. For an issue that exists in a project of the organization the signed-in
caller asserts: when the caller is neither the reporter (the issue's `reporterId` is
not the id of the caller's user row) nor an admin of that organization, `deleteIssue`
throws its permission error and the issue table stays as it was; when the caller is the
reporter or an admin, `deleteIssue` succeeds and the issue table loses exactly the rows
of that id. -/
theorem deleteIssue_permission (env : Env) (user : ClerkUser) (org issueId : String)
    (w : World) (issue : Issue) (project : Project)
    (hu : env.currentUser = some user) (hne : (org == "") = false)
    (hissue : w.db.issues.find? (fun i => i.id == issueId) = some issue)
    (hproject : w.db.projects.find? (fun p => p.id == issue.projectId) = some project)
    (horg : project.organizationId = org) :
    (issue.reporterId ≠ (userUpsert user w).1.id ∧ adminMember env user org = false →
      (deleteIssue env issueId (some org) w).1 = .error (mkError
        "Error deleting issue: You don't have permission to delete this issue") ∧
      (deleteIssue env issueId (some org) w).2.db.issues = w.db.issues) ∧
    (issue.reporterId = (userUpsert user w).1.id ∨ adminMember env user org = true →
      (deleteIssue env issueId (some org) w).1 = .ok () ∧
      (deleteIssue env issueId (some org) w).2.db.issues =
        w.db.issues.filter (fun i => i.id != issueId)) := by
  have hsame : ¬ (project.organizationId != org) = true := by
    rw [bne_iff_ne]; exact fun h => h horg
  rw [deleteIssue_found env user issueId org w issue project hu hne hissue hproject,
    if_neg hsame]
  constructor
  · rintro ⟨hrep, hadm⟩
    have hcond : (!(issue.reporterId == (userUpsert user w).1.id) &&
        !adminMember env user org) = true := by
      simp [hrep, hadm]
    rw [if_pos hcond]
    exact ⟨rfl, userUpsert_issues user w⟩
  · intro h
    have hcond : ¬ (!(issue.reporterId == (userUpsert user w).1.id) &&
        !adminMember env user org) = true := by
      rcases h with h | h <;> simp [h]
    rw [if_neg hcond]
    exact ⟨rfl, rfl⟩

/-- Witness of C16: the admin and reporter `clerk_1` deletes issue A of the example
store; the plain member `clerk_2`, not its reporter, is refused. -/
theorem deleteIssue_permission_witness :
    ((exIssue "A" .TODO 0).reporterId = (userUpsert
        { id := "clerk_1", name := "Ann", email := "ann@x.org" } exWorld).1.id ∨
      adminMember exEnv { id := "clerk_1", name := "Ann", email := "ann@x.org" } "org_1" = true →
      (deleteIssue exEnv "A" (some "org_1") exWorld).1 = .ok () ∧
      (deleteIssue exEnv "A" (some "org_1") exWorld).2.db.issues =
        exWorld.db.issues.filter (fun i => i.id != "A")) ∧
    ((exIssue "A" .TODO 0).reporterId ≠ (userUpsert
        { id := "clerk_2", name := "Bob", email := "bob@x.org" } exWorld).1.id ∧
      adminMember exEnvMember { id := "clerk_2", name := "Bob", email := "bob@x.org" }
        "org_1" = false →
      (deleteIssue exEnvMember "A" (some "org_1") exWorld).1 = .error (mkError
        "Error deleting issue: You don't have permission to delete this issue") ∧
      (deleteIssue exEnvMember "A" (some "org_1") exWorld).2.db.issues = exWorld.db.issues) :=
  ⟨(deleteIssue_permission exEnv { id := "clerk_1", name := "Ann", email := "ann@x.org" }
      "org_1" "A" exWorld (exIssue "A" .TODO 0) exProject rfl (by decide) (by decide)
      (by decide) rfl).2,
   (deleteIssue_permission exEnvMember { id := "clerk_2", name := "Bob", email := "bob@x.org" }
      "org_1" "A" exWorld (exIssue "A" .TODO 0) exProject rfl (by decide) (by decide)
      (by decide) rfl).1⟩

/-- C12, as stated, fails. In the example store the caller `clerk_9` is in no
membership list, yet `updateIssueOrder`, `updateIssue` and `createIssue` succeed and
rewrite or add an issue of `org_1`; and `clerk_1`, reporter of issue A, deletes it at
a time when the membership list of `org_1` is empty. -/
theorem issue_mutation_by_non_member :
    ((exEnvOutsider.membershipList "org_1").all (fun m => m.userId != "clerk_9") = true ∧
      (updateIssueOrder exEnvOutsider [exIssue "A" .DONE 5] (some "org_1") exWorld).1 = .ok () ∧
      (updateIssueOrder exEnvOutsider [exIssue "A" .DONE 5] (some "org_1")
        exWorld).2.db.issues =
        [exIssue "A" .DONE 5, exIssue "B" .TODO 1, exIssue "C" .IN_PROGRESS 0]) ∧
    ((∃ r, (updateIssue exEnvOutsider "A" { status := some .IN_REVIEW, priority := none }
        (some "org_1") exWorld).1 = .ok r) ∧
      (updateIssue exEnvOutsider "A" { status := some .IN_REVIEW, priority := none }
        (some "org_1") exWorld).2.db.issues =
        [exIssue "A" .IN_REVIEW 0, exIssue "B" .TODO 1, exIssue "C" .IN_PROGRESS 0]) ∧
    ((∃ r, (createIssue exEnvOutsider "p1"
        { title := "N", description := none, status := .TODO, priority := .LOW,
          sprintId := some "s1", assigneeId := none } (some "org_1") exWorld).1 = .ok r) ∧
      (createIssue exEnvOutsider "p1"
        { title := "N", description := none, status := .TODO, priority := .LOW,
          sprintId := some "s1", assigneeId := none } (some "org_1") exWorld).2.db.issues.length
        = 4) ∧
    (exEnvFormer.membershipList "org_1" = [] ∧
      (deleteIssue exEnvFormer "A" (some "org_1") exWorld).1 = .ok () ∧
      (deleteIssue exEnvFormer "A" (some "org_1") exWorld).2.db.issues =
        [exIssue "B" .TODO 1, exIssue "C" .IN_PROGRESS 0]) := by
  refine ⟨⟨by decide, rfl, by decide⟩, ⟨⟨_, rfl⟩, by decide⟩, ⟨⟨_, rfl⟩, by decide⟩,
    rfl, rfl, by decide⟩

/-- C12, amended. For `deleteIssue` on an existing issue: if the signed-in caller is not
in the membership list of the organization owning the issue and is not the issue's
reporter, the call throws whatever `orgId` is asserted, and no issue is created,
modified or deleted; asserting the owning organization, the error is the permission
error. -/
theorem deleteIssue_non_member (env : Env) (user : ClerkUser) (issueId : String) (w : World)
    (issue : Issue) (project : Project)
    (hu : env.currentUser = some user)
    (hissue : w.db.issues.find? (fun i => i.id == issueId) = some issue)
    (hproject : w.db.projects.find? (fun p => p.id == issue.projectId) = some project)
    (hmember : ∀ m ∈ env.membershipList project.organizationId, m.userId ≠ user.id)
    (hreporter : issue.reporterId ≠ (userUpsert user w).1.id) :
    (∀ orgId, (∃ e, (deleteIssue env issueId orgId w).1 = .error e) ∧
      (deleteIssue env issueId orgId w).2.db.issues = w.db.issues) ∧
    ((project.organizationId == "") = false →
      (deleteIssue env issueId (some project.organizationId) w).1 = .error (mkError
        "Error deleting issue: You don't have permission to delete this issue")) := by
  have hadm := adminMember_false_of_not_member env user project.organizationId hmember
  have hcond : (!(issue.reporterId == (userUpsert user w).1.id) &&
      !adminMember env user project.organizationId) = true := by
    simp [hreporter, hadm]
  constructor
  · intro orgId
    apply deleteIssue_issues_of_error env issueId orgId w issue project hissue hproject
    intro user' org hu' _
    have huser : user' = user := Option.some.inj (hu'.symm.trans hu)
    subst huser
    by_cases horg : project.organizationId = org
    · subst horg; exact Or.inr hcond
    · exact Or.inl (by rw [bne_iff_ne]; exact horg)
  · intro hne
    have hsame : ¬ (project.organizationId != project.organizationId) = true := by simp
    rw [deleteIssue_found env user issueId _ w issue project hu hne hissue hproject,
      if_neg hsame, if_pos hcond]

/-- Witness of amended C12: `clerk_9`, in no membership list and not the reporter,
cannot delete issue A of the example store. -/
theorem deleteIssue_non_member_witness :
    (∀ orgId, (∃ e, (deleteIssue exEnvOutsider "A" orgId exWorld).1 = .error e) ∧
      (deleteIssue exEnvOutsider "A" orgId exWorld).2.db.issues = exWorld.db.issues) ∧
    ((exProject.organizationId == "") = false →
      (deleteIssue exEnvOutsider "A" (some exProject.organizationId) exWorld).1 =
        .error (mkError
          "Error deleting issue: You don't have permission to delete this issue")) :=
  deleteIssue_non_member exEnvOutsider { id := "clerk_9", name := "Eve", email := "eve@y.org" }
    "A" exWorld (exIssue "A" .TODO 0) exProject rfl (by decide) (by decide) (by decide)
    (by decide)

/-- C14: the code at the failing input. Issue A belongs to project `p1` of `org_1`; a
caller asserting `org_2` passes a batch naming A, and `updateIssueOrder` returns
success with A rewritten: the asserted `orgId` is tested for presence only. -/
theorem updateIssueOrder_ignores_organization :
    exWorld.db.issues.find? (fun i => i.id == "A") = some (exIssue "A" .TODO 0) ∧
    exWorld.db.projects.find? (fun p => p.id == (exIssue "A" .TODO 0).projectId) =
      some exProject ∧
    exProject.organizationId ≠ "org_2" ∧
    (updateIssueOrder exEnv [exIssue "A" .DONE 5] (some "org_2") exWorld).1 = .ok () ∧
    (updateIssueOrder exEnv [exIssue "A" .DONE 5] (some "org_2") exWorld).2.db.issues =
      [exIssue "A" .DONE 5, exIssue "B" .TODO 1, exIssue "C" .IN_PROGRESS 0] := by
  refine ⟨by decide, by decide, by decide, rfl, by decide⟩

/-- C17: the code at the failing input. `clerk_2` is a plain member of `org_1` (not an
admin) and not the reporter of issue A, and `updateIssue` on A succeeds for that
caller, storing the new status and priority. -/
theorem updateIssue_without_permission :
    adminMember exEnvMember { id := "clerk_2", name := "Bob", email := "bob@x.org" }
      "org_1" = false ∧
    (exIssue "A" .TODO 0).reporterId ≠
      (userUpsert { id := "clerk_2", name := "Bob", email := "bob@x.org" } exWorld).1.id ∧
    (∃ r, (updateIssue exEnvMember "A" { status := some .DONE, priority := some .HIGH }
      (some "org_1") exWorld).1 = .ok r) ∧
    (updateIssue exEnvMember "A" { status := some .DONE, priority := some .HIGH }
      (some "org_1") exWorld).2.db.issues =
      [{ exIssue "A" .DONE 0 with priority := .HIGH }, exIssue "B" .TODO 1,
        exIssue "C" .IN_PROGRESS 0] := by
  refine ⟨by decide, by decide, ⟨_, rfl⟩, by decide⟩

theorem sprintFindUnique_upsert (user : ClerkUser) (sprintId : String) (w : World) :
    sprintFindUnique sprintId (userUpsert user w).2 =
      ((w.db.sprints.find? (fun sp => sp.id == sprintId)).map
        (fun sp => (sp, w.db.projects.find? (fun p => p.id == sp.projectId))),
       (userUpsert user w).2.record .sprintFindUnique) := by
  simp only [sprintFindUnique, World.record, userUpsert_sprints, userUpsert_projects]

theorem updateSprintStatus_unauthorized (env : Env) (sprintId : String)
    (newStatus : SprintStatus) (w : World) (hu : env.currentUser = none) :
    updateSprintStatus env sprintId newStatus w = (.error (mkError "Unauthorized"), w) := by
  simp only [updateSprintStatus, hu]

theorem updateSprintStatus_no_project (env : Env) (user : ClerkUser) (sprintId : String)
    (newStatus : SprintStatus) (w : World) (sprint : Sprint)
    (hu : env.currentUser = some user)
    (hsprint : w.db.sprints.find? (fun sp => sp.id == sprintId) = some sprint)
    (hproject : w.db.projects.find? (fun p => p.id == sprint.projectId) = none) :
    updateSprintStatus env sprintId newStatus w =
      (.error (mkError nullPropertyError.message),
        (userUpsert user w).2.record .sprintFindUnique) := by
  simp only [updateSprintStatus, hu, sprintFindUnique_upsert, hsprint, hproject,
    Option.map_some']

/-- The branches of `updateSprintStatus` once the caller is signed in and the sprint
and its project are found. -/
theorem updateSprintStatus_found (env : Env) (user : ClerkUser) (sprintId : String)
    (newStatus : SprintStatus) (w : World) (sprint : Sprint) (project : Project)
    (hu : env.currentUser = some user)
    (hsprint : w.db.sprints.find? (fun sp => sp.id == sprintId) = some sprint)
    (hproject : w.db.projects.find? (fun p => p.id == sprint.projectId) = some project) :
    updateSprintStatus env sprintId newStatus w =
      if (!adminMember env user project.organizationId) = true then
        (.error (mkError "Only organization admins can update sprint status"),
          (userUpsert user w).2.record .sprintFindUnique)
      else if newStatus = .ACTIVE ∧ (env.now < sprint.startDate ∨ env.now > sprint.endDate) then
        (.error (mkError "Cannot start sprint outside of its date range"),
          (userUpsert user w).2.record .sprintFindUnique)
      else if newStatus = .COMPLETED ∧ sprint.status ≠ .ACTIVE then
        (.error (mkError "Can only complete an active sprint"),
          (userUpsert user w).2.record .sprintFindUnique)
      else
        (.ok { sprint with status := newStatus },
          { db := { (userUpsert user w).2.db with
              sprints := w.db.sprints.map (fun row =>
                if row.id == sprintId then { row with status := newStatus } else row) },
            log := (userUpsert user w).2.log ++ [.sprintFindUnique, .sprintUpdate] }) := by
  simp only [updateSprintStatus, hu, sprintFindUnique_upsert, hsprint, hproject,
    Option.map_some']
  split
  · rfl
  · split
    · rfl
    · split
      · rfl
      · simp [sprintUpdate, World.record, userUpsert_sprints, hsprint]

/-- Whenever one of the three guards of `updateSprintStatus` holds for a sprint that
exists, the call throws and the sprint table stays as it was. -/
theorem updateSprintStatus_rejected (env : Env) (sprintId : String) (newStatus : SprintStatus)
    (w : World) (sprint : Sprint)
    (hsprint : w.db.sprints.find? (fun sp => sp.id == sprintId) = some sprint)
    (hguard : ∀ user project, env.currentUser = some user →
      w.db.projects.find? (fun p => p.id == sprint.projectId) = some project →
      adminMember env user project.organizationId = false ∨
      (newStatus = .ACTIVE ∧ (env.now < sprint.startDate ∨ env.now > sprint.endDate)) ∨
      (newStatus = .COMPLETED ∧ sprint.status ≠ .ACTIVE)) :
    (∃ e, (updateSprintStatus env sprintId newStatus w).1 = .error e) ∧
    (updateSprintStatus env sprintId newStatus w).2.db.sprints = w.db.sprints := by
  cases hu : env.currentUser with
  | none =>
    rw [updateSprintStatus_unauthorized env sprintId newStatus w hu]
    exact ⟨⟨_, rfl⟩, rfl⟩
  | some user =>
    cases hproject : w.db.projects.find? (fun p => p.id == sprint.projectId) with
    | none =>
      rw [updateSprintStatus_no_project env user sprintId newStatus w sprint hu hsprint hproject]
      exact ⟨⟨_, rfl⟩, userUpsert_sprints user w⟩
    | some project =>
      rw [updateSprintStatus_found env user sprintId newStatus w sprint project hu hsprint
        hproject]
      by_cases h₁ : (!adminMember env user project.organizationId) = true
      · rw [if_pos h₁]; exact ⟨⟨_, rfl⟩, userUpsert_sprints user w⟩
      · rw [if_neg h₁]
        by_cases h₂ : newStatus = .ACTIVE ∧
            (env.now < sprint.startDate ∨ env.now > sprint.endDate)
        · rw [if_pos h₂]; exact ⟨⟨_, rfl⟩, userUpsert_sprints user w⟩
        · rw [if_neg h₂]
          by_cases h₃ : newStatus = .COMPLETED ∧ sprint.status ≠ .ACTIVE
          · rw [if_pos h₃]; exact ⟨⟨_, rfl⟩, userUpsert_sprints user w⟩
          · rcases hguard user project hu hproject with h | h | h
            · exact absurd (by simp [h]) h₁
            · exact absurd h h₂
            · exact absurd h h₃

/-- C19. For a sprint that exists: when the current time is before `startDate` or after
`endDate`, `updateSprintStatus` with `ACTIVE` throws and the sprint table (so the
sprint's stored status) stays as it was, and for an admin caller the error is the one
of the date check; when the time lies in the range, its two ends `startDate` and
`endDate` included, the date check does not reject: for an admin caller the call
succeeds and stores `ACTIVE`. -/
theorem updateSprintStatus_date_range (env : Env) (sprintId : String) (w : World)
    (sprint : Sprint)
    (hsprint : w.db.sprints.find? (fun sp => sp.id == sprintId) = some sprint) :
    (env.now < sprint.startDate ∨ env.now > sprint.endDate →
      (∃ e, (updateSprintStatus env sprintId .ACTIVE w).1 = .error e) ∧
      (updateSprintStatus env sprintId .ACTIVE w).2.db.sprints = w.db.sprints) ∧
    (∀ user project, env.currentUser = some user →
      w.db.projects.find? (fun p => p.id == sprint.projectId) = some project →
      adminMember env user project.organizationId = true →
      (env.now < sprint.startDate ∨ env.now > sprint.endDate →
        (updateSprintStatus env sprintId .ACTIVE w).1 =
          .error (mkError "Cannot start sprint outside of its date range")) ∧
      (sprint.startDate ≤ env.now ∧ env.now ≤ sprint.endDate →
        (updateSprintStatus env sprintId .ACTIVE w).1 = .ok { sprint with status := .ACTIVE } ∧
        (updateSprintStatus env sprintId .ACTIVE w).2.db.sprints =
          w.db.sprints.map (fun row =>
            if row.id == sprintId then { row with status := .ACTIVE } else row))) := by
  constructor
  · intro hout
    exact updateSprintStatus_rejected env sprintId .ACTIVE w sprint hsprint
      (fun _ _ _ _ => Or.inr (Or.inl ⟨rfl, hout⟩))
  · intro user project hu hproject hadmin
    have h₁ : ¬ (!adminMember env user project.organizationId) = true := by simp [hadmin]
    rw [updateSprintStatus_found env user sprintId .ACTIVE w sprint project hu hsprint hproject,
      if_neg h₁]
    constructor
    · intro hout
      rw [if_pos ⟨rfl, hout⟩]
    · rintro ⟨hlo, hhi⟩
      have h₂ : ¬ (SprintStatus.ACTIVE = .ACTIVE ∧
          (env.now < sprint.startDate ∨ env.now > sprint.endDate)) := by
        rintro ⟨-, h | h⟩
        · exact absurd hlo (not_le.mpr h)
        · exact absurd hhi (not_le.mpr h)
      have h₃ : ¬ (SprintStatus.ACTIVE = .COMPLETED ∧ sprint.status ≠ .ACTIVE) := by
        rintro ⟨h, -⟩; cases h
      rw [if_neg h₂, if_neg h₃]
      exact ⟨rfl, rfl⟩

/-- Witness of C19: the example sprint runs from 0 to 100; at time 100, its last
instant, the admin starts it. -/
theorem updateSprintStatus_date_range_witness :
    (∀ user project, (exEnvAt 100).currentUser = some user →
      exWorld.db.projects.find? (fun p => p.id == exSprint.projectId) = some project →
      adminMember (exEnvAt 100) user project.organizationId = true →
      (((exEnvAt 100).now < exSprint.startDate ∨ (exEnvAt 100).now > exSprint.endDate →
        (updateSprintStatus (exEnvAt 100) "s1" .ACTIVE exWorld).1 =
          .error (mkError "Cannot start sprint outside of its date range")) ∧
      (exSprint.startDate ≤ (exEnvAt 100).now ∧ (exEnvAt 100).now ≤ exSprint.endDate →
        (updateSprintStatus (exEnvAt 100) "s1" .ACTIVE exWorld).1 =
          .ok { exSprint with status := .ACTIVE } ∧
        (updateSprintStatus (exEnvAt 100) "s1" .ACTIVE exWorld).2.db.sprints =
          exWorld.db.sprints.map (fun row =>
            if row.id == "s1" then { row with status := .ACTIVE } else row)))) ∧
    ((exEnvAt 101).now < exSprint.startDate ∨ (exEnvAt 101).now > exSprint.endDate →
      (∃ e, (updateSprintStatus (exEnvAt 101) "s1" .ACTIVE exWorld).1 = .error e) ∧
      (updateSprintStatus (exEnvAt 101) "s1" .ACTIVE exWorld).2.db.sprints =
        exWorld.db.sprints) :=
  ⟨(updateSprintStatus_date_range (exEnvAt 100) "s1" exWorld exSprint (by decide)).2,
   (updateSprintStatus_date_range (exEnvAt 101) "s1" exWorld exSprint (by decide)).1⟩

/-- C20. For a sprint that exists and whose recorded status is not `ACTIVE`,
`updateSprintStatus` with `COMPLETED` throws and the sprint table (so the sprint's
stored status) stays as it was; for an admin caller the error is
`Can only complete an active sprint`. -/
theorem updateSprintStatus_complete_requires_active (env : Env) (sprintId : String)
    (w : World) (sprint : Sprint)
    (hsprint : w.db.sprints.find? (fun sp => sp.id == sprintId) = some sprint)
    (hstatus : sprint.status ≠ .ACTIVE) :
    (∃ e, (updateSprintStatus env sprintId .COMPLETED w).1 = .error e) ∧
    (updateSprintStatus env sprintId .COMPLETED w).2.db.sprints = w.db.sprints ∧
    (∀ user project, env.currentUser = some user →
      w.db.projects.find? (fun p => p.id == sprint.projectId) = some project →
      adminMember env user project.organizationId = true →
      (updateSprintStatus env sprintId .COMPLETED w).1 =
        .error (mkError "Can only complete an active sprint")) := by
  obtain ⟨h₁, h₂⟩ := updateSprintStatus_rejected env sprintId .COMPLETED w sprint hsprint
    (fun _ _ _ _ => Or.inr (Or.inr ⟨rfl, hstatus⟩))
  refine ⟨h₁, h₂, ?_⟩
  intro user project hu hproject hadmin
  have hg₁ : ¬ (!adminMember env user project.organizationId) = true := by simp [hadmin]
  have hg₂ : ¬ (SprintStatus.COMPLETED = .ACTIVE ∧
      (env.now < sprint.startDate ∨ env.now > sprint.endDate)) := by
    rintro ⟨h, -⟩; cases h
  rw [updateSprintStatus_found env user sprintId .COMPLETED w sprint project hu hsprint
    hproject, if_neg hg₁, if_neg hg₂, if_pos ⟨rfl, hstatus⟩]

/-- Witness of C20: the planned sprint of the example world cannot be completed. -/
theorem updateSprintStatus_complete_requires_active_witness :
    (∃ e, (updateSprintStatus exEnv "s1" .COMPLETED exWorldPlanned).1 = .error e) ∧
    (updateSprintStatus exEnv "s1" .COMPLETED exWorldPlanned).2.db.sprints =
      exWorldPlanned.db.sprints ∧
    (∀ user project, exEnv.currentUser = some user →
      exWorldPlanned.db.projects.find?
        (fun p => p.id == ({ exSprint with status := .PLANNED } : Sprint).projectId) =
        some project →
      adminMember exEnv user project.organizationId = true →
      (updateSprintStatus exEnv "s1" .COMPLETED exWorldPlanned).1 =
        .error (mkError "Can only complete an active sprint")) :=
  updateSprintStatus_complete_requires_active exEnv "s1" exWorldPlanned
    { exSprint with status := .PLANNED } (by decide) (by decide)

theorem createProject_not_admin (env : Env) (user : ClerkUser) (data : ProjectData)
    (org : String) (w : World) (hu : env.currentUser = some user)
    (hadmin : adminMember env user org = false) :
    (∃ e, (createProject env data (some org) w).1 = .error e) ∧
    (createProject env data (some org) w).2.db.projects = w.db.projects ∧
    (createProject env data (some org) w).2.db.sprints = w.db.sprints := by
  by_cases hne : (org == "") = true
  · have h : createProject env data (some org) w =
        (.error (mkError "No Organization Selected"), w) := by
      simp only [createProject, hu, hne, if_true]
    rw [h]
    exact ⟨⟨_, rfl⟩, rfl, rfl⟩
  · have h : ∃ e, createProject env data (some org) w =
        (.error e, (userUpsert user w).2.record .projectFindFirst) := by
      cases hfind : (userUpsert user w).2.db.projects.find?
          (fun p => p.organizationId == org && p.key == data.key) with
      | none =>
        refine ⟨mkError "Error creating project: Only organization admins can create projects",
          ?_⟩
        simp only [createProject, hu, beq_empty_false_of_not hne, Bool.false_eq_true, if_false,
          projectFindFirst, World.record, hfind, hadmin, Bool.not_false, if_true]
        rfl
      | some p =>
        refine ⟨mkError ("Error creating project: " ++ ("Project with key \"" ++ data.key ++
          "\" already exists for this organization")), ?_⟩
        simp only [createProject, hu, beq_empty_false_of_not hne, Bool.false_eq_true, if_false,
          projectFindFirst, World.record, hfind]
        rfl
    obtain ⟨e, he⟩ := h
    rw [he]
    exact ⟨⟨_, rfl⟩, userUpsert_projects user w, userUpsert_sprints user w⟩

theorem deleteProject_not_admin (env : Env) (user : ClerkUser) (projectId org : String)
    (w : World) (hu : env.currentUser = some user)
    (hadmin : adminMember env user org = false) :
    (∃ e, (deleteProject env projectId (some org) w).1 = .error e) ∧
    (deleteProject env projectId (some org) w).2.db.projects = w.db.projects ∧
    (deleteProject env projectId (some org) w).2.db.sprints = w.db.sprints := by
  by_cases hne : (org == "") = true
  · have h : deleteProject env projectId (some org) w =
        (.error (mkError "No Organization Selected"), w) := by
      simp only [deleteProject, hu, hne, if_true]
    rw [h]
    exact ⟨⟨_, rfl⟩, rfl, rfl⟩
  · have h : deleteProject env projectId (some org) w =
        (.error (mkError "Error deleting project: Only organization admins can delete projects"),
          (userUpsert user w).2) := by
      simp only [deleteProject, hu, beq_empty_false_of_not hne, Bool.false_eq_true, if_false,
        hadmin, Bool.not_false, if_true]
      rfl
    rw [h]
    exact ⟨⟨_, rfl⟩, userUpsert_projects user w, userUpsert_sprints user w⟩

/-- C18. For a signed-in caller who has no entry with role `org:admin` in the
membership list of the organization: `createProject` and `deleteProject` on that
organization throw, and `updateSprintStatus` on a sprint of a project of that
organization throws; in each case the project table and the sprint table stay as they
were, so no project or sprint is created, deleted or changed. -/
theorem admin_required (env : Env) (user : ClerkUser) (org : String) (w : World)
    (hu : env.currentUser = some user)
    (hrole : ∀ m ∈ env.membershipList org, m.userId = user.id → m.role ≠ "org:admin") :
    (∀ data, (∃ e, (createProject env data (some org) w).1 = .error e) ∧
      (createProject env data (some org) w).2.db.projects = w.db.projects ∧
      (createProject env data (some org) w).2.db.sprints = w.db.sprints) ∧
    (∀ projectId, (∃ e, (deleteProject env projectId (some org) w).1 = .error e) ∧
      (deleteProject env projectId (some org) w).2.db.projects = w.db.projects ∧
      (deleteProject env projectId (some org) w).2.db.sprints = w.db.sprints) ∧
    (∀ sprintId newStatus sprint project,
      w.db.sprints.find? (fun sp => sp.id == sprintId) = some sprint →
      w.db.projects.find? (fun p => p.id == sprint.projectId) = some project →
      project.organizationId = org →
      (updateSprintStatus env sprintId newStatus w).1 =
        .error (mkError "Only organization admins can update sprint status") ∧
      (updateSprintStatus env sprintId newStatus w).2.db.sprints = w.db.sprints ∧
      (updateSprintStatus env sprintId newStatus w).2.db.projects = w.db.projects) := by
  have hadmin := adminMember_false_of_no_admin_entry env user org hrole
  refine ⟨fun data => createProject_not_admin env user data org w hu hadmin,
    fun projectId => deleteProject_not_admin env user projectId org w hu hadmin, ?_⟩
  intro sprintId newStatus sprint project hsprint hproject horg
  subst horg
  have h₁ : (!adminMember env user project.organizationId) = true := by simp [hadmin]
  rw [updateSprintStatus_found env user sprintId newStatus w sprint project hu hsprint hproject,
    if_pos h₁]
  exact ⟨rfl, userUpsert_sprints user w, userUpsert_projects user w⟩

/-- Witness of C18: `clerk_2`, a plain member of `org_1`, on the example store. -/
theorem admin_required_witness :
    (∀ data, (∃ e, (createProject exEnvMember data (some "org_1") exWorld).1 = .error e) ∧
      (createProject exEnvMember data (some "org_1") exWorld).2.db.projects =
        exWorld.db.projects ∧
      (createProject exEnvMember data (some "org_1") exWorld).2.db.sprints =
        exWorld.db.sprints) ∧
    (∀ projectId,
      (∃ e, (deleteProject exEnvMember projectId (some "org_1") exWorld).1 = .error e) ∧
      (deleteProject exEnvMember projectId (some "org_1") exWorld).2.db.projects =
        exWorld.db.projects ∧
      (deleteProject exEnvMember projectId (some "org_1") exWorld).2.db.sprints =
        exWorld.db.sprints) ∧
    (∀ sprintId newStatus sprint project,
      exWorld.db.sprints.find? (fun sp => sp.id == sprintId) = some sprint →
      exWorld.db.projects.find? (fun p => p.id == sprint.projectId) = some project →
      project.organizationId = "org_1" →
      (updateSprintStatus exEnvMember sprintId newStatus exWorld).1 =
        .error (mkError "Only organization admins can update sprint status") ∧
      (updateSprintStatus exEnvMember sprintId newStatus exWorld).2.db.sprints =
        exWorld.db.sprints ∧
      (updateSprintStatus exEnvMember sprintId newStatus exWorld).2.db.projects =
        exWorld.db.projects) :=
  admin_required exEnvMember { id := "clerk_2", name := "Bob", email := "bob@x.org" } "org_1"
    exWorld rfl (by decide)

/-! ## The board: further claims -/

/-- C22. When the current sprint's status is not `ACTIVE` (it is `PLANNED` or
`COMPLETED`), `onDragEnd` returns after a warning toast whatever the drag result: the
issue list and the filtered list stay as they are and `updateIssueOrderFn` is not
called. -/
theorem onDragEnd_inactive_sprint (board : Board) (sp : Sprint) (result : DropResult)
    (hsprint : board.currentSprint = some sp) (hstatus : sp.status ≠ .ACTIVE) :
    (∃ msg, onDragEnd board result = .returned (some (.warning msg))) ∧
    (onDragEnd board result).issuesAfter board = board.issues ∧
    (onDragEnd board result).filteredAfter board = some board.filteredIssues ∧
    (onDragEnd board result).persisted = [] := by
  have h : ∃ msg, onDragEnd board result = .returned (some (.warning msg)) := by
    unfold onDragEnd
    rw [hsprint]
    cases hst : sp.status with
    | PLANNED => exact ⟨"Start the sprint to update board", by simp [hst]⟩
    | ACTIVE => exact absurd hst hstatus
    | COMPLETED => exact ⟨"Cannot update board after sprint end", by simp [hst]⟩
  obtain ⟨msg, hmsg⟩ := h
  rw [hmsg]
  exact ⟨⟨msg, rfl⟩, rfl, rfl, rfl⟩

/-- Witness of C22: a drag on the board of a completed sprint. -/
theorem onDragEnd_inactive_sprint_witness :
    (∃ msg, onDragEnd { exBoard [exIssue "A" .TODO 0, exIssue "B" .TODO 1] with
        currentSprint := some { exSprint with status := .COMPLETED } }
        ⟨⟨.TODO, 0⟩, some ⟨.TODO, 1⟩⟩ = .returned (some (.warning msg))) ∧
    (onDragEnd { exBoard [exIssue "A" .TODO 0, exIssue "B" .TODO 1] with
        currentSprint := some { exSprint with status := .COMPLETED } }
        ⟨⟨.TODO, 0⟩, some ⟨.TODO, 1⟩⟩).issuesAfter
      { exBoard [exIssue "A" .TODO 0, exIssue "B" .TODO 1] with
        currentSprint := some { exSprint with status := .COMPLETED } } =
      some [exIssue "A" .TODO 0, exIssue "B" .TODO 1] ∧
    (onDragEnd { exBoard [exIssue "A" .TODO 0, exIssue "B" .TODO 1] with
        currentSprint := some { exSprint with status := .COMPLETED } }
        ⟨⟨.TODO, 0⟩, some ⟨.TODO, 1⟩⟩).filteredAfter
      { exBoard [exIssue "A" .TODO 0, exIssue "B" .TODO 1] with
        currentSprint := some { exSprint with status := .COMPLETED } } =
      some [exIssue "A" .TODO 0, exIssue "B" .TODO 1] ∧
    (onDragEnd { exBoard [exIssue "A" .TODO 0, exIssue "B" .TODO 1] with
        currentSprint := some { exSprint with status := .COMPLETED } }
        ⟨⟨.TODO, 0⟩, some ⟨.TODO, 1⟩⟩).persisted = [] :=
  onDragEnd_inactive_sprint _ { exSprint with status := .COMPLETED } _ rfl (by decide)

/-- Two object lists of one length hold the same column `t` when they agree on which
positions have status `t` and on the objects at those positions. -/
theorem column_eq_of_agree (objs objs' : List Issue) (t : IssueStatus)
    (hlen : objs'.length = objs.length)
    (hstatus : ∀ r : Nat, (objs'[r]?).map Issue.status = some t ↔
      (objs[r]?).map Issue.status = some t)
    (hsame : ∀ r : Nat, (objs[r]?).map Issue.status = some t → objs'[r]? = objs[r]?) :
    column objs' t = column objs t := by
  have hrefs : refsOf objs' t = refsOf objs t := by
    unfold refsOf
    rw [hlen]
    apply List.filter_congr
    intro r _
    have h := hstatus r
    by_cases hr : (objs[r]?).map Issue.status = some t
    · simp [hr, h.mpr hr]
    · have hr' : ¬ (objs'[r]?).map Issue.status = some t := fun h' => hr (h.mp h')
      simp [hr, hr']
  rw [← map_objAt_refsOf, ← map_objAt_refsOf, hrefs]
  apply List.map_congr_left
  intro r hr
  unfold objAt
  rw [hsame r (mem_refsOf.mp hr)]

/-- The stable sort leaves a column that is already in ascending `order` as it is. -/
theorem column_sortByOrder_of_sorted (objs : List Issue) (t : IssueStatus)
    (h : SortedByOrder (column objs t)) : column (sortByOrder objs) t = column objs t := by
  have hsub : List.Sublist (column objs t) (sortByOrder objs) :=
    List.sublist_insertionSort h (List.filter_sublist objs)
  have hsub' : List.Sublist (column objs t) (column (sortByOrder objs) t) := by
    have h₁ := hsub.filter (fun c => c.status == t)
    have h₂ : (column objs t).filter (fun c => c.status == t) = column objs t := by
      unfold column
      rw [List.filter_filter]
      apply List.filter_congr
      intro c _
      simp
    rw [h₂] at h₁
    exact h₁
  have hlen : (column (sortByOrder objs) t).length = (column objs t).length :=
    ((perm_sortByOrder objs).filter _).length_eq
  exact (hsub'.eq_of_length hlen.symm).symm

/-- A column that is neither the source nor the destination of the move holds the same
objects, at the same positions, before the sort as in the input. -/
theorem reorderIssues_other_column (issues : List Issue) (src dst : IssueStatus) (si di : Nat)
    (t : IssueStatus) (hsi : si < (refsOf issues src).length) (hts : t ≠ src) (htd : t ≠ dst) :
    ∃ objs', reorderIssues issues ⟨src, si⟩ ⟨dst, di⟩ = .ok (sortByOrder objs') ∧
      column objs' t = column issues t := by
  by_cases hne : src = dst
  · subst hne
    obtain ⟨objs', hrun, hren⟩ := reorderIssues_same issues src si di hsi
    refine ⟨objs', hrun, column_eq_of_agree issues objs' t hren.length_eq
      (fun r => by rw [hren.status_eq]) ?_⟩
    intro r hr
    apply hren.outside
    intro hmem
    rw [mem_movedRefs hsi, mem_refsOf, hr] at hmem
    exact hts (Option.some.inj hmem)
  · have hc := crossRefs issues hne di hsi
    obtain ⟨objs₂, objs₃, hrun, hren₂, hren₃⟩ := reorderIssues_cross issues src dst hne si di hsi
    have hmoved : ((issues[(refsOf issues src)[si]]?).map Issue.status) = some src :=
      mem_refsOf.mp (List.getElem_mem hsi)
    have hne_moved : ∀ r : Nat, (issues[r]?).map Issue.status = some t →
        r ≠ (refsOf issues src)[si] := by
      rintro r hr rfl
      rw [hmoved] at hr
      exact hts (Option.some.inj hr).symm
    refine ⟨objs₃, hrun, column_eq_of_agree issues objs₃ t ?_ ?_ ?_⟩
    · rw [hren₃.length_eq, hren₂.length_eq, length_setStatus]
    · intro r
      rw [hren₃.status_eq, hren₂.status_eq, status_setStatus _ _ hc.moved_lt]
      by_cases hr : r = (refsOf issues src)[si]
      · subst hr
        rw [if_pos rfl, hmoved]
        constructor
        · intro h; exact absurd (Option.some.inj h).symm htd
        · intro h; exact absurd (Option.some.inj h).symm hts
      · rw [if_neg hr]
    · intro r hr
      have hr₁ := hne_moved r hr
      have hnotdest : r ∉ insertAt (refsOf issues dst) di (refsOf issues src)[si] := by
        intro hmem
        rcases mem_insertAt.mp hmem with h | h
        · exact hr₁ h
        · rw [mem_refsOf, hr] at h
          exact htd (Option.some.inj h)
      have hnotrest : r ∉ (refsOf issues src).eraseIdx si := by
        intro hmem
        have h := List.mem_of_mem_eraseIdx hmem
        rw [mem_refsOf, hr] at h
        exact hts (Option.some.inj h)
      rw [hren₃.outside r hnotdest, hren₂.outside r hnotrest,
        getElem?_setStatus_ne _ _ (Ne.symm hr₁)]

/-- C29. For a valid move, in the list `onDragEnd` commits the column of a status that
is neither the source nor the destination status holds the same issues as in the
input, each with the same status and order; and when that column is listed in
ascending order in the input, it is the same sequence, so the relative order of its
issues is preserved. -/
theorem onDragEnd_other_columns (board : Board) (sp : Sprint) (issues : List Issue)
    (src dst t : IssueStatus) (si di : Nat)
    (hsprint : board.currentSprint = some sp) (hactive : sp.status = .ACTIVE)
    (hissues : board.issues = some issues) (hsi : si < (column issues src).length)
    (hmove : ¬(dst = src ∧ di = si)) (hts : t ≠ src) (htd : t ≠ dst) :
    ∃ sorted, onDragEnd board ⟨⟨src, si⟩, some ⟨dst, di⟩⟩ = .committed sorted ∧
      (column sorted t).Perm (column issues t) ∧
      (SortedByOrder (column issues t) → column sorted t = column issues t) := by
  rw [onDragEnd_active board sp issues ⟨src, si⟩ ⟨dst, di⟩ hsprint hactive hissues
    (ne_nil_of_lt_column_length hsi) hmove]
  rw [column_length] at hsi
  obtain ⟨objs', hrun, hcol⟩ := reorderIssues_other_column issues src dst si di t hsi hts htd
  refine ⟨_, by rw [hrun], ?_, ?_⟩
  · rw [← hcol]
    exact (perm_sortByOrder objs').filter _
  · intro hsorted
    rw [← hcol] at hsorted ⊢
    exact column_sortByOrder_of_sorted objs' t hsorted

/-- Witness of C29: TODO=[A(0),B(1)], IN_PROGRESS=[C(0)], DONE=[D(0),E(1)]; A is moved
to IN_PROGRESS and the DONE column is looked at. -/
theorem onDragEnd_other_columns_witness :
    ∃ sorted, onDragEnd (exBoard [exIssue "A" .TODO 0, exIssue "B" .TODO 1,
        exIssue "C" .IN_PROGRESS 0, exIssue "D" .DONE 0, exIssue "E" .DONE 1])
        ⟨⟨.TODO, 0⟩, some ⟨.IN_PROGRESS, 0⟩⟩ = .committed sorted ∧
      (column sorted .DONE).Perm (column [exIssue "A" .TODO 0, exIssue "B" .TODO 1,
        exIssue "C" .IN_PROGRESS 0, exIssue "D" .DONE 0, exIssue "E" .DONE 1] .DONE) ∧
      (SortedByOrder (column [exIssue "A" .TODO 0, exIssue "B" .TODO 1,
        exIssue "C" .IN_PROGRESS 0, exIssue "D" .DONE 0, exIssue "E" .DONE 1] .DONE) →
        column sorted .DONE = column [exIssue "A" .TODO 0, exIssue "B" .TODO 1,
        exIssue "C" .IN_PROGRESS 0, exIssue "D" .DONE 0, exIssue "E" .DONE 1] .DONE) :=
  onDragEnd_other_columns _ exSprint
    [exIssue "A" .TODO 0, exIssue "B" .TODO 1, exIssue "C" .IN_PROGRESS 0,
      exIssue "D" .DONE 0, exIssue "E" .DONE 1]
    .TODO .IN_PROGRESS .DONE 0 0 rfl rfl rfl (by decide) (by decide) (by decide) (by decide)

theorem insertAt_zero {α : Type} (l : List α) (a : α) : insertAt l 0 a = a :: l := by
  simp [insertAt]

theorem insertAt_cons_succ {α : Type} (b : α) (l : List α) (i : Nat) (a : α) :
    insertAt (b :: l) (i + 1) a = b :: insertAt l i a := by
  simp [insertAt]

/-- Removing what was just inserted gives the list back. -/
theorem eraseIdx_insertAt_self {α : Type} (l : List α) (i : Nat) (a : α)
    (h : i ≤ l.length) : (insertAt l i a).eraseIdx i = l := by
  induction l generalizing i with
  | nil =>
    have hi : i = 0 := by simpa using h
    subst hi
    rfl
  | cons b l ih =>
    cases i with
    | zero => rw [insertAt_zero]; rfl
    | succ i =>
      rw [insertAt_cons_succ, List.eraseIdx_cons_succ, ih i (by simpa using h)]

/-- Putting back what was removed, where it was, gives the list back. -/
theorem insertAt_eraseIdx_self {α : Type} (l : List α) (i : Nat) (a : α)
    (h : l[i]? = some a) : insertAt (l.eraseIdx i) i a = l := by
  induction l generalizing i with
  | nil => simp at h
  | cons b l ih =>
    cases i with
    | zero =>
      have hb : b = a := by simpa using h
      rw [List.eraseIdx_cons_zero, insertAt_zero, hb]
    | succ i =>
      rw [List.eraseIdx_cons_succ, insertAt_cons_succ, ih i (by simpa using h)]

theorem length_insertAt {α : Type} (l : List α) (i : Nat) (a : α) :
    (insertAt l i a).length = l.length + 1 :=
  (perm_insertAt l i a).length_eq

/-- The source's `reorder` undone by the reverse `reorder`, for valid indices. -/
theorem reorder_reorder (list : List Card) (i j : Nat) (hi : i < list.length)
    (hj : j < list.length) : reorder (reorder list i j) j i = list := by
  obtain ⟨c, hc⟩ : ∃ c, list[i]? = some c := ⟨list[i], List.getElem?_eq_getElem hi⟩
  have hlen : (list.eraseIdx i).length = list.length - 1 := List.length_eraseIdx_of_lt hi
  have hj' : j ≤ (list.eraseIdx i).length := by omega
  have h₁ : reorder list i j = insertAt (list.eraseIdx i) j c := by
    simp only [reorder, spliceRemove, spliceInsert, insertAt, hc]
    rfl
  have h₂ : (insertAt (list.eraseIdx i) j c)[j]? = some c := getElem?_insertAt_self _ _ _ hj'
  rw [h₁]
  simp only [reorder, spliceRemove, h₂]
  show insertAt ((insertAt (list.eraseIdx i) j c).eraseIdx j) i c = list
  rw [eraseIdx_insertAt_self _ _ _ hj', insertAt_eraseIdx_self _ _ _ hc]

theorem relabelFrom_map_unordered (k : Nat) (l : List Issue) :
    relabelFrom k (l.map Issue.unordered) = relabelFrom k l := by
  induction l generalizing k with
  | nil => rfl
  | cons c l ih => simp only [List.map_cons, relabelFrom, ih]; rfl

theorem map_unordered_relabelFrom (k : Nat) (l : List Issue) :
    (relabelFrom k l).map Issue.unordered = l.map Issue.unordered := by
  induction l generalizing k with
  | nil => rfl
  | cons c l ih => simp only [relabelFrom, List.map_cons, ih]; rfl

/-- Relabelling looks at the issues up to their `order` only. -/
theorem relabel_congr {l l' : List Issue}
    (h : l.map Issue.unordered = l'.map Issue.unordered) : relabel l = relabel l' := by
  unfold relabel
  rw [← relabelFrom_map_unordered 0 l, ← relabelFrom_map_unordered 0 l', h]

theorem map_unordered_relabel (l : List Issue) :
    (relabel l).map Issue.unordered = l.map Issue.unordered :=
  map_unordered_relabelFrom 0 l

theorem sortedByOrder_relabel (l : List Issue) : SortedByOrder (relabel l) := by
  unfold SortedByOrder
  have h : ((relabel l).map Issue.order).Pairwise (fun a b => a ≤ b) := by
    rw [map_order_relabel, List.pairwise_map]
    exact (List.pairwise_lt_range l.length).imp
      (fun h => Int.ofNat_le.mpr (le_of_lt h))
  exact List.pairwise_map.mp h

theorem DenseColumns.sorted {issues : List Issue} (h : DenseColumns issues) (s : IssueStatus) :
    SortedByOrder (column issues s) := by
  rw [h s]; exact sortedByOrder_relabel _

theorem status_of_mem_column {issues : List Issue} {s : IssueStatus} {c : Issue}
    (h : c ∈ column issues s) : c.status = s := by
  unfold column at h
  simpa using (List.mem_filter.mp h).2

theorem perm_of_columns_eq {l l' : List Issue} (h : ∀ s, column l s = column l' s) :
    l.Perm l' := by
  rw [List.perm_iff_count]
  intro a
  have h₁ : List.count a (column l a.status) = List.count a l :=
    List.count_filter (by simp)
  have h₂ : List.count a (column l' a.status) = List.count a l' :=
    List.count_filter (by simp)
  rw [← h₁, ← h₂, h a.status]

/-- A same-column move, column by column: the column moved within, and the others when
they are in ascending order. -/
theorem reorderIssues_columns_same (issues : List Issue) (s : IssueStatus) (si di : Nat)
    (x : Issue) (hx : (column issues s)[si]? = some x)
    (hsorted : ∀ t, t ≠ s → SortedByOrder (column issues t)) :
    ∃ sorted, reorderIssues issues ⟨s, si⟩ ⟨s, di⟩ = .ok sorted ∧
      column sorted s = relabel (insertAt ((column issues s).eraseIdx si) di x) ∧
      ∀ t, t ≠ s → column sorted t = column issues t := by
  have hsi : si < (refsOf issues s).length := by
    rw [← column_length]
    by_contra hn
    rw [List.getElem?_eq_none (by omega)] at hx
    cases hx
  obtain ⟨sorted, hrun, hcol⟩ := column_reorderIssues_same issues s si di x hx
  refine ⟨sorted, hrun, hcol, ?_⟩
  intro t ht
  obtain ⟨objs', hrun', hcol'⟩ := reorderIssues_other_column issues s s si di t hsi ht ht
  have heq : sorted = sortByOrder objs' := by
    rw [hrun] at hrun'
    exact Except.ok.inj hrun'
  rw [heq, column_sortByOrder_of_sorted objs' t (by rw [hcol']; exact hsorted t ht), hcol']

/-- A cross-column move, column by column: the two touched columns, and the others when
they are in ascending order. -/
theorem reorderIssues_columns_cross (issues : List Issue) (src dst : IssueStatus)
    (hne : src ≠ dst) (si di : Nat) (x : Issue) (hx : (column issues src)[si]? = some x)
    (hsorted : ∀ t, t ≠ src → t ≠ dst → SortedByOrder (column issues t)) :
    ∃ sorted, reorderIssues issues ⟨src, si⟩ ⟨dst, di⟩ = .ok sorted ∧
      column sorted src = relabel ((column issues src).eraseIdx si) ∧
      column sorted dst = relabel (insertAt (column issues dst) di { x with status := dst }) ∧
      ∀ t, t ≠ src → t ≠ dst → column sorted t = column issues t := by
  have hsi : si < (refsOf issues src).length := by
    rw [← column_length]
    by_contra hn
    rw [List.getElem?_eq_none (by omega)] at hx
    cases hx
  obtain ⟨sorted, hrun, hsrc, hdst⟩ := column_reorderIssues_cross issues src dst hne si di x hx
  refine ⟨sorted, hrun, hsrc, hdst, ?_⟩
  intro t hts htd
  obtain ⟨objs', hrun', hcol'⟩ := reorderIssues_other_column issues src dst si di t hsi hts htd
  have heq : sorted = sortByOrder objs' := by
    rw [hrun] at hrun'
    exact Except.ok.inj hrun'
  rw [heq, column_sortByOrder_of_sorted objs' t (by rw [hcol']; exact hsorted t hts htd), hcol']

/-- A same-column move followed by the reverse move restores every column. -/
theorem reorderIssues_inverse_same (issues : List Issue) (hdense : DenseColumns issues)
    (s : IssueStatus) (si di : Nat) (x : Issue)
    (hx : (column issues s)[si]? = some x) (hdi : di < (column issues s).length) :
    ∃ moved back, reorderIssues issues ⟨s, si⟩ ⟨s, di⟩ = .ok moved ∧
      reorderIssues moved ⟨s, di⟩ ⟨s, si⟩ = .ok back ∧
      ∀ t, column back t = column issues t := by
  have hsi : si < (column issues s).length := by
    by_contra hn
    rw [List.getElem?_eq_none (by omega)] at hx
    cases hx
  have hlen : ((column issues s).eraseIdx si).length = (column issues s).length - 1 :=
    List.length_eraseIdx_of_lt hsi
  have hdi' : di ≤ ((column issues s).eraseIdx si).length := by omega
  obtain ⟨moved, hrun₁, hcol₁, hoth₁⟩ := reorderIssues_columns_same issues s si di x hx
    (fun t _ => hdense.sorted t)
  have hx₂ : (column moved s)[di]? = some { x with order := (di : Int) } := by
    rw [hcol₁, relabel, getElem?_relabelFrom, getElem?_insertAt_self _ _ _ hdi']
    simp
  obtain ⟨back, hrun₂, hcol₂, hoth₂⟩ := reorderIssues_columns_same moved s di si _ hx₂
    (fun t ht => by rw [hoth₁ t ht]; exact hdense.sorted t)
  refine ⟨moved, back, hrun₁, hrun₂, ?_⟩
  intro t
  by_cases ht : t = s
  · subst ht
    rw [hcol₂, hcol₁, hdense t]
    apply relabel_congr
    have hxu : ((column issues t).map Issue.unordered)[si]? = some x.unordered := by
      rw [List.getElem?_map, hx]; rfl
    have hdu : di ≤ (((column issues t).map Issue.unordered).eraseIdx si).length := by
      rw [← map_eraseIdx_eq, List.length_map]; exact hdi'
    rw [map_insertAt, map_eraseIdx_eq, map_unordered_relabel, map_insertAt, map_eraseIdx_eq,
      map_unordered_relabel]
    show insertAt ((insertAt (((column issues t).map Issue.unordered).eraseIdx si) di
      x.unordered).eraseIdx di) si x.unordered = _
    rw [eraseIdx_insertAt_self _ _ _ hdu, insertAt_eraseIdx_self _ _ _ hxu]
  · rw [hoth₂ t ht, hoth₁ t ht]

/-- A cross-column move followed by the reverse move restores every column. -/
theorem reorderIssues_inverse_cross (issues : List Issue) (hdense : DenseColumns issues)
    (src dst : IssueStatus) (hne : src ≠ dst) (si di : Nat) (x : Issue)
    (hx : (column issues src)[si]? = some x) (hdi : di ≤ (column issues dst).length) :
    ∃ moved back, reorderIssues issues ⟨src, si⟩ ⟨dst, di⟩ = .ok moved ∧
      reorderIssues moved ⟨dst, di⟩ ⟨src, si⟩ = .ok back ∧
      ∀ t, column back t = column issues t := by
  have hxs : x.status = src :=
    status_of_mem_column (List.getElem?_mem hx)
  obtain ⟨moved, hrun₁, hsrc₁, hdst₁, hoth₁⟩ :=
    reorderIssues_columns_cross issues src dst hne si di x hx (fun t _ _ => hdense.sorted t)
  have hx₂ : (column moved dst)[di]? = some { x with status := dst, order := (di : Int) } := by
    rw [hdst₁, relabel, getElem?_relabelFrom, getElem?_insertAt_self _ _ _ hdi]
    simp
  obtain ⟨back, hrun₂, hdst₂, hsrc₂, hoth₂⟩ :=
    reorderIssues_columns_cross moved dst src (Ne.symm hne) di si _ hx₂
      (fun t htd hts => by rw [hoth₁ t hts htd]; exact hdense.sorted t)
  refine ⟨moved, back, hrun₁, hrun₂, ?_⟩
  intro t
  by_cases hts : t = src
  · subst hts
    rw [hsrc₂, hsrc₁, hdense t]
    apply relabel_congr
    have hxu : ((column issues t).map Issue.unordered)[si]? = some x.unordered := by
      rw [List.getElem?_map, hx]; rfl
    have hback : Issue.unordered
        { ({ x with status := dst, order := (di : Int) } : Issue) with status := t } =
        x.unordered := by
      cases x
      simp only [Issue.unordered] at hxs ⊢
      subst hxs
      rfl
    rw [map_insertAt, map_unordered_relabel, map_eraseIdx_eq, map_unordered_relabel, hback,
      insertAt_eraseIdx_self _ _ _ hxu]
  · by_cases htd : t = dst
    · subst htd
      rw [hdst₂, hdst₁]
      conv_rhs => rw [hdense t]
      apply relabel_congr
      rw [map_eraseIdx_eq, map_unordered_relabel, map_insertAt,
        eraseIdx_insertAt_self _ _ _ (by rw [List.length_map]; exact hdi)]
    · rw [hoth₂ t htd hts, hoth₁ t hts htd]

/-- C30. On a list whose columns each appear in ascending order with `order` equal to
the position in the column, the reorder computation of `onDragEnd` for a valid move
from `(src, si)` to `(dst, di)`, followed by the one for the reverse move from
`(dst, di)` to `(src, si)` on its result, succeeds both times and gives back every
column as it was: every issue has its original status and order, and the list is a
permutation of the input. And `reorder(reorder(list, i, j), j, i)` is `list` for valid
`i` and `j`. A destination index is valid up to the column length across columns and
below it within one column. -/
theorem reorderIssues_reversible (issues : List Issue) (hdense : DenseColumns issues)
    (src dst : IssueStatus) (si di : Nat) (x : Issue)
    (hx : (column issues src)[si]? = some x) (hdi : di ≤ (column issues dst).length)
    (hsame : src = dst → di < (column issues src).length) :
    (∃ moved back, reorderIssues issues ⟨src, si⟩ ⟨dst, di⟩ = .ok moved ∧
      reorderIssues moved ⟨dst, di⟩ ⟨src, si⟩ = .ok back ∧
      (∀ t, column back t = column issues t) ∧ back.Perm issues) ∧
    (∀ (list : List Card) (i j : Nat), i < list.length → j < list.length →
      reorder (reorder list i j) j i = list) := by
  refine ⟨?_, fun list i j hi hj => reorder_reorder list i j hi hj⟩
  by_cases hne : src = dst
  · subst hne
    obtain ⟨moved, back, h₁, h₂, h₃⟩ :=
      reorderIssues_inverse_same issues hdense src si di x hx (hsame rfl)
    exact ⟨moved, back, h₁, h₂, h₃, perm_of_columns_eq h₃⟩
  · obtain ⟨moved, back, h₁, h₂, h₃⟩ :=
      reorderIssues_inverse_cross issues hdense src dst hne si di x hx hdi
    exact ⟨moved, back, h₁, h₂, h₃, perm_of_columns_eq h₃⟩

/-- Witness of C30: TODO=[A(0),B(1)], IN_PROGRESS=[C(0)]; A is moved to the end of
IN_PROGRESS and back. -/
theorem reorderIssues_reversible_witness :
    (∃ moved back, reorderIssues [exIssue "A" .TODO 0, exIssue "B" .TODO 1,
        exIssue "C" .IN_PROGRESS 0] ⟨.TODO, 0⟩ ⟨.IN_PROGRESS, 1⟩ = .ok moved ∧
      reorderIssues moved ⟨.IN_PROGRESS, 1⟩ ⟨.TODO, 0⟩ = .ok back ∧
      (∀ t, column back t = column [exIssue "A" .TODO 0, exIssue "B" .TODO 1,
        exIssue "C" .IN_PROGRESS 0] t) ∧
      back.Perm [exIssue "A" .TODO 0, exIssue "B" .TODO 1, exIssue "C" .IN_PROGRESS 0]) ∧
    (∀ (list : List Card) (i j : Nat), i < list.length → j < list.length →
      reorder (reorder list i j) j i = list) :=
  reorderIssues_reversible
    [exIssue "A" .TODO 0, exIssue "B" .TODO 1, exIssue "C" .IN_PROGRESS 0]
    (fun s => by cases s <;> decide) .TODO .IN_PROGRESS 0 1 (exIssue "A" .TODO 0)
    (by decide) (by decide) (fun h => by cases h)

/-! ## The server actions: further claims -/

/-- C21: the code at the failing inputs. An admin moves the active sprint of the example
store back to `PLANNED`, and moves a completed sprint to `PLANNED` and, within its date
range, to `ACTIVE`: each call succeeds and stores the new status. -/
theorem updateSprintStatus_moves_backwards :
    ((updateSprintStatus exEnv "s1" .PLANNED exWorld).1 =
        .ok { exSprint with status := .PLANNED } ∧
      (updateSprintStatus exEnv "s1" .PLANNED exWorld).2.db.sprints =
        [{ exSprint with status := .PLANNED }]) ∧
    ((updateSprintStatus exEnv "s1" .PLANNED exWorldCompleted).1 =
        .ok { exSprint with status := .PLANNED } ∧
      (updateSprintStatus exEnv "s1" .PLANNED exWorldCompleted).2.db.sprints =
        [{ exSprint with status := .PLANNED }]) ∧
    ((updateSprintStatus exEnv "s1" .ACTIVE exWorldCompleted).1 =
        .ok { exSprint with status := .ACTIVE } ∧
      (updateSprintStatus exEnv "s1" .ACTIVE exWorldCompleted).2.db.sprints =
        [{ exSprint with status := .ACTIVE }]) := by
  refine ⟨⟨rfl, by decide⟩, ⟨rfl, by decide⟩, ⟨rfl, by decide⟩⟩

theorem maxByOrder_eq_none {l : List Issue} (h : maxByOrder l = none) : l = [] := by
  cases l with
  | nil => rfl
  | cons i rest =>
    simp only [maxByOrder] at h
    split at h
    · cases h
    · split at h <;> cases h

theorem maxByOrder_some {l : List Issue} {m : Issue} (h : maxByOrder l = some m) :
    m ∈ l ∧ ∀ i ∈ l, i.order ≤ m.order := by
  induction l generalizing m with
  | nil => cases h
  | cons i rest ih =>
    simp only [maxByOrder] at h
    cases hrest : maxByOrder rest with
    | none =>
      rw [hrest] at h
      have hm : i = m := Option.some.inj h
      have hnil := maxByOrder_eq_none hrest
      subst hm hnil
      exact ⟨List.mem_singleton.mpr rfl, fun j hj => by
        rw [List.mem_singleton.mp hj]⟩
    | some j =>
      rw [hrest] at h
      dsimp only at h
      obtain ⟨hj, hmax⟩ := ih hrest
      by_cases hgt : j.order > i.order
      · rw [if_pos hgt] at h
        have hm : j = m := Option.some.inj h
        subst hm
        refine ⟨List.mem_cons_of_mem _ hj, fun k hk => ?_⟩
        rcases List.mem_cons.mp hk with rfl | hk
        · exact le_of_lt hgt
        · exact hmax k hk
      · rw [if_neg hgt] at h
        have hm : i = m := Option.some.inj h
        subst hm
        refine ⟨List.mem_cons_self _ _, fun k hk => ?_⟩
        rcases List.mem_cons.mp hk with rfl | hk
        · exact le_refl _
        · exact le_trans (hmax k hk) (not_lt.mp hgt)

theorem issueCreate_ok (i : Issue) (w w' : World) (r : IssueWithUsers)
    (h : issueCreate i w = (.ok r, w')) :
    w'.db.issues = w.db.issues ++ [r.issue] ∧ r.issue = { i with id := w.db.newId } := by
  unfold issueCreate at h
  simp only [World.record] at h
  split at h
  · simp only [Prod.mk.injEq, Except.ok.injEq] at h
    obtain ⟨hr, hw⟩ := h
    subst hr hw
    exact ⟨rfl, rfl⟩
  · simp at h

/-- What a successful `createIssue` did: the caller is signed in, and the issue table
gained one row, made of the arguments, the caller's user row and the next order of
the (project, status) partition. -/
theorem createIssue_ok (env : Env) (projectId : String) (data : IssueData)
    (orgId : Option String) (w w' : World) (r : IssueWithUsers)
    (hok : createIssue env projectId data orgId w = (.ok r, w')) :
    ∃ user, env.currentUser = some user ∧
      w'.db.issues = w.db.issues ++ [r.issue] ∧
      r.issue.projectId = projectId ∧ r.issue.status = data.status ∧
      r.issue.sprintId = data.sprintId ∧
      r.issue.reporterId = (userUpsert user w).1.id ∧
      r.issue.order =
        (match maxByOrder (partition w.db.issues projectId data.status) with
          | some last => last.order + 1
          | none => 0) := by
  unfold createIssue at hok
  cases hu : env.currentUser with
  | none => rw [hu] at hok; simp at hok
  | some user =>
    rw [hu] at hok
    cases horg : falsy orgId with
    | true => rw [horg] at hok; simp at hok
    | false =>
      rw [horg] at hok
      simp only [Bool.false_eq_true, if_false] at hok
      split at hok
      · rename_i issue w₂ hcreate
        simp only [Prod.mk.injEq, Except.ok.injEq] at hok
        obtain ⟨hr, hw⟩ := hok
        subst hr hw
        obtain ⟨hissues, hrow⟩ := issueCreate_ok _ _ _ _ hcreate
        simp only [issueFindLast, World.record, userUpsert_issues] at hissues hrow
        refine ⟨user, rfl, hissues, ?_, ?_, ?_, ?_, ?_⟩
        all_goals (rw [hrow]; try rfl)
      · simp at hok

theorem mem_partition {issues : List Issue} {projectId : String} {status : IssueStatus}
    {i : Issue} : i ∈ partition issues projectId status ↔
      i ∈ issues ∧ i.projectId = projectId ∧ i.status = status := by
  unfold partition
  rw [List.mem_filter]
  simp

/-- C24. For every successful `createIssue(projectId, data, orgId)`: the created issue's
order is 0 when the store holds no issue of that project and status, and otherwise the
greatest order among those issues plus 1; so it is strictly greater than every order
of that (project, status) partition, and when orders are unique within the partitions
before the call they are unique after it. -/
theorem createIssue_order (env : Env) (projectId : String) (data : IssueData)
    (orgId : Option String) (w w' : World) (r : IssueWithUsers)
    (hok : createIssue env projectId data orgId w = (.ok r, w')) :
    (partition w.db.issues projectId data.status = [] → r.issue.order = 0) ∧
    (partition w.db.issues projectId data.status ≠ [] →
      ∃ m ∈ partition w.db.issues projectId data.status,
        (∀ i ∈ partition w.db.issues projectId data.status, i.order ≤ m.order) ∧
        r.issue.order = m.order + 1) ∧
    (∀ i ∈ partition w.db.issues projectId data.status, i.order < r.issue.order) ∧
    (OrdersUnique w.db.issues → OrdersUnique w'.db.issues) := by
  obtain ⟨user, -, hissues, hproj, hstatus, -, -, horder⟩ :=
    createIssue_ok env projectId data orgId w w' r hok
  have hlt : ∀ i ∈ partition w.db.issues projectId data.status, i.order < r.issue.order := by
    intro i hi
    cases hmax : maxByOrder (partition w.db.issues projectId data.status) with
    | none => rw [maxByOrder_eq_none hmax] at hi; cases hi
    | some m =>
      rw [hmax] at horder
      dsimp only at horder
      have hle := (maxByOrder_some hmax).2 i hi
      rw [horder]
      exact Int.lt_add_one_iff.mpr hle
  refine ⟨?_, ?_, hlt, ?_⟩
  · intro hnil
    rw [hnil] at horder
    exact horder
  · intro hne
    cases hmax : maxByOrder (partition w.db.issues projectId data.status) with
    | none => exact absurd (maxByOrder_eq_none hmax) hne
    | some m =>
      rw [hmax] at horder
      dsimp only at horder
      exact ⟨m, (maxByOrder_some hmax).1, (maxByOrder_some hmax).2, horder⟩
  · intro hunique
    unfold OrdersUnique at hunique ⊢
    rw [hissues, List.pairwise_append]
    refine ⟨hunique, List.pairwise_singleton _ _, ?_⟩
    intro a ha b hb
    rw [List.mem_singleton] at hb
    subst hb
    rintro ⟨hp, hs, ho⟩
    have hmem : a ∈ partition w.db.issues projectId data.status :=
      mem_partition.mpr ⟨ha, by rw [hp, hproj], by rw [hs, hstatus]⟩
    exact absurd ho (ne_of_lt (hlt a hmem))

/-- Witness of C24: a new TODO issue in project `p1` of the example store, whose TODO
issues have orders 0 and 1, gets order 2. -/
theorem createIssue_order_witness :
    (partition exWorld.db.issues "p1" exIssueData.status = [] → exCreated.issue.order = 0) ∧
    (partition exWorld.db.issues "p1" exIssueData.status ≠ [] →
      ∃ m ∈ partition exWorld.db.issues "p1" exIssueData.status,
        (∀ i ∈ partition exWorld.db.issues "p1" exIssueData.status, i.order ≤ m.order) ∧
        exCreated.issue.order = m.order + 1) ∧
    (∀ i ∈ partition exWorld.db.issues "p1" exIssueData.status,
      i.order < exCreated.issue.order) ∧
    (OrdersUnique exWorld.db.issues →
      OrdersUnique (createIssue exEnv "p1" exIssueData (some "org_1") exWorld).2.db.issues) :=
  createIssue_order exEnv "p1" exIssueData (some "org_1") exWorld _ exCreated rfl

/-- C28, as stated, fails. Sprint `s2` belongs to project `p2`; `createIssue` for
project `p1` with `data.sprintId = s2` succeeds and creates an issue of `p1` in the
sprint of `p2`. -/
theorem createIssue_foreign_sprint :
    (exWorldTwoProjects.db.sprints.find? (fun sp => sp.id == "s2")).map Sprint.projectId =
      some "p2" ∧
    (createIssue exEnv "p1" { exIssueData with sprintId := some "s2" } (some "org_1")
      exWorldTwoProjects).1 =
      .ok { exCreated with issue := { exCreated.issue with sprintId := some "s2" } } ∧
    ({ exCreated.issue with sprintId := some "s2" } : Issue).projectId = "p1" ∧
    (createIssue exEnv "p1" { exIssueData with sprintId := some "s2" } (some "org_1")
      exWorldTwoProjects).2.db.issues =
      exWorldTwoProjects.db.issues ++ [{ exCreated.issue with sprintId := some "s2" }] := by
  refine ⟨by decide, rfl, rfl, by decide⟩

/-- C28, amended. A successful `createIssue` stores `projectId` and `data.sprintId` as
they are given: the issue table gains the returned issue, whose project is `projectId`
and whose sprint is `data.sprintId`, whatever project that sprint belongs to. -/
theorem createIssue_keeps_sprint (env : Env) (projectId : String) (data : IssueData)
    (orgId : Option String) (w w' : World) (r : IssueWithUsers)
    (hok : createIssue env projectId data orgId w = (.ok r, w')) :
    w'.db.issues = w.db.issues ++ [r.issue] ∧ r.issue.projectId = projectId ∧
    r.issue.sprintId = data.sprintId := by
  obtain ⟨_, -, hissues, hproj, -, hsprint, -, -⟩ :=
    createIssue_ok env projectId data orgId w w' r hok
  exact ⟨hissues, hproj, hsprint⟩

/-- Witness of amended C28: the issue created in the example store. -/
theorem createIssue_keeps_sprint_witness :
    (createIssue exEnv "p1" exIssueData (some "org_1") exWorld).2.db.issues =
      exWorld.db.issues ++ [exCreated.issue] ∧
    exCreated.issue.projectId = "p1" ∧ exCreated.issue.sprintId = exIssueData.sprintId :=
  createIssue_keeps_sprint exEnv "p1" exIssueData (some "org_1") exWorld _ exCreated rfl

theorem updateIssue_no_project (env : Env) (user : ClerkUser) (issueId org : String)
    (data : IssueChange) (w : World) (issue : Issue)
    (hu : env.currentUser = some user) (hne : (org == "") = false)
    (hissue : w.db.issues.find? (fun i => i.id == issueId) = some issue)
    (hproject : w.db.projects.find? (fun p => p.id == issue.projectId) = none) :
    updateIssue env issueId data (some org) w =
      (.error (mkError ("Error updating issue: " ++ nullPropertyError.message)),
        (userUpsert user w).2.record .issueFindUnique) := by
  simp only [updateIssue, hu, hne, Bool.false_eq_true, if_false, issueFindUnique_upsert,
    hissue, hproject, Option.map_some']

theorem applyUpdates_fixed (batch : List Issue) (row : Issue) :
    (applyUpdates batch row).fixed = row.fixed := by
  induction batch generalizing row with
  | nil => rfl
  | cons u rest ih =>
    simp only [applyUpdates, List.foldl_cons] at ih ⊢
    rw [ih]
    split <;> rfl

/-- Outside `status`, `priority` and `order`, `updateIssue` leaves every issue as it
was, whether it succeeds or throws. -/
theorem updateIssue_fixed (env : Env) (issueId : String) (data : IssueChange)
    (orgId : Option String) (w : World) :
    (updateIssue env issueId data orgId w).2.db.issues.map Issue.fixed =
      w.db.issues.map Issue.fixed := by
  cases hu : env.currentUser with
  | none => rw [updateIssue_unauthorized env issueId data orgId w hu]
  | some user =>
    by_cases hf : falsy orgId = true
    · rw [updateIssue_no_organization env user issueId data orgId w hu hf]
    · cases orgId with
      | none => exact absurd rfl hf
      | some org =>
        have hne := beq_empty_false_of_not hf
        cases hissue : w.db.issues.find? (fun i => i.id == issueId) with
        | none =>
          rw [updateIssue_missing env user issueId org data w hu hne hissue]
          exact congrArg _ (userUpsert_issues user w)
        | some issue =>
          cases hproject : w.db.projects.find? (fun p => p.id == issue.projectId) with
          | none =>
            rw [updateIssue_no_project env user issueId org data w issue hu hne hissue hproject]
            exact congrArg _ (userUpsert_issues user w)
          | some project =>
            rw [updateIssue_found env user issueId org data w issue project hu hne hissue
              hproject]
            split
            · exact congrArg _ (userUpsert_issues user w)
            · show (w.db.issues.map _).map Issue.fixed = _
              rw [List.map_map]
              apply List.map_congr_left
              intro j _
              simp only [Function.comp]
              split <;> rfl

/-- Outside `status` and `order`, `updateIssueOrder` leaves every issue as it was,
whether it succeeds or throws. -/
theorem updateIssueOrder_fixed (env : Env) (batch : List Issue) (orgId : Option String)
    (w : World) :
    (updateIssueOrder env batch orgId w).2.db.issues.map Issue.fixed =
      w.db.issues.map Issue.fixed := by
  unfold updateIssueOrder
  cases env.currentUser with
  | none => rfl
  | some user =>
    cases horg : falsy orgId with
    | true => rfl
    | false =>
      simp only [Bool.false_eq_true, if_false]
      rcases hres : updateEach batch ((userUpsert user w).2.record .transaction) with ⟨res, w₂⟩
      cases res with
      | error e =>
        simp only [transaction, hres]
        exact congrArg _ (userUpsert_issues user w)
      | ok a =>
        simp only [transaction, hres]
        rw [updateEach_ok_issues batch _ w₂ hres, List.map_map]
        simp only [World.record, userUpsert_issues]
        apply List.map_congr_left
        intro j _
        exact applyUpdates_fixed batch j

theorem userUpsert_clerkUserId (user : ClerkUser) (w : World) :
    (userUpsert user w).1.clerkUserId = user.id := by
  unfold userUpsert
  simp only [World.record]
  split
  · rename_i u hfind
    simpa using List.find?_some hfind
  · rfl

theorem userUpsert_mem_users (user : ClerkUser) (w : World) :
    (userUpsert user w).1 ∈ (userUpsert user w).2.db.users := by
  unfold userUpsert
  simp only [World.record]
  split
  · rename_i u hfind
    exact List.mem_of_find?_eq_some hfind
  · simp

theorem userUpsert_users_any (user : ClerkUser) (w : World) (p : User → Bool)
    (h : w.db.users.any p = true) : (userUpsert user w).2.db.users.any p = true := by
  unfold userUpsert
  simp only [World.record]
  split
  · exact h
  · simp only [List.any_append, h, Bool.true_or]

theorem issueCreate_users (i : Issue) (w : World) :
    (issueCreate i w).2.db.users = w.db.users := by
  unfold issueCreate
  simp only [World.record]
  split <;> rfl

/-- The store accepts a new issue whose references all name rows. -/
theorem issueCreate_of_refs (i : Issue) (w : World)
    (hp : w.db.projects.any (fun p => p.id == i.projectId) = true)
    (hr : w.db.users.any (fun u => u.id == i.reporterId) = true)
    (hs : ∀ s, i.sprintId = some s → w.db.sprints.any (fun sp => sp.id == s) = true)
    (ha : ∀ a, i.assigneeId = some a → w.db.users.any (fun u => u.id == a) = true) :
    ∃ r w', issueCreate i w = (.ok r, w') := by
  have hs' : (match i.sprintId with
      | none => true
      | some s => w.db.sprints.any (fun sp => sp.id == s)) = true := by
    cases h : i.sprintId with
    | none => rfl
    | some s => exact hs s h
  have ha' : (match i.assigneeId with
      | none => true
      | some a => w.db.users.any (fun u => u.id == a)) = true := by
    cases h : i.assigneeId with
    | none => rfl
    | some a => exact ha a h
  unfold issueCreate
  simp only [World.record, hp, hr, hs', ha', Bool.and_self, if_true]
  exact ⟨_, _, rfl⟩

theorem issueCreate_error_refs (i : Issue) (w w' : World) (e : JsError)
    (h : issueCreate i w = (.error e, w'))
    (hp : w.db.projects.any (fun p => p.id == i.projectId) = true)
    (hr : w.db.users.any (fun u => u.id == i.reporterId) = true)
    (hs : ∀ s, i.sprintId = some s → w.db.sprints.any (fun sp => sp.id == s) = true)
    (ha : ∀ a, i.assigneeId = some a → w.db.users.any (fun u => u.id == a) = true) :
    False := by
  obtain ⟨r, w'', hok⟩ := issueCreate_of_refs i w hp hr hs ha
  rw [hok] at h
  cases h

/-- A signed-in caller with an organization selected creates an issue whenever the
project exists and the sprint and the assignee, when given, exist: the reporter is the
caller's own user row, which the upsert has just ensured. -/
theorem createIssue_succeeds (env : Env) (user : ClerkUser) (projectId : String)
    (data : IssueData) (orgId : Option String) (w : World)
    (hu : env.currentUser = some user) (horg : falsy orgId = false)
    (hproject : w.db.projects.any (fun p => p.id == projectId) = true)
    (hsprint : ∀ s, data.sprintId = some s → w.db.sprints.any (fun sp => sp.id == s) = true)
    (hassignee : ∀ a, data.assigneeId = some a → a ≠ "" →
      w.db.users.any (fun u => u.id == a) = true) :
    ∃ r w', createIssue env projectId data orgId w = (.ok r, w') := by
  unfold createIssue
  rw [hu]
  simp only [horg, Bool.false_eq_true, if_false]
  split
  · exact ⟨_, _, rfl⟩
  · rename_i e w₂ hcreate
    exfalso
    refine issueCreate_error_refs _ _ _ _ hcreate ?_ ?_ ?_ ?_
    · simp only [issueFindLast, World.record, userUpsert_projects]
      exact hproject
    · simp only [issueFindLast, World.record]
      exact List.any_eq_true.mpr ⟨_, userUpsert_mem_users user w, by simp⟩
    · intro s hs
      simp only [issueFindLast, World.record, userUpsert_sprints]
      exact hsprint s hs
    · intro a ha
      simp only [issueFindLast, World.record]
      apply userUpsert_users_any
      cases hd : data.assigneeId with
      | none => rw [hd] at ha; simp [falsy] at ha
      | some b =>
        rw [hd] at ha
        by_cases hb : b = ""
        · subst hb; simp [falsy] at ha
        · have hf : falsy (some b) = false := by simpa [falsy] using hb
          rw [hf] at ha
          simp only [Bool.false_eq_true, if_false, Option.some.injEq] at ha
          subst ha
          exact hassignee b hd hb

theorem createIssue_users (env : Env) (user : ClerkUser) (projectId : String)
    (data : IssueData) (orgId : Option String) (w : World)
    (hu : env.currentUser = some user) (horg : falsy orgId = false) :
    (createIssue env projectId data orgId w).2.db.users = (userUpsert user w).2.db.users := by
  unfold createIssue
  rw [hu]
  simp only [horg, Bool.false_eq_true, if_false]
  split
  all_goals
    rename_i hcreate
    have h := issueCreate_users
      { id := "", title := data.title, description := data.description,
        status := data.status, priority := data.priority, projectId := projectId,
        sprintId := data.sprintId, reporterId := (userUpsert user w).1.id,
        assigneeId := if falsy data.assigneeId then none else data.assigneeId,
        order :=
          match (issueFindLast projectId data.status (userUpsert user w).2).1 with
          | some last => last.order + 1
          | none => 0 }
      (issueFindLast projectId data.status (userUpsert user w).2).2
    rw [hcreate] at h
    exact h

/-- C26. `createIssue` sets `reporterId` to the calling user's database id: called by a
signed-in user with an organization selected, for an existing project and, when they
are given, an existing sprint and an existing assignee, it succeeds, and the row it adds
to the issue table, which is the issue it returns, has as `reporterId` the id of the
caller's row of the user table, the row whose `clerkUserId` is the caller's id; and
every successful call has stored such a row. For every store and every call of
`updateIssue` or `updateIssueOrder`, successful or not, each issue has after the call
the `reporterId`, and every other field of the record apart from `status`, `priority`
and `order`, that it had before. -/
theorem issue_reporter_immutable (env : Env) (w : World) :
    (∀ user projectId data orgId,
      env.currentUser = some user → falsy orgId = false →
      w.db.projects.any (fun p => p.id == projectId) = true →
      (∀ s, data.sprintId = some s → w.db.sprints.any (fun sp => sp.id == s) = true) →
      (∀ a, data.assigneeId = some a → a ≠ "" →
        w.db.users.any (fun u => u.id == a) = true) →
      ∃ r w', createIssue env projectId data orgId w = (.ok r, w') ∧
        w'.db.issues = w.db.issues ++ [r.issue] ∧
        r.issue.reporterId = (userUpsert user w).1.id ∧
        (userUpsert user w).1.clerkUserId = user.id ∧
        (userUpsert user w).1 ∈ w'.db.users) ∧
    (∀ projectId data orgId r w', createIssue env projectId data orgId w = (.ok r, w') →
      ∃ user, env.currentUser = some user ∧
        w'.db.issues = w.db.issues ++ [r.issue] ∧
        r.issue.reporterId = (userUpsert user w).1.id ∧
        (userUpsert user w).1.clerkUserId = user.id ∧
        (userUpsert user w).1 ∈ w'.db.users) ∧
    (∀ issueId data orgId,
      (updateIssue env issueId data orgId w).2.db.issues.map Issue.fixed =
        w.db.issues.map Issue.fixed) ∧
    (∀ batch orgId,
      (updateIssueOrder env batch orgId w).2.db.issues.map Issue.fixed =
        w.db.issues.map Issue.fixed) := by
  have hstored : ∀ projectId data orgId r w',
      createIssue env projectId data orgId w = (.ok r, w') →
      ∃ user, env.currentUser = some user ∧
        w'.db.issues = w.db.issues ++ [r.issue] ∧
        r.issue.reporterId = (userUpsert user w).1.id ∧
        (userUpsert user w).1.clerkUserId = user.id ∧
        (userUpsert user w).1 ∈ w'.db.users := by
    intro projectId data orgId r w' hok
    obtain ⟨user, hu, hissues, -, -, -, hrep, -⟩ :=
      createIssue_ok env projectId data orgId w w' r hok
    have horg : falsy orgId = false := by
      cases hf : falsy orgId with
      | false => rfl
      | true =>
        unfold createIssue at hok
        rw [hu] at hok
        simp [hf] at hok
    have husers := createIssue_users env user projectId data orgId w hu horg
    rw [hok] at husers
    refine ⟨user, hu, hissues, hrep, userUpsert_clerkUserId user w, ?_⟩
    rw [show w'.db.users = (userUpsert user w).2.db.users from husers]
    exact userUpsert_mem_users user w
  refine ⟨?_, hstored, fun issueId data orgId => updateIssue_fixed env issueId data orgId w,
    fun batch orgId => updateIssueOrder_fixed env batch orgId w⟩
  intro user projectId data orgId hu horg hproject hsprint hassignee
  obtain ⟨r, w', hok⟩ :=
    createIssue_succeeds env user projectId data orgId w hu horg hproject hsprint hassignee
  obtain ⟨user₂, hu₂, hrest⟩ := hstored projectId data orgId r w' hok
  have huser : user₂ = user := Option.some.inj (hu₂.symm.trans hu)
  subst huser
  exact ⟨r, w', hok, hrest⟩

/-- Witness of C26. In the example store the admin `clerk_1`, whose user row is `u1`,
creates an issue in project `p1`: the call succeeds and the stored issue has reporter
`u1`. The member `clerk_2`, who has no user row yet, creates an issue assigned to `u1`:
the call succeeds, the upsert gives the caller the row `id7`, and the stored issue has
reporter `id7`. -/
theorem issue_reporter_immutable_witness :
    (∃ r w', createIssue exEnv "p1" exIssueData (some "org_1") exWorld = (.ok r, w') ∧
      w'.db.issues = exWorld.db.issues ++ [r.issue] ∧
      r.issue.reporterId =
        (userUpsert { id := "clerk_1", name := "Ann", email := "ann@x.org" } exWorld).1.id ∧
      (userUpsert { id := "clerk_1", name := "Ann", email := "ann@x.org" } exWorld).1.clerkUserId =
        "clerk_1" ∧
      (userUpsert { id := "clerk_1", name := "Ann", email := "ann@x.org" } exWorld).1 ∈
        w'.db.users) ∧
    (userUpsert { id := "clerk_1", name := "Ann", email := "ann@x.org" } exWorld).1.id = "u1" ∧
    (∃ r w', createIssue exEnvMember "p1" { exIssueData with assigneeId := some "u1" }
        (some "org_1") exWorld = (.ok r, w') ∧
      w'.db.issues = exWorld.db.issues ++ [r.issue] ∧
      r.issue.reporterId =
        (userUpsert { id := "clerk_2", name := "Bob", email := "bob@x.org" } exWorld).1.id ∧
      (userUpsert { id := "clerk_2", name := "Bob", email := "bob@x.org" } exWorld).1.clerkUserId =
        "clerk_2" ∧
      (userUpsert { id := "clerk_2", name := "Bob", email := "bob@x.org" } exWorld).1 ∈
        w'.db.users) ∧
    (userUpsert { id := "clerk_2", name := "Bob", email := "bob@x.org" } exWorld).1.id = "id7" :=
  ⟨(issue_reporter_immutable exEnv exWorld).1 _ "p1" exIssueData (some "org_1") rfl rfl
      (by decide)
      (fun s hs => by
        have hs1 : s = "s1" := (Option.some.inj hs).symm
        subst hs1
        decide)
      (fun a ha => by cases ha),
    by decide,
    (issue_reporter_immutable exEnvMember exWorld).1 _ "p1"
      { exIssueData with assigneeId := some "u1" } (some "org_1") rfl rfl
      (by decide)
      (fun s hs => by
        have hs1 : s = "s1" := (Option.some.inj hs).symm
        subst hs1
        decide)
      (fun a ha _ => by
        have ha1 : a = "u1" := (Option.some.inj ha).symm
        subst ha1
        decide),
    by decide⟩

/-- C25: the code at the failing input. In the example store orders are unique within
each (project, status) partition; `updateIssue` moves issue A (TODO, order 0) to
IN_PROGRESS, where issue C has order 0, and the store no longer has unique orders. -/
theorem updateIssue_breaks_unique_orders :
    OrdersUnique exWorld.db.issues ∧
    (∃ r, (updateIssue exEnv "A" { status := some .IN_PROGRESS, priority := none }
      (some "org_1") exWorld).1 = .ok r) ∧
    (updateIssue exEnv "A" { status := some .IN_PROGRESS, priority := none }
      (some "org_1") exWorld).2.db.issues =
      [exIssue "A" .IN_PROGRESS 0, exIssue "B" .TODO 1, exIssue "C" .IN_PROGRESS 0] ∧
    ¬ OrdersUnique (updateIssue exEnv "A" { status := some .IN_PROGRESS, priority := none }
      (some "org_1") exWorld).2.db.issues := by
  refine ⟨by decide, ⟨_, rfl⟩, by decide, by decide⟩

theorem createProject_existing (env : Env) (user : ClerkUser) (data : ProjectData)
    (org : String) (w : World) (p : Project) (hu : env.currentUser = some user)
    (hne : (org == "") = false)
    (hfind : w.db.projects.find? (fun p => p.organizationId == org && p.key == data.key) =
      some p) :
    createProject env data (some org) w =
      (.error (mkError ("Error creating project: " ++ ("Project with key \"" ++ data.key ++
          "\" already exists for this organization"))),
        (userUpsert user w).2.record .projectFindFirst) := by
  simp only [createProject, hu, hne, Bool.false_eq_true, if_false, projectFindFirst,
    World.record, userUpsert_projects, hfind]
  rfl

theorem projectCreate_ok (data : ProjectData) (org : String) (w w' : World) (p : Project)
    (h : projectCreate data org w = (.ok p, w')) :
    w'.db.projects = w.db.projects ++ [p] ∧ p.organizationId = org ∧ p.key = data.key := by
  unfold projectCreate at h
  simp only [World.record] at h
  split at h
  · simp at h
  · simp only [Prod.mk.injEq, Except.ok.injEq] at h
    obtain ⟨hp, hw⟩ := h
    subst hp hw
    exact ⟨rfl, rfl, rfl⟩

/-- What a successful `createProject` did: no project of the organization had the key,
and the project table gained the returned project, of that organization and key. -/
theorem createProject_ok (env : Env) (data : ProjectData) (orgId : Option String)
    (w w' : World) (p : Project) (hok : createProject env data orgId w = (.ok p, w')) :
    ∃ org, orgId = some org ∧
      w.db.projects.find? (fun q => q.organizationId == org && q.key == data.key) = none ∧
      w'.db.projects = w.db.projects ++ [p] ∧ p.organizationId = org ∧ p.key = data.key := by
  unfold createProject at hok
  cases hu : env.currentUser with
  | none => rw [hu] at hok; simp at hok
  | some user =>
    rw [hu] at hok
    cases orgId with
    | none => simp at hok
    | some org =>
      by_cases hne : (org == "") = true
      · simp [hne] at hok
      · cases hfind : w.db.projects.find?
            (fun q => q.organizationId == org && q.key == data.key) with
        | some q =>
          simp only [beq_empty_false_of_not hne, Bool.false_eq_true, if_false,
            projectFindFirst, World.record, userUpsert_projects, hfind] at hok
          simp at hok
        | none =>
          simp only [beq_empty_false_of_not hne, Bool.false_eq_true, if_false,
            projectFindFirst, World.record, userUpsert_projects, hfind] at hok
          refine ⟨org, rfl, hfind, ?_⟩
          split at hok
          · simp at hok
          · split at hok
            · rename_i project w₂ hcreate
              simp only [Prod.mk.injEq, Except.ok.injEq] at hok
              obtain ⟨hp, hw⟩ := hok
              subst hp hw
              have h := projectCreate_ok _ _ _ _ _ hcreate
              simpa only [userUpsert_projects] using h
            · simp at hok

theorem createProject_unauthorized (env : Env) (data : ProjectData) (orgId : Option String)
    (w : World) (hu : env.currentUser = none) :
    createProject env data orgId w = (.error (mkError "Unauthorized"), w) := by
  simp only [createProject, hu]

theorem createProject_no_organization (env : Env) (user : ClerkUser) (data : ProjectData)
    (org : String) (w : World) (hu : env.currentUser = some user)
    (horg : (org == "") = true) :
    createProject env data (some org) w = (.error (mkError "No Organization Selected"), w) := by
  simp only [createProject, hu, horg, if_true]

/-- C27. In a store whose project keys are unique per organization: `createProject`
with a key that a project of the asserted organization already has throws and the
project table stays as it was; and after a successful `createProject` the project
table is the old one with the new project, and keys are still unique per
organization. -/
theorem createProject_keys_unique (env : Env) (data : ProjectData) (orgId : Option String)
    (w : World) (hunique : KeysUnique w.db.projects) :
    ((∃ q ∈ w.db.projects, some q.organizationId = orgId ∧ q.key = data.key) →
      (∃ e, (createProject env data orgId w).1 = .error e) ∧
      (createProject env data orgId w).2.db.projects = w.db.projects) ∧
    (∀ p w', createProject env data orgId w = (.ok p, w') →
      w'.db.projects = w.db.projects ++ [p] ∧ KeysUnique w'.db.projects) := by
  constructor
  · rintro ⟨q, hq, horg, hkey⟩
    subst horg
    cases hu : env.currentUser with
    | none =>
      rw [createProject_unauthorized env data _ w hu]
      exact ⟨⟨_, rfl⟩, rfl⟩
    | some user =>
      by_cases hne : (q.organizationId == "") = true
      · rw [createProject_no_organization env user data _ w hu hne]
        exact ⟨⟨_, rfl⟩, rfl⟩
      · cases hfind : w.db.projects.find?
            (fun p => p.organizationId == q.organizationId && p.key == data.key) with
        | none =>
          rw [List.find?_eq_none] at hfind
          exact absurd (by simp [hkey]) (hfind q hq)
        | some p' =>
          rw [createProject_existing env user data _ w p' hu (beq_empty_false_of_not hne) hfind]
          exact ⟨⟨_, rfl⟩, userUpsert_projects user w⟩
  · intro p w' hok
    obtain ⟨org, -, hfind, hprojects, hporg, hpkey⟩ := createProject_ok env data orgId w w' p hok
    refine ⟨hprojects, ?_⟩
    unfold KeysUnique at hunique ⊢
    rw [hprojects, List.pairwise_append]
    refine ⟨hunique, List.pairwise_singleton _ _, ?_⟩
    intro a ha b hb
    rw [List.mem_singleton] at hb
    subst hb
    rintro ⟨ho, hk⟩
    rw [List.find?_eq_none] at hfind
    exact hfind a ha (by simp [ho, hk, hporg, hpkey])

/-- Witness of C27: in the example store the key P is taken in `org_1`, and the key Q
is not. -/
theorem createProject_keys_unique_witness :
    ((∃ e, (createProject exEnv { name := "P again", key := "P", description := none }
        (some "org_1") exWorld).1 = .error e) ∧
      (createProject exEnv { name := "P again", key := "P", description := none }
        (some "org_1") exWorld).2.db.projects = exWorld.db.projects) ∧
    ((createProject exEnv { name := "Q", key := "Q", description := none }
        (some "org_1") exWorld).2.db.projects =
        exWorld.db.projects ++
          [{ id := "id7", name := "Q", key := "Q", description := none,
             organizationId := "org_1" }] ∧
      KeysUnique (createProject exEnv { name := "Q", key := "Q", description := none }
        (some "org_1") exWorld).2.db.projects) :=
  ⟨(createProject_keys_unique exEnv { name := "P again", key := "P", description := none }
      (some "org_1") exWorld (by decide)).1 ⟨exProject, by decide, rfl, rfl⟩,
   (createProject_keys_unique exEnv { name := "Q", key := "Q", description := none }
      (some "org_1") exWorld (by decide)).2
      { id := "id7", name := "Q", key := "Q", description := none, organizationId := "org_1" }
      _ rfl⟩

/-! ## The board component: claim -/

/-- C23, as stated, fails. Another client has deleted issue B. The board still shows
A, B, C; B is dragged above A; `onDragEnd` commits [B(0), C(0), A(1)] and
`updateIssueOrder` rejects, B being gone. Whatever the hook keeps of the error, the
component then still holds the optimistic list, with B in it, while the store's list
for the sprint is [A, C]; and no call of `fetchIssues` has been added. -/
theorem board_not_reconciled :
    onDragEnd exComponent.board ⟨⟨.TODO, 1⟩, some ⟨.TODO, 0⟩⟩ =
      .committed [exIssue "B" .TODO 0, exIssue "C" .IN_PROGRESS 0, exIssue "A" .TODO 1] ∧
    (updateIssueOrder exEnv
        [exIssue "B" .TODO 0, exIssue "C" .IN_PROGRESS 0, exIssue "A" .TODO 1]
        (some "org_1") exWorldWithoutB).1 =
      .error (mkError ("Error updating issue order: " ++ recordNotFound.message)) ∧
    ((getIssuesForSprint exEnv "s1" (some "org_1") exWorldWithoutB).1.toOption.map
        (fun rows => rows.map (fun r => r.issue)) =
      some [exIssue "A" .TODO 0, exIssue "C" .IN_PROGRESS 0]) ∧
    ∀ hookError : JsError → Option JsError,
      (afterReject hookError
        (afterCommit exComponent
          [exIssue "B" .TODO 0, exIssue "C" .IN_PROGRESS 0, exIssue "A" .TODO 1])
        (mkError ("Error updating issue order: " ++ recordNotFound.message))).board.issues =
        some [exIssue "B" .TODO 0, exIssue "C" .IN_PROGRESS 0, exIssue "A" .TODO 1] ∧
      (afterReject hookError
        (afterCommit exComponent
          [exIssue "B" .TODO 0, exIssue "C" .IN_PROGRESS 0, exIssue "A" .TODO 1])
        (mkError ("Error updating issue order: " ++ recordNotFound.message))).fetches =
        exComponent.fetches := by
  refine ⟨by decide, rfl, by decide, fun hookError => ⟨rfl, rfl⟩⟩

/-- C23, amended. After `onDragEnd` has committed a reordered list and
`updateIssueOrder` has rejected, the component keeps the optimistic list as its issue
list and its filtered list, the failure shows only in the `error` of the update hook,
and no call of `fetchIssues` (so of `getIssuesForSprint`) has been made. -/
theorem board_keeps_optimistic_list (hookError : JsError → Option JsError) (c : Component)
    (sortedIssues : List Issue) (e : JsError) :
    (afterReject hookError (afterCommit c sortedIssues) e).board.issues = some sortedIssues ∧
    (afterReject hookError (afterCommit c sortedIssues) e).board.filteredIssues =
      sortedIssues ∧
    (afterReject hookError (afterCommit c sortedIssues) e).updateIssuesError = hookError e ∧
    (afterReject hookError (afterCommit c sortedIssues) e).fetches = c.fetches :=
  ⟨rfl, rfl, rfl, rfl⟩

end PMO
